import Mathlib

/-!
# Toolifiq front-end conversion scripts

A shallow embedding of the validation and download-resolution code of the
scripts under `Frontend/static/js` (`jpg-to-pdf.js`, `png-to-pdf.js`,
`pdf-to-html.js`, `pdf-to-jpg.js`, `pdf-to-png.js`, `pdf-to-webp.js`,
`pdf-to-word.js`), one namespace per script.

Conventions of the embedding.

* JavaScript strings are Lean strings; the helpers work on the character list.
* `file.size` and `totalSize` are natural numbers: sizes are non-negative
  integers and every sum formed here stays far below `2^53`, where double
  arithmetic on integers is exact.
* The part of the page a function writes is passed and returned explicitly
  (`Page`): the status banner written by `showStatus` and the list of files
  held by the file input.
-/

namespace Toolifiq

/-! ## Strings -/

/-- Case-insensitive match of one input character against an ASCII pattern
letter, as a regular expression with the `i` flag (and no `u` flag) does it:
both are canonicalised with `toUpperCase`, and a non-ASCII character never
canonicalises to an ASCII one, so only the two cases of the letter match.
For a pattern character that is not a letter (the dot) this is equality. -/
def matchCharI (pat c : Char) : Bool :=
  c == pat.toLower || c == pat.toUpper

/-- Pointwise case-insensitive match of a pattern against a text of the same length. -/
def matchAllI : List Char → List Char → Bool
  | [], [] => true
  | p :: ps, c :: cs => matchCharI p c && matchAllI ps cs
  | _, _ => false

/-- Regular expression test for a literal pattern anchored at the end of the
input under the `i` flag, e.g. `/\.pdf$/i.test(s)`: the last `pat.length`
characters of `s` match `pat` letter by letter, in either case. -/
def endsWithI (pat s : List Char) : Bool :=
  pat.length ≤ s.length && matchAllI pat (s.drop (s.length - pat.length))

/-- The method `String.prototype.toLowerCase`. Only the ASCII letters are
mapped; the scripts only compare the result against the ASCII suffixes `.pdf`
and `.png`, and no character outside ASCII lower-cases to one of
`.`, `p`, `d`, `f`, `n`, `g`, so the suffix tests agree with the full mapping. -/
def toLowerCase (s : String) : String :=
  ⟨s.data.map Char.toLower⟩

/-- The method `String.prototype.endsWith`. -/
def endsWith (s suffix : String) : Bool :=
  suffix.data.isSuffixOf s.data

/-! ## Files and the page -/

/-- A browser `File`, as far as the scripts read it. -/
structure File where
  name : String
  type : String
  size : Nat
deriving DecidableEq

/-- The arguments of a `showStatus(type, message, details)` call; the banner
written to `conversionStatus.innerHTML` is a function of them. Scripts whose
`showStatus` has no third parameter leave `details` empty. -/
structure Status where
  type : String
  message : String
  details : String
deriving DecidableEq

/-- The page state the validators touch: the banner last written by
`showStatus` (`none` before any call) and the files held by `fileInput`. -/
structure Page where
  status : Option Status
  selection : List File
deriving DecidableEq

/-- The function `showStatus(type, message)` of the scripts: replaces the banner. -/
def showStatus (type message : String) (pg : Page) : Page :=
  { pg with status := some ⟨type, message, ""⟩ }

/-- The assignment `fileInput.value = ''`: on a file input, setting the value to
the empty string empties its list of selected files. -/
def clearFileInput (pg : Page) : Page :=
  { pg with selection := [] }

/-! ## Result payloads and the download request -/

/-- An entry of the `images` array of a result payload; an entry without a
`url` property has `url = none`. -/
structure Image where
  url : Option String
deriving DecidableEq

/-- The properties of a result payload (`fileData`) that `handleDownload`
reads. The path properties are strings when present; an absent (or `null`)
property is `none`. -/
structure FileData where
  converted_file_url : Option String
  converted_file : Option String
  images : Option (List Image)
deriving DecidableEq

/-- JavaScript truthiness of a string-valued property: it is present and not
the empty string. -/
def truthy : Option String → Bool
  | some s => s != ""
  | none => false

/-- The constant `BACKEND_URL`, the same in every script. -/
def BACKEND_URL : String := "http://127.0.0.1:8000"

/-- A literal matched at the start of the input: the input left after it. -/
def dropLiteral (lit cs : List Char) : Option (List Char) :=
  if lit.isPrefixOf cs then some (cs.drop lit.length) else none

/-- The group `(https?:\/\/[^/]+)` matched at the start of the input: the
scheme with the optional `s` tried first, then one or more characters other
than `/`, as many as there are. The result is the input left after the group,
`none` when the group does not match (no scheme, or no host character). -/
def matchOrigin (cs : List Char) : Option (List Char) :=
  match (dropLiteral "https://".data cs).orElse fun _ => dropLiteral "http://".data cs with
  | some rest =>
    if (rest.takeWhile (· != '/')).isEmpty then none else some (rest.dropWhile (· != '/'))
  | none => none

/-- The call `filePath.replace(/^(https?:\/\/[^/]+)?\/?/, '')`: the pattern
is anchored at the start and all of it is optional, so it always matches there
and the match is removed: the origin group when it matches, then one `/` when
the next character is one. -/
def cleanPath (filePath : List Char) : List Char :=
  match (matchOrigin filePath).getD filePath with
  | '/' :: rest => rest
  | rest => rest

/-- The function `constructDownloadUrl(filePath)`, the same text in
`jpg-to-pdf.js`, `pdf-to-jpg.js`, `pdf-to-png.js`, `pdf-to-webp.js`,
`pdf-to-word.js` and `png-to-pdf.js`. -/
def constructDownloadUrl (filePath : String) : String :=
  BACKEND_URL ++ "/" ++ ⟨cleanPath filePath.data⟩

/-- The method `String.prototype.split` for a one-character separator. -/
def split (sep : Char) : List Char → List (List Char)
  | [] => [[]]
  | c :: cs =>
    if c == sep then [] :: split sep cs
    else
      match split sep cs with
      | [] => [[c]]
      | part :: parts => (c :: part) :: parts

/-- The method `String.prototype.indexOf` for one character; `none` is `-1`. -/
def indexOf (c : Char) : List Char → Option Nat
  | [] => none
  | x :: xs => if x == c then some 0 else (indexOf c xs).map (· + 1)

/-- The call `s.replace(/\.pdf$/i, ext)`. -/
def replacePdfExtension (ext : String) (s : List Char) : List Char :=
  if endsWithI ".pdf".data s then s.take (s.length - 4) ++ ext.data else s

/-- The file name `handleDownload` derives from the result path, starting
from the default name `fileName` of the script: the last `/`-separated part,
cut after its first `_` when it has one; `mapCut` is what the script then
applies to the cut name (the extension replacement, or nothing). -/
def deriveFileName (fileName : String) (mapCut : List Char → List Char)
    (filePath : String) : String :=
  let pathParts := split '/' filePath.data
  if pathParts.length > 0 then
    let lastPart := pathParts.getD (pathParts.length - 1) []
    match indexOf '_' lastPart with
    | some idSeparatorIndex => ⟨mapCut (lastPart.drop (idSeparatorIndex + 1))⟩
    | none => ⟨lastPart⟩
  else
    fileName

/-- What reaches the `catch` block of a handler. -/
inductive Thrown where
  /-- The statement `throw new Error(message)`. -/
  | error (message : String)
  /-- A `TypeError` raised by the engine, e.g. a method call on `undefined`. -/
  | typeError
deriving DecidableEq

/-- The run of `handleDownload` up to its first `await`. -/
inductive DownloadStep where
  /-- An exception reached the `catch` block before `fetch` was called. -/
  | caught (e : Thrown)
  /-- The handler called `fetch(downloadUrl)`; `filePath` is the path it
  selected and `fileName` the local of that name when it is assigned before
  the call. -/
  | fetch (downloadUrl filePath : String) (fileName : Option String)
deriving DecidableEq

/-- The exception that ended the run, if any. -/
def DownloadStep.thrown : DownloadStep → Option Thrown
  | .caught e => some e
  | .fetch _ _ _ => none

/-- The URL requested by the run, if any. -/
def DownloadStep.request : DownloadStep → Option String
  | .caught _ => none
  | .fetch downloadUrl _ _ => some downloadUrl

/-- The result path the run selected for the download, if it got that far. -/
def DownloadStep.path : DownloadStep → Option String
  | .caught _ => none
  | .fetch _ filePath _ => some filePath

/-- The statements of `handleDownload` from `constructDownloadUrl(filePath)`
to the call of `fetch`, for the selected path; `none` is a path that is
`undefined`, on which `constructDownloadUrl` calls `replace` and so raises a
`TypeError`. `fileName` is the derivation of the local `fileName`, when the
script has it before the call. -/
def DownloadStep.ofPath (fileName : String → Option String) : Option String → DownloadStep
  | some filePath => .fetch (constructDownloadUrl filePath) filePath (fileName filePath)
  | none => .caught .typeError

/-! ## The response to the download request -/

/-- A `Response`, as far as `handleDownload` reads it: the status code and the
value of `response.headers.get('content-disposition')` (`none` is `null`). -/
structure Response where
  status : Nat
  contentDisposition : Option String
deriving DecidableEq

/-- The property `response.ok`: the status is in the range 200 to 299. -/
def Response.ok (response : Response) : Bool :=
  200 ≤ response.status && response.status ≤ 299

/-- How the promise returned by `fetch` settles. -/
inductive Fetched where
  /-- The promise rejects (network failure, abort). -/
  | rejected (e : Thrown)
  /-- The promise resolves with a response. -/
  | resolved (response : Response)
deriving DecidableEq

/-- How a run of `handleDownload` ends. -/
inductive DownloadResult where
  /-- The `catch` block ran with this exception. -/
  | failed (e : Thrown)
  /-- The anchor was clicked with `a.download = fileName`, for the body
  fetched from `downloadUrl`. -/
  | saved (downloadUrl fileName : String)
deriving DecidableEq

/-- The statements of `handleDownload` after `await fetch(downloadUrl)` in the
scripts that assign the local `fileName` before the request (`jpg-to-pdf.js`,
`pdf-to-jpg.js`, `pdf-to-png.js`, `pdf-to-webp.js`, `pdf-to-word.js`): a
response that is not ok throws, otherwise the body is saved under `fileName`,
whose initial value is `defaultName`. The headers of the response are not
read. -/
def DownloadStep.resume (defaultName : String) : DownloadStep → Fetched → DownloadResult
  | .caught e, _ => .failed e
  | .fetch _ _ _, .rejected e => .failed e
  | .fetch downloadUrl _ fileName, .resolved response =>
    if !response.ok then
      .failed (.error ("Server responded with " ++ toString response.status))
    else
      .saved downloadUrl (fileName.getD defaultName)

/-- Line terminators, which `.` in a regular expression does not match. -/
def isLineTerminator (c : Char) : Bool :=
  c == '\n' || c == '\r' || c.toNat == 0x2028 || c.toNat == 0x2029

/-- The rest `(.+?)"?$` of the pattern `/filename="?(.+?)"?$/` matched at the
start of `cs`: the lazy group takes the fewest characters, at least one and
none of them a line terminator, such that what is left is nothing or one
closing quote. The result is the text of the group. -/
def matchFileNameGroup (cs : List Char) : Option (List Char) :=
  if 2 ≤ cs.length && cs.getLast? == some '"' && !cs.dropLast.any isLineTerminator then
    some cs.dropLast
  else if 1 ≤ cs.length && !cs.any isLineTerminator then
    some cs
  else
    none

/-- The pattern `"?(.+?)"?$` matched right after `filename=`: the optional
opening quote is tried first, then the match without it. -/
def matchFileNameTail (cs : List Char) : Option (List Char) :=
  match cs with
  | '"' :: rest => (matchFileNameGroup rest).orElse fun _ => matchFileNameGroup cs
  | _ => matchFileNameGroup cs

/-- The call `contentDisposition.match(/filename="?(.+?)"?$/)`, as its group 1:
the pattern is tried at every position from the left, and the first position
where it matches gives the result; `none` is no match. -/
def matchFileName : List Char → Option (List Char)
  | [] => none
  | c :: cs =>
    match (dropLiteral "filename=".data (c :: cs)).bind matchFileNameTail with
    | some group => some group
    | none => matchFileName cs

/-! ## jpg-to-pdf.js -/

namespace JpgToPdf

/-- The array `validTypes` of `validateFiles`. -/
def validTypes : List String := ["image/jpeg", "image/jpg"]

/-- The test `validExtensions.test(name)` for `validExtensions = /\.jpe?g$/i`:
the optional `e` gives the two literal endings `.jpeg` and `.jpg`. -/
def validExtensions.test (name : String) : Bool :=
  endsWithI ".jpeg".data name.data || endsWithI ".jpg".data name.data

/-- The `for (let file of files)` loop of `validateFiles`, with `totalSize` as
accumulator: `Except.error` is a `return` from inside the loop (the value
returned and the page it leaves), `Except.ok` the `totalSize` after the loop. -/
def validateFiles.loop (pg : Page) : List File → Nat → Except (Bool × Page) Nat
  | [], totalSize => .ok totalSize
  | file :: rest, totalSize =>
    if !validTypes.contains file.type && !validExtensions.test file.name then
      .error (false, clearFileInput (showStatus "error" "Only JPG/JPEG files are allowed" pg))
    else if file.size > 20 * 1024 * 1024 then
      .error (false, clearFileInput
        (showStatus "error" ("File " ++ file.name ++ " is too large (max 20MB)") pg))
    else
      validateFiles.loop pg rest (totalSize + file.size)

/-- The function `validateFiles(files)` of `jpg-to-pdf.js`. -/
def validateFiles (files : List File) (pg : Page) : Bool × Page :=
  match validateFiles.loop pg files 0 with
  | .error r => r
  | .ok totalSize =>
    if totalSize > 100 * 1024 * 1024 then
      (false, clearFileInput (showStatus "error" "Total files size too large (max 50MB)" pg))
    else
      (true, pg)

/-- The function `handleDownload(fileData)` of this script, up to
`await fetch(downloadUrl)`. -/
def handleDownload (fileData : FileData) : DownloadStep :=
  let fileName := fun filePath => some (deriveFileName "converted.pdf" id filePath)
  if truthy fileData.converted_file_url then
    DownloadStep.ofPath fileName fileData.converted_file_url
  else if truthy fileData.converted_file then
    DownloadStep.ofPath fileName fileData.converted_file
  else
    .caught (.error "No file path available")

/-- The function `handleDownload(fileData)` of this script, from its call to
the save or the `catch` block, for the way the download request settles. -/
def handleDownload.run (fileData : FileData) (fetched : Fetched) : DownloadResult :=
  (handleDownload fileData).resume "converted.pdf" fetched

end JpgToPdf

/-! ## png-to-pdf.js -/

namespace PngToPdf

/-- The `for (const file of files)` loop of `validateFiles`: `some` is a
`return` from inside the loop, `none` means the loop ran to its end. -/
def validateFiles.loop (pg : Page) : List File → Option (Bool × Page)
  | [] => none
  | file :: rest =>
    if !endsWith (toLowerCase file.name) ".png" then
      some (false, showStatus "error" ("Only PNG files are allowed (" ++ file.name ++ ")") pg)
    else if file.size > 10 * 1024 * 1024 then
      some (false, showStatus "error" ("File too large (" ++ file.name ++ " - max 10MB)") pg)
    else
      validateFiles.loop pg rest

/-- The function `validateFiles(files)` of `png-to-pdf.js`. -/
def validateFiles (files : List File) (pg : Page) : Bool × Page :=
  if files.length = 0 then
    (false, showStatus "error" "Please select at least one file" pg)
  else if files.length > 20 then
    (false, showStatus "error" "Maximum 20 files allowed" pg)
  else
    match validateFiles.loop pg files with
    | some r => r
    | none => (true, pg)

/-- The function `handleDownload(fileData)` of this script, up to
`await fetch(downloadUrl, ...)`; the local `fileName` is assigned only after
the response, from its `Content-Disposition` header. -/
def handleDownload (fileData : FileData) : DownloadStep :=
  let filePath :=
    if truthy fileData.converted_file_url then fileData.converted_file_url
    else fileData.converted_file
  if !truthy filePath then
    .caught (.error "No file path available")
  else
    DownloadStep.ofPath (fun _ => none) filePath

/-- The function `handleDownload(fileData)` of this script, from its call to
the save or the `catch` block, for the way the download request settles: the
name is `converted.pdf` unless the `Content-Disposition` header of the
response matches `/filename="?(.+?)"?$/`, and then it is the group matched. -/
def handleDownload.run (fileData : FileData) (fetched : Fetched) : DownloadResult :=
  match handleDownload fileData, fetched with
  | .caught e, _ => .failed e
  | .fetch _ _ _, .rejected e => .failed e
  | .fetch downloadUrl _ _, .resolved response =>
    if !response.ok then
      .failed (.error ("Server responded with " ++ toString response.status))
    else
      let fileName :=
        match response.contentDisposition with
        | some contentDisposition =>
          if truthy (some contentDisposition) then
            match matchFileName contentDisposition.data with
            | some group => ⟨group⟩
            | none => "converted.pdf"
          else "converted.pdf"
        | none => "converted.pdf"
      .saved downloadUrl fileName

end PngToPdf

/-! ## pdf-to-html.js, pdf-to-jpg.js, pdf-to-webp.js -/

namespace PdfToHtml

/-- The array `validTypes` of `validateFile`. -/
def validTypes : List String := ["application/pdf"]

/-- The test `validExtensions.test(name)` for `validExtensions = /\.pdf$/i`. -/
def validExtensions.test (name : String) : Bool :=
  endsWithI ".pdf".data name.data

/-- The function `validateFile(file)` of `pdf-to-html.js`. -/
def validateFile (file : File) (pg : Page) : Bool × Page :=
  if !validTypes.contains file.type && !validExtensions.test file.name then
    (false, clearFileInput (showStatus "error" "Only PDF files are allowed" pg))
  else if file.size > 20 * 1024 * 1024 then
    (false, clearFileInput (showStatus "error" "File size too large (max 20MB)" pg))
  else
    (true, pg)

/-- The function `handleDownload(taskData)` of `pdf-to-html.js` up to
`await fetch(taskData.download_url)`; `download_url` is that property of the
status payload. The URL is passed to `fetch` as it is, and no file name is
computed before the request. -/
def handleDownload (download_url : Option String) : DownloadStep :=
  if !truthy download_url then
    .caught (.error "No download URL available")
  else
    match download_url with
    | some url => .fetch url url none
    | none => .caught .typeError

/-- The function `handleDownload(taskData)` of `pdf-to-html.js`, from its call
to the save or the `catch` block: the name is the last `/`-separated part of
the URL, or `converted.html` when that part is empty. -/
def handleDownload.run (download_url : Option String) (fetched : Fetched) : DownloadResult :=
  match handleDownload download_url, fetched with
  | .caught e, _ => .failed e
  | .fetch _ _ _, .rejected e => .failed e
  | .fetch downloadUrl _ _, .resolved response =>
    if !response.ok then
      .failed (.error ("Server responded with " ++ toString response.status))
    else
      let parts := split '/' downloadUrl.data
      let last : String := ⟨parts.getD (parts.length - 1) []⟩
      .saved downloadUrl (if truthy (some last) then last else "converted.html")

end PdfToHtml

namespace PdfToJpg

/-- The array `validTypes` of `validateFile`. -/
def validTypes : List String := ["application/pdf"]

/-- The test `validExtensions.test(name)` for `validExtensions = /\.pdf$/i`. -/
def validExtensions.test (name : String) : Bool :=
  endsWithI ".pdf".data name.data

/-- The function `validateFile(file)` of `pdf-to-jpg.js`. -/
def validateFile (file : File) (pg : Page) : Bool × Page :=
  if !validTypes.contains file.type && !validExtensions.test file.name then
    (false, clearFileInput (showStatus "error" "Only PDF files are allowed" pg))
  else if file.size > 20 * 1024 * 1024 then
    (false, clearFileInput (showStatus "error" "File size too large (max 20MB)" pg))
  else
    (true, pg)

/-- The function `handleDownload(fileData)` of this script, up to
`await fetch(downloadUrl)`. -/
def handleDownload (fileData : FileData) : DownloadStep :=
  let fileName := fun filePath =>
    some (deriveFileName "converted.jpg" (replacePdfExtension ".jpg") filePath)
  if truthy fileData.converted_file_url then
    DownloadStep.ofPath fileName fileData.converted_file_url
  else if truthy fileData.converted_file then
    DownloadStep.ofPath fileName fileData.converted_file
  else
    match fileData.images with
    | some (image :: _) => DownloadStep.ofPath fileName image.url
    | _ => .caught (.error "No file path available")

/-- The function `handleDownload(fileData)` of this script, from its call to
the save or the `catch` block, for the way the download request settles. -/
def handleDownload.run (fileData : FileData) (fetched : Fetched) : DownloadResult :=
  (handleDownload fileData).resume "converted.jpg" fetched

end PdfToJpg

namespace PdfToWebp

/-- The array `validTypes` of `validateFile`. -/
def validTypes : List String := ["application/pdf"]

/-- The test `validExtensions.test(name)` for `validExtensions = /\.pdf$/i`. -/
def validExtensions.test (name : String) : Bool :=
  endsWithI ".pdf".data name.data

/-- The function `validateFile(file)` of `pdf-to-webp.js`. -/
def validateFile (file : File) (pg : Page) : Bool × Page :=
  if !validTypes.contains file.type && !validExtensions.test file.name then
    (false, clearFileInput (showStatus "error" "Only PDF files are allowed" pg))
  else if file.size > 20 * 1024 * 1024 then
    (false, clearFileInput (showStatus "error" "File size too large (max 20MB)" pg))
  else
    (true, pg)

/-- The function `handleDownload(fileData)` of this script, up to
`await fetch(downloadUrl)`. -/
def handleDownload (fileData : FileData) : DownloadStep :=
  let fileName := fun filePath => some (deriveFileName "converted.webp" (replacePdfExtension ".webp") filePath)
  if truthy fileData.converted_file_url then
    DownloadStep.ofPath fileName fileData.converted_file_url
  else if truthy fileData.converted_file then
    DownloadStep.ofPath fileName fileData.converted_file
  else
    .caught (.error "No file path available")

/-- The function `handleDownload(fileData)` of this script, from its call to
the save or the `catch` block, for the way the download request settles. -/
def handleDownload.run (fileData : FileData) (fetched : Fetched) : DownloadResult :=
  (handleDownload fileData).resume "converted.webp" fetched

end PdfToWebp

/-! ## pdf-to-word.js, pdf-to-png.js -/

namespace PdfToWord

/-- The constant `MAX_FILE_SIZE`. -/
def MAX_FILE_SIZE : Nat := 20 * 1024 * 1024

/-- The function `validateFile(file)` of `pdf-to-word.js`. The message is
built from `MAX_FILE_SIZE/1024/1024`, which is the number 20. -/
def validateFile (file : File) (pg : Page) : Bool × Page :=
  if !endsWith (toLowerCase file.name) ".pdf" then
    (false, clearFileInput (showStatus "error" "Only PDF files are allowed" pg))
  else if file.size > MAX_FILE_SIZE then
    (false, clearFileInput (showStatus "error" "File size exceeds 20MB limit" pg))
  else
    (true, pg)

/-- The function `handleDownload(fileData)` of this script, up to
`await fetch(downloadUrl)`. -/
def handleDownload (fileData : FileData) : DownloadStep :=
  let fileName := fun filePath => some (deriveFileName "converted.docx" (replacePdfExtension ".docx") filePath)
  if truthy fileData.converted_file_url then
    DownloadStep.ofPath fileName fileData.converted_file_url
  else if truthy fileData.converted_file then
    DownloadStep.ofPath fileName fileData.converted_file
  else
    .caught (.error "No file path available")

/-- The function `handleDownload(fileData)` of this script, from its call to
the save or the `catch` block, for the way the download request settles. -/
def handleDownload.run (fileData : FileData) (fetched : Fetched) : DownloadResult :=
  (handleDownload fileData).resume "converted.docx" fetched

end PdfToWord

namespace PdfToPng

/-- The function `showStatus(type, message, details)` of `pdf-to-png.js`. -/
def showStatus (type message details : String) (pg : Page) : Page :=
  { pg with status := some ⟨type, message, details⟩ }

/-- The function `validateFile(file)` of `pdf-to-png.js`; it does not touch
the file input (its caller does, on rejection). -/
def validateFile (file : File) (pg : Page) : Bool × Page :=
  if !endsWith (toLowerCase file.name) ".pdf" then
    (false, showStatus "error" "Invalid file type" "Please upload a PDF file" pg)
  else if file.size > 20 * 1024 * 1024 then
    (false, showStatus "error" "File too large" "Maximum file size is 20MB" pg)
  else
    (true, pg)

/-- The function `handleDownload(fileData)` of this script, up to
`await fetch(downloadUrl)`. -/
def handleDownload (fileData : FileData) : DownloadStep :=
  let fileName := fun filePath => some (deriveFileName "converted.png" (replacePdfExtension ".png") filePath)
  if truthy fileData.converted_file_url then
    DownloadStep.ofPath fileName fileData.converted_file_url
  else if truthy fileData.converted_file then
    DownloadStep.ofPath fileName fileData.converted_file
  else
    .caught (.error "No file path available")

/-- The function `handleDownload(fileData)` of this script, from its call to
the save or the `catch` block, for the way the download request settles. -/
def handleDownload.run (fileData : FileData) (fetched : Fetched) : DownloadResult :=
  (handleDownload fileData).resume "converted.png" fetched

end PdfToPng

/-! ## pdf-to-html.js: polling -/

namespace PdfToHtml

/-- The constant `STATUS_ENDPOINT`. -/
def STATUS_ENDPOINT : String := BACKEND_URL ++ "/api/conversion-status/"

/-- The body of a status response, as far as the script reads it; an absent
property is `none`. -/
structure StatusPayload where
  status : Option String
  download_url : Option String
  error : Option String
deriving DecidableEq

/-- How one call of `pollConversionStatus` goes on after its request. -/
inductive PollOutcome where
  /-- The request is rejected, the response is not ok, or its body is not
  JSON: control reaches the `catch` block. -/
  | failed
  /-- The response is ok and `data` is its parsed body. -/
  | payload (data : StatusPayload)
deriving DecidableEq

/-- The state of the page of `pdf-to-html.js`: what `showStatus` and the
download container show, the convert button, the module variables
`currentTaskId` and `pollInterval`, the interval timers that are set and not
cleared (with the task id their callback polls), the handle `setInterval`
returns next, the number of status requests awaiting their response, and the
URLs of the status requests issued so far. -/
structure State where
  page : Page
  downloadButton : Option StatusPayload
  convertDisabled : Bool
  currentTaskId : Option String
  pollInterval : Option Nat
  timers : List (Nat × Option String)
  nextTimer : Nat
  inFlight : Nat
  requests : List String
deriving DecidableEq

/-- The page after loading: no timer, no request; timer handles are positive
integers. -/
def State.initial : State :=
  { page := ⟨none, []⟩, downloadButton := none, convertDisabled := false,
    currentTaskId := none, pollInterval := none, timers := [], nextTimer := 1,
    inFlight := 0, requests := [] }

/-- The call `clearInterval(handle)`: the timer with that handle, if there is
one, is no longer set; `null` names no timer. -/
def clearInterval (handle : Option Nat) (s : State) : State :=
  { s with timers := s.timers.filter fun t => some t.1 != handle }

/-- The function `resetConvertButton()`. -/
def resetConvertButton (s : State) : State :=
  { s with convertDisabled := false }

/-- The function `showDownloadButton(taskData)`: the download button, bound to
`taskData`, is shown and the convert button reset. -/
def showDownloadButton (taskData : StatusPayload) (s : State) : State :=
  resetConvertButton { s with downloadButton := some taskData }

/-- The function `startConversionPolling(taskId)`: a truthy `pollInterval`
(a handle other than 0) is cleared, then a new interval timer is set and its
handle stored in `pollInterval`. -/
def startConversionPolling (taskId : Option String) (s : State) : State :=
  let s1 :=
    match s.pollInterval with
    | some handle => if handle != 0 then clearInterval (some handle) s else s
    | none => s
  { s1 with
    pollInterval := some s1.nextTimer
    timers := s1.timers ++ [(s1.nextTimer, taskId)]
    nextTimer := s1.nextTimer + 1 }

/-- The function `pollConversionStatus(taskId)` up to `await fetch(...)`: the
status request for `taskId` is issued; an `undefined` task id is written
`undefined` by the template string. -/
def pollConversionStatus.request (taskId : Option String) (s : State) : State :=
  { s with
    inFlight := s.inFlight + 1
    requests := s.requests ++ [STATUS_ENDPOINT ++ taskId.getD "undefined" ++ "/"] }

/-- The function `pollConversionStatus(taskId)` after its request has settled
with `outcome`. -/
def pollConversionStatus.settle (outcome : PollOutcome) (s : State) : State :=
  let s := { s with inFlight := s.inFlight - 1 }
  match outcome with
  | .payload data =>
    if data.status == some "COMPLETED" then
      showDownloadButton data
        { clearInterval s.pollInterval s with
          page := showStatus "success" "Conversion completed!" s.page }
    else if data.status == some "FAILED" then
      resetConvertButton
        { clearInterval s.pollInterval s with
          page := showStatus "error"
            ("Conversion failed: " ++
              (if truthy data.error then data.error.getD "" else "Unknown error")) s.page }
    else
      s
  | .failed =>
    resetConvertButton
      { clearInterval s.pollInterval s with
        page := showStatus "error" "Failed to check conversion status" s.page }

/-- What can happen on the page while a conversion is polled. -/
inductive Event where
  /-- A call `startConversionPolling(taskId)`. -/
  | start (taskId : Option String)
  /-- The interval timer with this handle fires. -/
  | tick (timer : Nat)
  /-- A status request that is in flight settles. -/
  | settle (outcome : PollOutcome)
deriving DecidableEq

/-- One event. A timer that is not set does not fire, and nothing settles
when no request is in flight. -/
def step (s : State) : Event → State
  | .start taskId => startConversionPolling taskId s
  | .tick timer =>
    match s.timers.find? fun t => t.1 == timer with
    | some t => pollConversionStatus.request t.2 s
    | none => s
  | .settle outcome => if s.inFlight = 0 then s else pollConversionStatus.settle outcome s

/-- A sequence of events, from the left. -/
def run (s : State) (events : List Event) : State :=
  events.foldl step s

end PdfToHtml

/-! ## pdf-to-html.js: the convert handler -/

/-- The property `response.ok` for a status code. -/
def httpOk (status : Nat) : Bool :=
  200 ≤ status && status ≤ 299

namespace PdfToHtml

/-- The JSON body of an upload response of `pdf-to-html.js`, as far as the
handler reads it. -/
structure UploadBody where
  task_id : Option String
  error : Option String
deriving DecidableEq

/-- How the upload request of the convert handler settles: `fetch` rejects
with an error carrying `message`, or it resolves with a status code and a
body that `response.json()` parses (`Except.ok`) or rejects with an error
carrying a message (`Except.error`). -/
inductive Uploaded where
  | rejected (message : String)
  | resolved (status : Nat) (body : Except String UploadBody)

/-- The click handler of the convert button up to `await fetch(API_ENDPOINT)`;
the boolean tells whether the upload request was issued. -/
def convert.click (s : State) : State × Bool :=
  if s.page.selection.length = 0 then
    ({ s with page := showStatus "error" "Please select a file first" s.page }, false)
  else
    ({ s with
        convertDisabled := true
        page := showStatus "loading" "Starting conversion..." s.page
        downloadButton := none }, true)

/-- The click handler of the convert button after its upload request has
settled. -/
def convert.settle (uploaded : Uploaded) (s : State) : State :=
  let caught := fun (message : String) =>
    resetConvertButton { s with page := showStatus "error" message s.page }
  match uploaded with
  | .rejected message => caught message
  | .resolved status body =>
    if !httpOk status then
      match body with
      | .ok error =>
        caught (if truthy error.error then error.error.getD "" else "Conversion failed to start")
      | .error _ => caught "Conversion failed to start"
    else
      match body with
      | .error message => caught message
      | .ok data =>
        startConversionPolling data.task_id
          { s with
            currentTaskId := data.task_id
            page := showStatus "loading" "Conversion in progress..." s.page }

end PdfToHtml

/-! ## The convert handlers of the synchronous scripts -/

/-- The parsed JSON body of an upload response of a synchronous script: the
path properties read by `handleDownload` and the properties the convert
handlers read; an absent property is `none`. -/
structure ResultPayload extends FileData where
  original_files : Option (List String)
  page_count : Option Nat
  error : Option String
  message : Option String
deriving DecidableEq

/-- How the upload request of a convert handler settles: `fetch` rejects with
an error of this name and message, or it resolves with a status code and a
body that `response.json()` parses (`Except.ok`) or rejects with a
`SyntaxError` of this message (`Except.error`). -/
inductive Upload where
  | rejected (name message : String)
  | resolved (status : Nat) (body : Except String ResultPayload)

/-- The upload request a convert handler passes to `fetch`: the URL, the
headers in the order written, the controller whose signal is passed (if any)
and the form fields holding files. -/
structure UploadRequest where
  url : String
  headers : List (String × String)
  signal : Option Nat
  files : List (String × File)
deriving DecidableEq

/-- What a handler does to the world outside the page. -/
inductive Effect where
  /-- A call of `abort()` on the controller with this handle. -/
  | abort (controller : Nat)
  /-- The upload request of the job with this number is issued. -/
  | upload (job : Nat) (request : UploadRequest)
  /-- A callback ended with an uncaught `TypeError`. -/
  | uncaughtTypeError
deriving DecidableEq

/-- What `downloadLinkContainer` shows. -/
inductive DownloadContainer where
  /-- Nothing (`innerHTML = ''`). -/
  | empty
  /-- A notice without a button. -/
  | notice (text : String)
  /-- The download button, whose click calls `handleDownload` on `data`. -/
  | button (data : ResultPayload)
deriving DecidableEq

/-- The state of the page of a synchronous script: the banner and the file
input (`page`), the module variable `selectedFiles` (`png-to-pdf.js` only),
the download container, the convert button, the module variables
`currentConversion` and `abortController` (a controller handle or `null`;
`pdf-to-png.js` and `png-to-pdf.js` only), the controllers aborted so far, the
handle of the next controller, the jobs whose timeout is set and not cleared,
the uploads in flight (job number and the controller of their signal), the
number of the next job, and the effects so far in order. -/
structure ConvertState where
  page : Page
  selectedFiles : List File
  container : DownloadContainer
  convertDisabled : Bool
  currentConversion : Option ResultPayload
  abortController : Option Nat
  aborted : List Nat
  nextController : Nat
  timeouts : List Nat
  uploads : List (Nat × Nat)
  nextJob : Nat
  log : List Effect
deriving DecidableEq

/-- The variables of the convert handler after loading, with `files` in the
file input (and, for `png-to-pdf.js`, in `selectedFiles`). The banner is left
empty: the `info` banner that the `change` handler shows for the chosen files,
and that `pdf-to-word.js` shows on load, is replaced by the first `showStatus`
of every handler run. -/
def ConvertState.initial (files : List File) : ConvertState :=
  { page := ⟨none, files⟩, selectedFiles := files, container := .empty,
    convertDisabled := false, currentConversion := none, abortController := none,
    aborted := [], nextController := 0, timeouts := [], uploads := [], nextJob := 0,
    log := [] }

/-- The value `fetch` sends for a header given as `getCookie(...)`: a string
as it is, and `null` as the text `null`. -/
def headerValue (value : Option String) : String :=
  value.getD "null"

/-- The method `String.prototype.includes`. -/
def includes (s sub : List Char) : Bool :=
  match s with
  | [] => sub.isEmpty
  | c :: cs => sub.isPrefixOf (c :: cs) || includes cs sub

/-- The statement `if (abortController) abortController.abort();`. -/
def abortCurrent (s : ConvertState) : ConvertState :=
  match s.abortController with
  | some controller =>
    { s with aborted := s.aborted ++ [controller], log := s.log ++ [.abort controller] }
  | none => s

/-- The statements `abortController = new AbortController()`,
`setTimeout(..., CONVERSION_TIMEOUT)` and the call of `fetch` with the signal
of the new controller, for the request built by `request` from that
controller. -/
def startAbortableUpload (request : Nat → UploadRequest) (s : ConvertState) : ConvertState :=
  { s with
    abortController := some s.nextController
    nextController := s.nextController + 1
    timeouts := s.timeouts ++ [s.nextJob]
    uploads := s.uploads ++ [(s.nextJob, s.nextController)]
    nextJob := s.nextJob + 1
    log := s.log ++ [.upload s.nextJob (request s.nextController)] }

/-- What the awaited upload of a job gives: an `AbortError` when the
controller of its signal has been aborted, and what the network gives
otherwise. -/
def awaited (aborted : List Nat) (controller : Nat) (upload : Upload) : Upload :=
  if aborted.contains controller then .rejected "AbortError" "" else upload

/-- What can happen on the page of `pdf-to-png.js` or `png-to-pdf.js`. -/
inductive ConvertEvent where
  /-- A run of the click handler of the convert button, with what
  `getCookie('csrftoken')` gives. -/
  | click (csrftoken : Option String)
  /-- The upload of the job with this number settles; `upload` is what the
  network gives. -/
  | settle (job : Nat) (upload : Upload)
  /-- The timeout of the job with this number fires. -/
  | timeout (job : Nat)

namespace PdfToPng

/-- The constant `API_ENDPOINT`. -/
def API_ENDPOINT : String := BACKEND_URL ++ "/api/pdf-to-png/"

/-- The function `renderResults(data)` of `pdf-to-png.js`. -/
def renderResults (data : ResultPayload) (s : ConvertState) : ConvertState :=
  if !truthy data.converted_file then
    { s with container := .notice "But no download link was provided" }
  else
    { s with container := .button data }

/-- The request `fetch(API_ENDPOINT, ...)` of the click handler: the form data
holds `fileInput.files[0]` under `file`. -/
def convert.request (csrftoken : Option String) (files : List File) (controller : Nat) :
    UploadRequest :=
  { url := API_ENDPOINT
    headers := [("X-CSRFToken", headerValue csrftoken), ("Accept", "application/json")]
    signal := some controller
    files := (files.head?.map fun file => ("file", file)).toList }

/-- The click handler of the convert button up to `await fetch(API_ENDPOINT)`. -/
def convert.click (csrftoken : Option String) (s : ConvertState) : ConvertState :=
  if s.page.selection.length = 0 then
    { s with page := showStatus "error" "No file selected" "Please choose a PDF file first" s.page }
  else
    let s1 := startAbortableUpload (convert.request csrftoken s.page.selection) (abortCurrent s)
    { s1 with
      convertDisabled := true
      page := (showStatus "loading" "Converting your PDF..."
        "This may take a moment for larger files" s1.page)
      container := .empty }

/-- The `catch` block of the click handler, for an error of this name and
message. -/
def convert.caught (name message : String) (s : ConvertState) : ConvertState :=
  let errorMessage := if name == "AbortError" then "Conversion timed out" else "Conversion failed"
  let errorDetails :=
    if name == "AbortError" then
      "The operation took too long. Please try again with a smaller file."
    else if includes message.data "Failed to fetch".data then
      "Network error. Please check your internet connection."
    else message
  { s with page := showStatus "error" errorMessage errorDetails s.page, container := .empty }

/-- The click handler of the job `job` after `await fetch(...)`: the `try`
block from `clearTimeout(timeoutId)` on, the `catch` block and the `finally`
block. -/
def convert.settle (job : Nat) (upload : Upload) (s : ConvertState) : ConvertState :=
  match s.uploads.find? fun u => u.1 == job with
  | none => s
  | some u =>
    let s1 :=
      { s with
        uploads := s.uploads.filter fun v => v.1 != job
        timeouts := s.timeouts.filter fun t => t != job }
    let s2 :=
      match awaited s.aborted u.2 upload with
      | .rejected name message => convert.caught name message s1
      | .resolved _ (.error message) => convert.caught "SyntaxError" message s1
      | .resolved status (.ok data) =>
        if !httpOk status then
          convert.caught "Error"
            (if truthy data.error then data.error.getD ""
              else if truthy data.message then data.message.getD ""
              else "Server responded with " ++ toString status) s1
        else if !truthy data.converted_file then
          convert.caught "Error" "Conversion succeeded but no file URL was returned" s1
        else
          let s3 := renderResults data { s1 with currentConversion := some data }
          { s3 with page := (showStatus "success" "Conversion successful!"
              "Your PNG file is ready" s3.page) }
    { s2 with convertDisabled := false, abortController := none }

/-- The timeout callback `if (abortController) abortController.abort()` of
the job `job`; a cleared timeout does not fire. -/
def convert.timeout (job : Nat) (s : ConvertState) : ConvertState :=
  if s.timeouts.contains job then
    abortCurrent { s with timeouts := s.timeouts.filter fun t => t != job }
  else s

/-- One event of `pdf-to-png.js` at the level of the handlers: the click
handler runs whatever `convertBtn.disabled` holds (the handler does not look
at it). This allows more than a browser delivers; see `deliver`. -/
def step (s : ConvertState) : ConvertEvent → ConvertState
  | .click csrftoken => convert.click csrftoken s
  | .settle job upload => convert.settle job upload s
  | .timeout job => convert.timeout job s

/-- A sequence of events at the level of the handlers, from the left. -/
def run (s : ConvertState) (events : List ConvertEvent) : ConvertState :=
  events.foldl step s

/-- One event of `pdf-to-png.js` as the browser delivers it: a click on the
convert button reaches the handler only while the button is not disabled. The
handler sets `convertBtn.disabled = true` before its first `await` and only
its `finally` block sets it back to `false`. -/
def deliver (s : ConvertState) : ConvertEvent → ConvertState
  | .click csrftoken => if s.convertDisabled then s else convert.click csrftoken s
  | .settle job upload => convert.settle job upload s
  | .timeout job => convert.timeout job s

/-- A sequence of events as the browser delivers them, from the left. -/
def delivered (s : ConvertState) (events : List ConvertEvent) : ConvertState :=
  events.foldl deliver s

end PdfToPng

namespace PngToPdf

/-- The constant `API_ENDPOINT`. -/
def API_ENDPOINT : String := BACKEND_URL ++ "/api/png-to-pdf/"

/-- The function `renderResults(data)` of `png-to-pdf.js` for a parsed body:
the container is emptied, then the label of the button reads
`data.page_count || data.original_files.length`, which raises a `TypeError`
(`Except.error`, with the page it leaves) when `page_count` is missing or 0
and `original_files` is missing. -/
def renderResults (data : ResultPayload) (s : ConvertState) :
    Except ConvertState ConvertState :=
  let s1 := { s with container := .empty }
  match data.page_count, data.original_files with
  | some (_ + 1), _ => .ok { s1 with container := .button data }
  | _, some _ => .ok { s1 with container := .button data }
  | _, none => .error s1

/-- The request `fetch(API_ENDPOINT, ...)` of the click handler: the form data
holds every file of `selectedFiles` under `files`. -/
def convert.request (csrftoken : Option String) (files : List File) (controller : Nat) :
    UploadRequest :=
  { url := API_ENDPOINT
    headers := [("X-CSRFToken", headerValue csrftoken), ("Accept", "application/json")]
    signal := some controller
    files := files.map fun file => ("files", file) }

/-- The click handler of the convert button up to `await fetch(API_ENDPOINT)`. -/
def convert.click (csrftoken : Option String) (s : ConvertState) : ConvertState :=
  if s.selectedFiles.length = 0 then
    { s with page := showStatus "error" "Please select at least one PNG file" s.page }
  else
    let s1 := startAbortableUpload (convert.request csrftoken s.selectedFiles) (abortCurrent s)
    { s1 with
      convertDisabled := true
      page := (showStatus "loading"
        ("Converting " ++ toString s.selectedFiles.length ++ " PNGs to PDF...") s1.page)
      container := .empty }

/-- The `catch` block of the click handler, for an error of this name and
message. -/
def convert.caught (name message : String) (s : ConvertState) : ConvertState :=
  { s with page := (showStatus "error"
      (if name == "AbortError" then "Conversion timed out"
        else "Conversion failed: " ++ message) s.page) }

/-- The click handler of the job `job` after `await fetch(...)`: the `try`
block from `clearTimeout(timeoutId)` on, the `catch` block and the `finally`
block. `typeError` is the message of the `TypeError` the engine raises when
`length` is read from `undefined`. -/
def convert.settle (typeError : String) (job : Nat) (upload : Upload) (s : ConvertState) :
    ConvertState :=
  match s.uploads.find? fun u => u.1 == job with
  | none => s
  | some u =>
    let s1 :=
      { s with
        uploads := s.uploads.filter fun v => v.1 != job
        timeouts := s.timeouts.filter fun t => t != job }
    let s2 :=
      match awaited s.aborted u.2 upload with
      | .rejected name message => convert.caught name message s1
      | .resolved _ (.error message) => convert.caught "SyntaxError" message s1
      | .resolved status (.ok data) =>
        if !httpOk status then
          convert.caught "Error"
            (if truthy data.error then data.error.getD ""
              else if truthy data.message then data.message.getD ""
              else "Conversion failed with status " ++ toString status) s1
        else
          match renderResults data { s1 with currentConversion := some data } with
          | .error s3 => convert.caught "TypeError" typeError s3
          | .ok s3 =>
            { s3 with page := (showStatus "success"
                ("Successfully combined " ++
                  toString (match data.page_count with
                    | some (n + 1) => n + 1
                    | _ => s.selectedFiles.length) ++ " files into PDF!") s3.page) }
    { s2 with convertDisabled := false, abortController := none }

/-- The timeout callback `abortController.abort()` of the job `job`; a cleared
timeout does not fire, and on `null` the call raises a `TypeError` nothing
catches. -/
def convert.timeout (job : Nat) (s : ConvertState) : ConvertState :=
  if s.timeouts.contains job then
    let s1 := { s with timeouts := s.timeouts.filter fun t => t != job }
    match s1.abortController with
    | some _ => abortCurrent s1
    | none => { s1 with log := s1.log ++ [.uncaughtTypeError] }
  else s

/-- One event of `png-to-pdf.js` at the level of the handlers: the click
handler runs whatever `convertBtn.disabled` holds (the handler does not look
at it). This allows more than a browser delivers; see `deliver`. -/
def step (typeError : String) (s : ConvertState) : ConvertEvent → ConvertState
  | .click csrftoken => convert.click csrftoken s
  | .settle job upload => convert.settle typeError job upload s
  | .timeout job => convert.timeout job s

/-- A sequence of events at the level of the handlers, from the left. -/
def run (typeError : String) (s : ConvertState) (events : List ConvertEvent) : ConvertState :=
  events.foldl (step typeError) s

/-- One event of `png-to-pdf.js` as the browser delivers it: a click on the
convert button reaches the handler only while the button is not disabled. The
handler sets `convertBtn.disabled = true` before its first `await` and only
its `finally` block sets it back to `false`. -/
def deliver (typeError : String) (s : ConvertState) : ConvertEvent → ConvertState
  | .click csrftoken => if s.convertDisabled then s else convert.click csrftoken s
  | .settle job upload => convert.settle typeError job upload s
  | .timeout job => convert.timeout job s

/-- A sequence of events as the browser delivers them, from the left. -/
def delivered (typeError : String) (s : ConvertState) (events : List ConvertEvent) :
    ConvertState :=
  events.foldl (deliver typeError) s

end PngToPdf

/-- The call of `fetch` by a handler that keeps no abort controller. -/
def startUpload (request : UploadRequest) (s : ConvertState) : ConvertState :=
  { s with nextJob := s.nextJob + 1, log := s.log ++ [.upload s.nextJob request] }

namespace JpgToPdf

/-- The constant `API_ENDPOINT`. -/
def API_ENDPOINT : String := BACKEND_URL ++ "/api/jpg-to-pdf/"

/-- The request `fetch(API_ENDPOINT, ...)` of the click handler: the form data
holds every file of the file input under `files`. -/
def convert.request (csrftoken : Option String) (files : List File) : UploadRequest :=
  { url := API_ENDPOINT
    headers := [("X-CSRFToken", headerValue csrftoken)]
    signal := none
    files := files.map fun file => ("files", file) }

/-- The click handler of the convert button up to `await fetch(API_ENDPOINT)`. -/
def convert.click (csrftoken : Option String) (s : ConvertState) : ConvertState :=
  if s.page.selection.length = 0 then
    { s with page := showStatus "error" "Please select at least one file first" s.page }
  else
    let s1 := startUpload (convert.request csrftoken s.page.selection) s
    { s1 with
      convertDisabled := true
      page := showStatus "loading" "Converting files..." s1.page
      container := .empty }

/-- The `catch` block of the click handler, for an error with this message. -/
def convert.caught (message : String) (s : ConvertState) : ConvertState :=
  { s with page := showStatus "error" message s.page }

/-- The click handler after `await fetch(...)`: the rest of the `try` block,
the `catch` block and the `finally` block. `typeError property` is the message
of the `TypeError` the engine raises when `property` is read from `undefined`. -/
def convert.settle (typeError : String → String) (upload : Upload) (s : ConvertState) :
    ConvertState :=
  let s1 :=
    match upload with
    | .rejected _ message => convert.caught message s
    | .resolved status body =>
      if !httpOk status then
        match body with
        | .ok error =>
          convert.caught (if truthy error.error then error.error.getD "" else "Conversion failed") s
        | .error _ => convert.caught "Conversion failed" s
      else
        match body with
        | .error message => convert.caught message s
        | .ok data =>
          let s2 := { s with currentConversion := some data }
          match data.converted_file, data.original_files with
          | none, _ => convert.caught (typeError "split") s2
          | some _, none => convert.caught (typeError "length") s2
          | some _, some _ =>
            { s2 with
              container := .button data
              page := (showStatus "success"
                "Conversion successful! Files combined into single PDF." s2.page) }
  { s1 with convertDisabled := false }

end JpgToPdf

namespace PdfToJpg

/-- The constant `API_ENDPOINT`. -/
def API_ENDPOINT : String := BACKEND_URL ++ "/api/pdf-to-jpg/"

/-- The request `fetch(API_ENDPOINT, ...)` of the click handler: the form data
holds `fileInput.files[0]` under `file`. -/
def convert.request (csrftoken : Option String) (files : List File) : UploadRequest :=
  { url := API_ENDPOINT
    headers := [("X-CSRFToken", headerValue csrftoken)]
    signal := none
    files := (files.head?.map fun file => ("file", file)).toList }

/-- The click handler of the convert button up to `await fetch(API_ENDPOINT)`. -/
def convert.click (csrftoken : Option String) (s : ConvertState) : ConvertState :=
  if s.page.selection.length = 0 then
    { s with page := showStatus "error" "Please select a file first" s.page }
  else
    let s1 := startUpload (convert.request csrftoken s.page.selection) s
    { s1 with
      convertDisabled := true
      page := showStatus "loading" "Converting file..." s1.page
      container := .empty }

/-- The `catch` block of the click handler, for an error with this message. -/
def convert.caught (message : String) (s : ConvertState) : ConvertState :=
  { s with page := showStatus "error" message s.page }

/-- The click handler after `await fetch(...)`: the rest of the `try` block,
the `catch` block and the `finally` block. The display name the handler
computes from `converted_file` is not used by what follows. -/
def convert.settle (upload : Upload) (s : ConvertState) : ConvertState :=
  let s1 :=
    match upload with
    | .rejected _ message => convert.caught message s
    | .resolved status body =>
      if !httpOk status then
        match body with
        | .ok error =>
          convert.caught
            (if truthy error.message then error.message.getD "" else "Conversion failed") s
        | .error _ => convert.caught "Conversion failed" s
      else
        match body with
        | .error message => convert.caught message s
        | .ok data =>
          { s with
            currentConversion := some data
            container := .button data
            page := showStatus "success" "Conversion successful!" s.page }
  { s1 with convertDisabled := false }

end PdfToJpg

namespace PdfToWebp

/-- The constant `API_ENDPOINT`. -/
def API_ENDPOINT : String := BACKEND_URL ++ "/api/pdf-to-webp/"

/-- The request `fetch(API_ENDPOINT, ...)` of the click handler: the form data
holds `fileInput.files[0]` under `file`. -/
def convert.request (csrftoken : Option String) (files : List File) : UploadRequest :=
  { url := API_ENDPOINT
    headers := [("X-CSRFToken", headerValue csrftoken)]
    signal := none
    files := (files.head?.map fun file => ("file", file)).toList }

/-- The click handler of the convert button up to `await fetch(API_ENDPOINT)`. -/
def convert.click (csrftoken : Option String) (s : ConvertState) : ConvertState :=
  if s.page.selection.length = 0 then
    { s with page := showStatus "error" "Please select a file first" s.page }
  else
    let s1 := startUpload (convert.request csrftoken s.page.selection) s
    { s1 with
      convertDisabled := true
      page := showStatus "loading" "Converting file..." s1.page
      container := .empty }

/-- The `catch` block of the click handler, for an error with this message. -/
def convert.caught (message : String) (s : ConvertState) : ConvertState :=
  { s with page := showStatus "error" message s.page }

/-- The click handler after `await fetch(...)`: the rest of the `try` block,
the `catch` block and the `finally` block. -/
def convert.settle (upload : Upload) (s : ConvertState) : ConvertState :=
  let s1 :=
    match upload with
    | .rejected _ message => convert.caught message s
    | .resolved status body =>
      if !httpOk status then
        match body with
        | .ok error =>
          convert.caught
            (if truthy error.message then error.message.getD "" else "Conversion failed") s
        | .error _ => convert.caught "Conversion failed" s
      else
        match body with
        | .error message => convert.caught message s
        | .ok data =>
          { s with
            currentConversion := some data
            container := .button data
            page := showStatus "success" "Conversion successful!" s.page }
  { s1 with convertDisabled := false }

end PdfToWebp

namespace PdfToWord

/-- The constant `API_ENDPOINT`. -/
def API_ENDPOINT : String := BACKEND_URL ++ "/api/pdf-to-word/"

/-- The request `fetch(API_ENDPOINT, ...)` of the click handler: the form data
holds `fileInput.files[0]` under `file`. -/
def convert.request (csrftoken : Option String) (files : List File) : UploadRequest :=
  { url := API_ENDPOINT
    headers := [("X-CSRFToken", headerValue csrftoken)]
    signal := none
    files := (files.head?.map fun file => ("file", file)).toList }

/-- The click handler of the convert button up to `await fetch(API_ENDPOINT)`. -/
def convert.click (csrftoken : Option String) (s : ConvertState) : ConvertState :=
  if s.page.selection.length = 0 then
    { s with page := showStatus "error" "Please select a PDF file first" s.page }
  else
    let s1 := startUpload (convert.request csrftoken s.page.selection) s
    { s1 with
      convertDisabled := true
      page := showStatus "loading" "Converting PDF to Word..." s1.page
      container := .empty }

/-- The `catch` block of the click handler, for an error with this message. -/
def convert.caught (message : String) (s : ConvertState) : ConvertState :=
  { s with page := (showStatus "error"
      (if message != "" then message else "Conversion failed. Please try again.") s.page) }

/-- The click handler after `await fetch(...)`: the rest of the `try` block,
the `catch` block and the `finally` block. -/
def convert.settle (upload : Upload) (s : ConvertState) : ConvertState :=
  let s1 :=
    match upload with
    | .rejected _ message => convert.caught message s
    | .resolved status body =>
      if !httpOk status then
        match body with
        | .ok error =>
          convert.caught (if truthy error.error then error.error.getD "" else "Conversion failed") s
        | .error _ => convert.caught "Conversion failed" s
      else
        match body with
        | .error message => convert.caught message s
        | .ok data =>
          { s with
            currentConversion := some data
            container := .button data
            page := showStatus "success" "Conversion completed successfully!" s.page }
  { s1 with convertDisabled := false }

end PdfToWord

/-! ## The function getCookie, the same in every script -/

/-- The characters `String.prototype.trim` removes: white space and line
terminators. -/
def isWhiteSpace (c : Char) : Bool :=
  c.toNat == 0x09 || c.toNat == 0x0A || c.toNat == 0x0B || c.toNat == 0x0C ||
    c.toNat == 0x0D || c.toNat == 0x20 || c.toNat == 0xA0 || c.toNat == 0x1680 ||
    (0x2000 ≤ c.toNat && c.toNat ≤ 0x200A) || c.toNat == 0x2028 || c.toNat == 0x2029 ||
    c.toNat == 0x202F || c.toNat == 0x205F || c.toNat == 0x3000 || c.toNat == 0xFEFF

/-- The method `String.prototype.trim`. -/
def trim (cs : List Char) : List Char :=
  ((cs.dropWhile isWhiteSpace).reverse.dropWhile isWhiteSpace).reverse

/-- The `for (let cookie of cookies)` loop of `getCookie` and the
`return null` after it. `decodeURIComponent` is the function of that name:
`Except.error` is the `URIError` it throws, which `getCookie` lets through.
The destructuring `[cookieName, cookieValue]` takes the first two parts of the
split; a missing second part is `undefined`, which `decodeURIComponent`
reads as the text `undefined`. -/
def getCookie.loop (decodeURIComponent : String → Except String String) (name : String) :
    List (List Char) → Except String (Option String)
  | [] => .ok none
  | cookie :: rest =>
    let parts := split '=' (trim cookie)
    let cookieName := parts.head?
    let cookieValue := parts.tail.head?
    if cookieName == some name.data then
      (decodeURIComponent ((cookieValue.map String.mk).getD "undefined")).map some
    else
      getCookie.loop decodeURIComponent name rest

/-- The function `getCookie(name)`, for the text `cookie` of `document.cookie`;
`none` is `null`. -/
def getCookie (decodeURIComponent : String → Except String String) (cookie name : String) :
    Except String (Option String) :=
  getCookie.loop decodeURIComponent name (split ';' cookie.data)

/-! ## Readings of the specification -/

/-- Reading of "the name ends with `lit` in any letter case": the name is some
stem followed by as many characters as `lit` has, each one the corresponding
character of `lit` in lower or in upper case. -/
def EndsWithAnyCase (lit name : String) : Prop :=
  ∃ stem ext, name.data = stem ++ ext ∧
    List.Forall₂ (fun p c => c = p.toLower ∨ c = p.toUpper) lit.data ext

/-- The per-file type check of `validateFiles` in `jpg-to-pdf.js`: the
condition of its first `if`, negated. -/
def JpgToPdf.typeAccepted (file : File) : Bool :=
  JpgToPdf.validTypes.contains file.type || JpgToPdf.validExtensions.test file.name

/-- The per-file type check of `validateFiles` in `png-to-pdf.js`: the
condition of its first `if` in the loop, negated. -/
def PngToPdf.typeAccepted (file : File) : Bool :=
  endsWith (toLowerCase file.name) ".png"

/-- Reading of "the message contains the name". -/
def Mentions (message name : String) : Prop :=
  name.data <:+: message.data

/-- Reading of "the path field is present (non-empty)": the property is there
and is not the empty string. -/
def Present (field : Option String) : Prop :=
  ∃ s, field = some s ∧ s ≠ ""

/-- Reading of "`seg` is the final `/`-delimited segment of `path`": `seg` has
no `/` and `path` is `seg`, or something followed by `/` and `seg`. -/
def IsLastSegment (path seg : List Char) : Prop :=
  '/' ∉ seg ∧ (path = seg ∨ ∃ dir, path = dir ++ '/' :: seg)

/-- Reading of "`out` is `stem` with a trailing `.pdf` (any letter case)
replaced by `ext`": `out` is `stem` with its last four characters replaced
when they are `.pdf` in some letter case, and `stem` itself when they are not. -/
def TrailingPdfReplaced (ext : String) (stem out : List Char) : Prop :=
  (∃ base e, stem = base ++ e ∧
      List.Forall₂ (fun p c => c = p.toLower ∨ c = p.toUpper) ".pdf".data e ∧
      out = base ++ ext.data) ∨
    (¬ EndsWithAnyCase ".pdf" ⟨stem⟩ ∧ out = stem)

/-- Reading of "every status request settles before the next tick": in the
run of `events` from `s`, a timer fires only when no status request is in
flight. -/
def PdfToHtml.ticksWhenIdle (s : PdfToHtml.State) : List PdfToHtml.Event → Bool
  | [] => true
  | .tick timer :: events =>
    s.inFlight == 0 && PdfToHtml.ticksWhenIdle (PdfToHtml.step s (.tick timer)) events
  | e :: events => PdfToHtml.ticksWhenIdle (PdfToHtml.step s e) events

/-- The events of a job polled by the timer `timer` whose status requests
settle, one after the other and each before the next tick, with `outcomes`. -/
def PdfToHtml.pollRounds (timer : Nat) (outcomes : List PdfToHtml.PollOutcome) :
    List PdfToHtml.Event :=
  outcomes.flatMap fun outcome => [.tick timer, .settle outcome]

/-- Every controller that was aborted, and the one `abortController` holds,
was created before the next one `new AbortController()` gives. -/
def ControllersFresh (s : ConvertState) : Prop :=
  (∀ c ∈ s.aborted, c < s.nextController) ∧
    ∀ c, s.abortController = some c → c < s.nextController

/-- One `key=value` pair of a cookie string, with the white space around it. -/
structure CookiePair where
  lead : List Char
  key : List Char
  value : List Char
  trail : List Char

/-- The text of a pair in the cookie string. -/
def CookiePair.text (p : CookiePair) : List Char :=
  p.lead ++ p.key ++ '=' :: p.value ++ p.trail

/-- Reading of "a `key=value` pair" whose value has no further `=`: `lead` and
`trail` are white space, neither the key nor the value holds a `;` or a `=`,
the key does not start with white space and the value does not end with it. -/
def CookiePair.WellFormed (p : CookiePair) : Prop :=
  (∀ c ∈ p.lead, isWhiteSpace c = true) ∧ (∀ c ∈ p.trail, isWhiteSpace c = true) ∧
    ';' ∉ p.key ∧ '=' ∉ p.key ∧ ';' ∉ p.value ∧ '=' ∉ p.value ∧
    (∀ c, p.key.head? = some c → isWhiteSpace c = false) ∧
    (∀ c, p.value.getLast? = some c → isWhiteSpace c = false)

/-- Reading of "a cookie string made of `;`-separated pairs". -/
def cookieString : List CookiePair → List Char
  | [] => []
  | [p] => p.text
  | p :: q :: rest => p.text ++ ';' :: cookieString (q :: rest)

/-- Reading of "while a job's upload is in flight, `abortController` refers to
that job's own controller": either the convert button is enabled, no upload
is in flight, no timeout is set and `abortController` is `null`; or the button
is disabled, one upload is in flight, `abortController` holds the controller
of its signal, and either its timeout is set and the controller has not been
aborted, or the timeout is no longer set and the controller has been
aborted. -/
def SingleJob (s : ConvertState) : Prop :=
  (s.convertDisabled = false ∧ s.abortController = none ∧ s.uploads = [] ∧
      s.timeouts = []) ∨
    (s.convertDisabled = true ∧ ∃ job c, s.uploads = [(job, c)] ∧
      s.abortController = some c ∧
      ((s.timeouts = [job] ∧ c ∉ s.aborted) ∨ (s.timeouts = [] ∧ c ∈ s.aborted)))

/-! ## Lemmas on the string helpers -/

theorem matchAllI_iff (pat cs : List Char) :
    matchAllI pat cs = true ↔
      List.Forall₂ (fun p c => c = p.toLower ∨ c = p.toUpper) pat cs := by
  induction pat generalizing cs with
  | nil => cases cs <;> simp [matchAllI]
  | cons p ps ih =>
    cases cs with
    | nil => simp [matchAllI]
    | cons c cs => simp [matchAllI, matchCharI, ih]

theorem endsWithI_iff (lit name : String) :
    endsWithI lit.data name.data = true ↔ EndsWithAnyCase lit name := by
  unfold endsWithI EndsWithAnyCase
  rw [Bool.and_eq_true, decide_eq_true_eq, matchAllI_iff]
  constructor
  · rintro ⟨_, h⟩
    exact ⟨name.data.take (name.data.length - lit.data.length), _,
      (List.take_append_drop _ _).symm, h⟩
  · rintro ⟨stem, ext, hs, h⟩
    have hl := h.length_eq
    rw [hs]
    refine ⟨by simp [hl], ?_⟩
    have : (stem ++ ext).length - lit.data.length = stem.length := by simp [hl]
    rw [this, List.drop_left]
    exact h

/-! ## The validator of jpg-to-pdf.js -/

theorem jpgToPdf_type_check_iff (f : File) :
    (!JpgToPdf.validTypes.contains f.type && !JpgToPdf.validExtensions.test f.name) = false ↔
      (f.type = "image/jpeg" ∨ f.type = "image/jpg" ∨
        EndsWithAnyCase ".jpeg" f.name ∨ EndsWithAnyCase ".jpg" f.name) := by
  rw [← endsWithI_iff, ← endsWithI_iff]
  cases h1 : endsWithI ".jpeg".data f.name.data <;>
    cases h2 : endsWithI ".jpg".data f.name.data <;>
    simp [JpgToPdf.validTypes, JpgToPdf.validExtensions.test, h1, h2]
  tauto

theorem jpgToPdf_loop_ok_iff (pg : Page) (files : List File) (total t : Nat) :
    JpgToPdf.validateFiles.loop pg files total = .ok t ↔
      (∀ f ∈ files,
        (!JpgToPdf.validTypes.contains f.type && !JpgToPdf.validExtensions.test f.name) = false ∧
        f.size ≤ 20 * 1024 * 1024) ∧
      t = total + (files.map File.size).sum := by
  induction files generalizing total with
  | nil =>
    simp only [JpgToPdf.validateFiles.loop, List.not_mem_nil, false_imp_iff, implies_true,
      true_and, List.map_nil, List.sum_nil, Nat.add_zero, Except.ok.injEq]
    exact eq_comm
  | cons f rest ih =>
    rw [JpgToPdf.validateFiles.loop]
    simp only [List.mem_cons, forall_eq_or_imp, List.map_cons, List.sum_cons]
    split
    · rename_i h
      constructor
      · intro h3; cases h3
      · rintro ⟨⟨⟨h4, _⟩, _⟩, _⟩
        rw [h] at h4
        cases h4
    · rename_i h
      have h5 := Bool.eq_false_iff.2 h
      split
      · rename_i h2
        constructor
        · intro h3; cases h3
        · rintro ⟨⟨⟨_, h4⟩, _⟩, _⟩; omega
      · rename_i h2
        rw [ih]
        constructor
        · rintro ⟨h3, h4⟩
          exact ⟨⟨⟨h5, by omega⟩, h3⟩, by omega⟩
        · rintro ⟨⟨_, h3⟩, h4⟩
          exact ⟨h3, by omega⟩

theorem jpgToPdf_loop_error_fst (pg : Page) (files : List File) (total : Nat)
    (r : Bool × Page) (h : JpgToPdf.validateFiles.loop pg files total = .error r) :
    r.1 = false := by
  induction files generalizing total with
  | nil => simp [JpgToPdf.validateFiles.loop] at h
  | cons f rest ih =>
    rw [JpgToPdf.validateFiles.loop] at h
    split at h
    · cases h; rfl
    · split at h
      · cases h; rfl
      · exact ih _ h

/-- C1: in `jpg-to-pdf.js`, `validateFiles(files)` returns true if and only if
every file has media type `image/jpeg` or `image/jpg` or a name matching
`/\.jpe?g$/i` (it ends with `.jpeg` or `.jpg` in any letter case), every file
has at most `20*1024*1024` bytes, and the sizes sum to at most
`100*1024*1024` bytes. -/
theorem jpgToPdf_validateFiles_true_iff (files : List File) (pg : Page) :
    (JpgToPdf.validateFiles files pg).1 = true ↔
      (∀ f ∈ files, f.type = "image/jpeg" ∨ f.type = "image/jpg" ∨
        EndsWithAnyCase ".jpeg" f.name ∨ EndsWithAnyCase ".jpg" f.name) ∧
      (∀ f ∈ files, f.size ≤ 20 * 1024 * 1024) ∧
      (files.map File.size).sum ≤ 100 * 1024 * 1024 := by
  unfold JpgToPdf.validateFiles
  cases hl : JpgToPdf.validateFiles.loop pg files 0 with
  | error r =>
    have hr := jpgToPdf_loop_error_fst pg files 0 r hl
    simp only [hr, Bool.false_eq_true, false_iff]
    rintro ⟨h1, h2, _⟩
    have : JpgToPdf.validateFiles.loop pg files 0 = .ok (0 + (files.map File.size).sum) :=
      (jpgToPdf_loop_ok_iff pg files 0 _).2
        ⟨fun f hf => ⟨(jpgToPdf_type_check_iff f).2 (h1 f hf), h2 f hf⟩, rfl⟩
    rw [hl] at this
    cases this
  | ok t =>
    obtain ⟨h1, h2⟩ := (jpgToPdf_loop_ok_iff pg files 0 t).1 hl
    simp only [Nat.zero_add] at h2
    subst h2
    have h3 : ∀ f ∈ files, f.type = "image/jpeg" ∨ f.type = "image/jpg" ∨
        EndsWithAnyCase ".jpeg" f.name ∨ EndsWithAnyCase ".jpg" f.name :=
      fun f hf => (jpgToPdf_type_check_iff f).1 (h1 f hf).1
    have h4 : ∀ f ∈ files, f.size ≤ 20 * 1024 * 1024 := fun f hf => (h1 f hf).2
    dsimp only
    split
    · rename_i h5
      constructor
      · intro h6; cases h6
      · rintro ⟨_, _, h6⟩
        omega
    · rename_i h5
      exact ⟨fun _ => ⟨h3, h4, by omega⟩, fun _ => rfl⟩

/-! ## The validators of pdf-to-html.js, pdf-to-jpg.js and pdf-to-webp.js -/

theorem pdfToJpg_validateFile_eq : PdfToJpg.validateFile = PdfToHtml.validateFile := rfl

theorem pdfToWebp_validateFile_eq : PdfToWebp.validateFile = PdfToHtml.validateFile := rfl

theorem pdfToHtml_validateFile_true_iff (file : File) (pg : Page) :
    (PdfToHtml.validateFile file pg).1 = true ↔
      (file.type = "application/pdf" ∨ EndsWithAnyCase ".pdf" file.name) ∧
        file.size ≤ 20 * 1024 * 1024 := by
  rw [← endsWithI_iff]
  unfold PdfToHtml.validateFile
  cases h1 : endsWithI ".pdf".data file.name.data <;>
    by_cases h2 : file.type = "application/pdf" <;>
    by_cases h3 : 20971520 < file.size <;>
    simp [PdfToHtml.validTypes, PdfToHtml.validExtensions.test, h1, h2, h3] <;> omega

/-- C2: in `pdf-to-html.js`, `pdf-to-jpg.js` and `pdf-to-webp.js`,
`validateFile(file)` returns true if and only if the type of the file is
`application/pdf` or its name ends with `.pdf` in any letter case, and its
size is at most `20*1024*1024` bytes; a PDF of exactly `20*1024*1024` bytes is
accepted and any file one byte larger is rejected. -/
theorem pdf_validateFile_true_iff (file : File) (pg : Page) :
    ((PdfToHtml.validateFile file pg).1 = true ↔
      (file.type = "application/pdf" ∨ EndsWithAnyCase ".pdf" file.name) ∧
        file.size ≤ 20 * 1024 * 1024) ∧
    ((PdfToJpg.validateFile file pg).1 = true ↔
      (file.type = "application/pdf" ∨ EndsWithAnyCase ".pdf" file.name) ∧
        file.size ≤ 20 * 1024 * 1024) ∧
    ((PdfToWebp.validateFile file pg).1 = true ↔
      (file.type = "application/pdf" ∨ EndsWithAnyCase ".pdf" file.name) ∧
        file.size ≤ 20 * 1024 * 1024) ∧
    (PdfToHtml.validateFile ⟨file.name, "application/pdf", 20 * 1024 * 1024⟩ pg).1 = true ∧
    (PdfToJpg.validateFile ⟨file.name, "application/pdf", 20 * 1024 * 1024⟩ pg).1 = true ∧
    (PdfToWebp.validateFile ⟨file.name, "application/pdf", 20 * 1024 * 1024⟩ pg).1 = true ∧
    (PdfToHtml.validateFile ⟨file.name, file.type, 20 * 1024 * 1024 + 1⟩ pg).1 = false ∧
    (PdfToJpg.validateFile ⟨file.name, file.type, 20 * 1024 * 1024 + 1⟩ pg).1 = false ∧
    (PdfToWebp.validateFile ⟨file.name, file.type, 20 * 1024 * 1024 + 1⟩ pg).1 = false := by
  have hi := pdfToHtml_validateFile_true_iff
  have lo : ∀ name, (PdfToHtml.validateFile ⟨name, "application/pdf", 20 * 1024 * 1024⟩ pg).1
      = true := fun name => (hi _ pg).2 ⟨Or.inl rfl, Nat.le_refl _⟩
  have up : ∀ name type,
      (PdfToHtml.validateFile ⟨name, type, 20 * 1024 * 1024 + 1⟩ pg).1 = false := by
    intro name type
    rw [← Bool.not_eq_true, hi]
    rintro ⟨_, h⟩
    simp at h
  rw [pdfToJpg_validateFile_eq, pdfToWebp_validateFile_eq]
  exact ⟨hi file pg, hi file pg, hi file pg, lo _, lo _, lo _, up _ _, up _ _, up _ _⟩

/-! ## The validators that read the file name only -/

theorem pngToPdf_loop_none_iff (pg : Page) (files : List File) :
    PngToPdf.validateFiles.loop pg files = none ↔
      ∀ f ∈ files, endsWith (toLowerCase f.name) ".png" = true ∧ f.size ≤ 10 * 1024 * 1024 := by
  induction files with
  | nil => simp [PngToPdf.validateFiles.loop]
  | cons f rest ih =>
    rw [PngToPdf.validateFiles.loop]
    simp only [List.mem_cons, forall_eq_or_imp]
    cases h1 : endsWith (toLowerCase f.name) ".png"
    · simp
    · by_cases h2 : f.size > 10 * 1024 * 1024
      · simp only [Bool.not_true, Bool.false_eq_true, if_false, h2, if_true, true_and]
        constructor
        · intro h; cases h
        · rintro ⟨h, _⟩; omega
      · simp only [Bool.not_true, Bool.false_eq_true, if_false, h2, true_and, ih]
        constructor
        · intro h; exact ⟨by omega, h⟩
        · rintro ⟨_, h⟩; exact h

theorem pngToPdf_loop_some_fst (pg : Page) (files : List File) (r : Bool × Page)
    (h : PngToPdf.validateFiles.loop pg files = some r) : r.1 = false := by
  induction files with
  | nil => simp [PngToPdf.validateFiles.loop] at h
  | cons f rest ih =>
    rw [PngToPdf.validateFiles.loop] at h
    split at h
    · cases h; rfl
    · split at h
      · cases h; rfl
      · exact ih h

theorem pngToPdf_validateFiles_true_iff_loop (files : List File) (pg : Page) :
    (PngToPdf.validateFiles files pg).1 = true ↔
      1 ≤ files.length ∧ files.length ≤ 20 ∧ PngToPdf.validateFiles.loop pg files = none := by
  unfold PngToPdf.validateFiles
  by_cases h0 : files.length = 0
  · simp [h0]
  · by_cases h1 : files.length > 20
    · simp only [h0, h1, if_false, if_true]
      constructor
      · intro h; cases h
      · rintro ⟨_, h, _⟩; omega
    · simp only [h0, h1, if_false]
      cases hl : PngToPdf.validateFiles.loop pg files with
      | none => simp; omega
      | some r => simp [pngToPdf_loop_some_fst pg files r hl]

/-- C4: in `png-to-pdf.js`, `validateFiles(files)` returns true if and only
if the number of files is between 1 and 20, the lower-cased name of every file
ends with `.png`, and every file has at most `10*1024*1024` bytes; twenty
copies of an acceptable file are accepted and twenty-one are rejected. -/
theorem pngToPdf_validateFiles_true_iff (files : List File) (pg : Page) (f : File) :
    ((PngToPdf.validateFiles files pg).1 = true ↔
      1 ≤ files.length ∧ files.length ≤ 20 ∧
      (∀ g ∈ files, ".png".data <:+ (toLowerCase g.name).data) ∧
      (∀ g ∈ files, g.size ≤ 10 * 1024 * 1024)) ∧
    (".png".data <:+ (toLowerCase f.name).data → f.size ≤ 10 * 1024 * 1024 →
      (PngToPdf.validateFiles (List.replicate 20 f) pg).1 = true) ∧
    (PngToPdf.validateFiles (List.replicate 21 f) pg).1 = false := by
  have key : ∀ fs : List File, (PngToPdf.validateFiles fs pg).1 = true ↔
      1 ≤ fs.length ∧ fs.length ≤ 20 ∧
      (∀ g ∈ fs, ".png".data <:+ (toLowerCase g.name).data) ∧
      (∀ g ∈ fs, g.size ≤ 10 * 1024 * 1024) := by
    intro fs
    rw [pngToPdf_validateFiles_true_iff_loop, pngToPdf_loop_none_iff]
    simp only [endsWith, List.isSuffixOf_iff_suffix]
    constructor
    · rintro ⟨h1, h2, h3⟩
      exact ⟨h1, h2, fun g hg => (h3 g hg).1, fun g hg => (h3 g hg).2⟩
    · rintro ⟨h1, h2, h3, h4⟩
      exact ⟨h1, h2, fun g hg => ⟨h3 g hg, h4 g hg⟩⟩
  refine ⟨key files, ?_, ?_⟩
  · intro h1 h2
    rw [key]
    refine ⟨by simp, by simp, ?_, ?_⟩
    · intro g hg
      rw [List.eq_of_mem_replicate hg]; exact h1
    · intro g hg
      rw [List.eq_of_mem_replicate hg]; exact h2
  · rw [← Bool.not_eq_true, key]
    rintro ⟨_, h, _⟩
    simp at h

theorem pngToPdf_validateFiles_true_iff_witness :
    (PngToPdf.validateFiles (List.replicate 20 ⟨"page.PNG", "", 4096⟩) ⟨none, []⟩).1 = true ∧
    (PngToPdf.validateFiles (List.replicate 21 ⟨"page.PNG", "", 4096⟩) ⟨none, []⟩).1 = false :=
  ⟨(pngToPdf_validateFiles_true_iff [] ⟨none, []⟩ ⟨"page.PNG", "", 4096⟩).2.1
      (by decide) (by decide),
    (pngToPdf_validateFiles_true_iff [] ⟨none, []⟩ ⟨"page.PNG", "", 4096⟩).2.2⟩

/-! ## Which signals the type checks read -/

theorem pdfToPng_validateFile_true_iff (file : File) (pg : Page) :
    (PdfToPng.validateFile file pg).1 = true ↔
      ".pdf".data <:+ (toLowerCase file.name).data ∧ file.size ≤ 20 * 1024 * 1024 := by
  rw [← List.isSuffixOf_iff_suffix]
  unfold PdfToPng.validateFile endsWith
  cases h1 : ".pdf".data.isSuffixOf (toLowerCase file.name).data <;>
    by_cases h3 : 20971520 < file.size <;>
    simp [h3]
  all_goals omega

theorem pdfToWord_validateFile_true_iff (file : File) (pg : Page) :
    (PdfToWord.validateFile file pg).1 = true ↔
      ".pdf".data <:+ (toLowerCase file.name).data ∧ file.size ≤ 20 * 1024 * 1024 := by
  rw [← List.isSuffixOf_iff_suffix]
  unfold PdfToWord.validateFile endsWith
  cases h1 : ".pdf".data.isSuffixOf (toLowerCase file.name).data <;>
    by_cases h3 : 20971520 < file.size <;>
    simp [h3, PdfToWord.MAX_FILE_SIZE]
  all_goals omega

/-- C3, as stated, fails: a small file whose declared media type is the
accepted one and whose name has no matching extension is rejected by
`validateFile` of `pdf-to-png.js` and of `pdf-to-word.js` and by
`validateFiles` of `png-to-pdf.js`, each with its file-type message. -/
theorem accepted_type_without_extension_rejected :
    PdfToPng.validateFile ⟨"scan", "application/pdf", 1024⟩ ⟨none, []⟩ =
      (false, ⟨some ⟨"error", "Invalid file type", "Please upload a PDF file"⟩, []⟩) ∧
    PdfToWord.validateFile ⟨"scan", "application/pdf", 1024⟩ ⟨none, []⟩ =
      (false, ⟨some ⟨"error", "Only PDF files are allowed", ""⟩, []⟩) ∧
    PngToPdf.validateFiles [⟨"scan", "image/png", 1024⟩] ⟨none, []⟩ =
      (false, ⟨some ⟨"error", "Only PNG files are allowed (scan)", ""⟩, []⟩) := by
  decide

/-- C3, amended: in the validators of `jpg-to-pdf.js`, `pdf-to-html.js`,
`pdf-to-jpg.js` and `pdf-to-webp.js` the declared media type alone suffices
for the type check: files of an accepted type within the size limits are
accepted whatever their names. The validators of `pdf-to-png.js`,
`pdf-to-word.js` and `png-to-pdf.js` read the file name only: a file within
the size limit is accepted exactly when its lower-cased name ends with `.pdf`
(`.png` for `png-to-pdf.js`), whatever its declared type. -/
theorem type_check_signals (files : List File) (file : File) (pg : Page) :
    ((∀ f ∈ files, f.type = "image/jpeg" ∨ f.type = "image/jpg") →
      (∀ f ∈ files, f.size ≤ 20 * 1024 * 1024) →
      (files.map File.size).sum ≤ 100 * 1024 * 1024 →
      JpgToPdf.validateFiles files pg = (true, pg)) ∧
    (file.type = "application/pdf" → file.size ≤ 20 * 1024 * 1024 →
      PdfToHtml.validateFile file pg = (true, pg) ∧
      PdfToJpg.validateFile file pg = (true, pg) ∧
      PdfToWebp.validateFile file pg = (true, pg)) ∧
    ((PdfToPng.validateFile file pg).1 = true ↔
      ".pdf".data <:+ (toLowerCase file.name).data ∧ file.size ≤ 20 * 1024 * 1024) ∧
    ((PdfToWord.validateFile file pg).1 = true ↔
      ".pdf".data <:+ (toLowerCase file.name).data ∧ file.size ≤ 20 * 1024 * 1024) ∧
    ((PngToPdf.validateFiles [file] pg).1 = true ↔
      ".png".data <:+ (toLowerCase file.name).data ∧ file.size ≤ 10 * 1024 * 1024) := by
  refine ⟨?_, ?_, pdfToPng_validateFile_true_iff file pg,
    pdfToWord_validateFile_true_iff file pg, ?_⟩
  · intro h1 h2 h3
    have hl : JpgToPdf.validateFiles.loop pg files 0 = .ok (0 + (files.map File.size).sum) := by
      rw [jpgToPdf_loop_ok_iff]
      refine ⟨fun f hf => ⟨?_, h2 f hf⟩, rfl⟩
      rw [jpgToPdf_type_check_iff]
      rcases h1 f hf with h | h
      · exact Or.inl h
      · exact Or.inr (Or.inl h)
    unfold JpgToPdf.validateFiles
    rw [hl]
    have : ¬ (0 + (files.map File.size).sum > 100 * 1024 * 1024) := by omega
    simp only [this, if_false]
  · intro h1 h2
    have h3 : ¬ (file.size > 20 * 1024 * 1024) := by omega
    rw [pdfToJpg_validateFile_eq, pdfToWebp_validateFile_eq]
    have : PdfToHtml.validateFile file pg = (true, pg) := by
      unfold PdfToHtml.validateFile
      simp only [PdfToHtml.validTypes, h1, List.contains_cons, beq_self_eq_true, Bool.true_or,
        Bool.not_true, Bool.false_and, Bool.false_eq_true, if_false, h3]
    exact ⟨this, this, this⟩
  · rw [pngToPdf_validateFiles_true_iff_loop, pngToPdf_loop_none_iff]
    simp [endsWith]

theorem type_check_signals_witness :
    JpgToPdf.validateFiles [⟨"IMG_0001", "image/jpeg", 2048⟩] ⟨none, []⟩ = (true, ⟨none, []⟩) ∧
    PdfToHtml.validateFile ⟨"scan", "application/pdf", 1024⟩ ⟨none, []⟩ = (true, ⟨none, []⟩) ∧
    (PdfToPng.validateFile ⟨"scan.PDF", "", 1024⟩ ⟨none, []⟩).1 = true :=
  ⟨(type_check_signals [⟨"IMG_0001", "image/jpeg", 2048⟩] ⟨"scan", "application/pdf", 1024⟩
      ⟨none, []⟩).1 (by decide) (by decide) (by decide),
    ((type_check_signals [] ⟨"scan", "application/pdf", 1024⟩ ⟨none, []⟩).2.1
      rfl (by decide)).1,
    (type_check_signals [] ⟨"scan.PDF", "", 1024⟩ ⟨none, []⟩).2.2.1.2 (by decide)⟩

/-! ## The first failing check of the multi-file validators -/

theorem jpgToPdf_loop_append (pg : Page) (pre rest : List File) (total : Nat)
    (hpre : ∀ g ∈ pre, JpgToPdf.typeAccepted g = true ∧ g.size ≤ 20 * 1024 * 1024) :
    JpgToPdf.validateFiles.loop pg (pre ++ rest) total =
      JpgToPdf.validateFiles.loop pg rest (total + (pre.map File.size).sum) := by
  induction pre generalizing total with
  | nil => simp
  | cons g pre ih =>
    have hg := hpre g (List.mem_cons_self _ _)
    have h1 : (!JpgToPdf.validTypes.contains g.type && !JpgToPdf.validExtensions.test g.name)
        = false := by
      have := hg.1
      unfold JpgToPdf.typeAccepted at this
      rw [← Bool.not_or, this]; rfl
    have h2 : ¬ g.size > 20 * 1024 * 1024 := by omega
    rw [List.cons_append, JpgToPdf.validateFiles.loop]
    simp only [h1, Bool.false_eq_true, if_false, h2]
    rw [ih _ (fun x hx => hpre x (List.mem_cons_of_mem _ hx))]
    simp only [List.map_cons, List.sum_cons, Nat.add_assoc]

theorem jpgToPdf_first_failure (pg : Page) (pre post : List File) (f : File)
    (hpre : ∀ g ∈ pre, JpgToPdf.typeAccepted g = true ∧ g.size ≤ 20 * 1024 * 1024) :
    (JpgToPdf.typeAccepted f = false →
      JpgToPdf.validateFiles (pre ++ f :: post) pg =
        (false, clearFileInput (showStatus "error" "Only JPG/JPEG files are allowed" pg))) ∧
    (JpgToPdf.typeAccepted f = true → 20 * 1024 * 1024 < f.size →
      JpgToPdf.validateFiles (pre ++ f :: post) pg =
        (false, clearFileInput
          (showStatus "error" ("File " ++ f.name ++ " is too large (max 20MB)") pg))) := by
  unfold JpgToPdf.validateFiles
  rw [jpgToPdf_loop_append pg pre _ _ hpre, JpgToPdf.validateFiles.loop]
  constructor
  · intro h
    unfold JpgToPdf.typeAccepted at h
    have h1 : (!JpgToPdf.validTypes.contains f.type && !JpgToPdf.validExtensions.test f.name)
        = true := by
      rw [← Bool.not_or, h]; rfl
    simp only [h1, if_true]
  · intro h hs
    unfold JpgToPdf.typeAccepted at h
    have h1 : (!JpgToPdf.validTypes.contains f.type && !JpgToPdf.validExtensions.test f.name)
        = false := by
      rw [← Bool.not_or, h]; rfl
    have h2 : f.size > 20 * 1024 * 1024 := hs
    simp only [h1, Bool.false_eq_true, if_false, h2, if_true]

theorem jpgToPdf_total_failure (pg : Page) (files : List File)
    (hall : ∀ g ∈ files, JpgToPdf.typeAccepted g = true ∧ g.size ≤ 20 * 1024 * 1024)
    (htotal : 100 * 1024 * 1024 < (files.map File.size).sum) :
    JpgToPdf.validateFiles files pg =
      (false, clearFileInput (showStatus "error" "Total files size too large (max 50MB)" pg)) := by
  unfold JpgToPdf.validateFiles
  have := jpgToPdf_loop_append pg files [] 0 hall
  rw [List.append_nil] at this
  rw [this, JpgToPdf.validateFiles.loop]
  have h : 0 + (files.map File.size).sum > 100 * 1024 * 1024 := by omega
  simp only [h, if_true]

theorem pngToPdf_loop_append (pg : Page) (pre rest : List File)
    (hpre : ∀ g ∈ pre, PngToPdf.typeAccepted g = true ∧ g.size ≤ 10 * 1024 * 1024) :
    PngToPdf.validateFiles.loop pg (pre ++ rest) = PngToPdf.validateFiles.loop pg rest := by
  induction pre with
  | nil => simp
  | cons g pre ih =>
    have hg := hpre g (List.mem_cons_self _ _)
    have h1 : endsWith (toLowerCase g.name) ".png" = true := hg.1
    have h2 : ¬ g.size > 10 * 1024 * 1024 := by omega
    rw [List.cons_append, PngToPdf.validateFiles.loop]
    simp only [h1, Bool.not_true, Bool.false_eq_true, if_false, h2]
    exact ih (fun x hx => hpre x (List.mem_cons_of_mem _ hx))

theorem pngToPdf_first_failure (pg : Page) (pre post : List File) (f : File)
    (hcount : (pre ++ f :: post).length ≤ 20)
    (hpre : ∀ g ∈ pre, PngToPdf.typeAccepted g = true ∧ g.size ≤ 10 * 1024 * 1024) :
    (PngToPdf.typeAccepted f = false →
      PngToPdf.validateFiles (pre ++ f :: post) pg =
        (false, showStatus "error" ("Only PNG files are allowed (" ++ f.name ++ ")") pg)) ∧
    (PngToPdf.typeAccepted f = true → 10 * 1024 * 1024 < f.size →
      PngToPdf.validateFiles (pre ++ f :: post) pg =
        (false, showStatus "error" ("File too large (" ++ f.name ++ " - max 10MB)") pg)) := by
  unfold PngToPdf.validateFiles
  have h0 : ¬ (pre ++ f :: post).length = 0 := by simp
  have h20 : ¬ (pre ++ f :: post).length > 20 := by omega
  simp only [h0, h20, if_false]
  rw [pngToPdf_loop_append pg pre _ hpre, PngToPdf.validateFiles.loop]
  constructor
  · intro h
    have h1 : endsWith (toLowerCase f.name) ".png" = false := h
    simp only [h1, Bool.not_false, if_true]
  · intro h hs
    have h1 : endsWith (toLowerCase f.name) ".png" = true := h
    have h2 : f.size > 10 * 1024 * 1024 := hs
    simp only [h1, Bool.not_true, Bool.false_eq_true, if_false, h2, if_true]

/-- C5, as stated, fails: in a file set whose second file fails the type
check and whose first file is over the per-file size limit, both multi-file
validators report the size reason of the first file, not the type reason. -/
theorem size_reason_before_later_type_reason :
    JpgToPdf.typeAccepted ⟨"notes.txt", "text/plain", 10⟩ = false ∧
    JpgToPdf.validateFiles
        [⟨"big.jpg", "image/jpeg", 21 * 1024 * 1024⟩, ⟨"notes.txt", "text/plain", 10⟩]
        ⟨none, []⟩ =
      (false, ⟨some ⟨"error", "File big.jpg is too large (max 20MB)", ""⟩, []⟩) ∧
    PngToPdf.typeAccepted ⟨"notes.txt", "text/plain", 10⟩ = false ∧
    PngToPdf.validateFiles
        [⟨"big.png", "image/png", 11 * 1024 * 1024⟩, ⟨"notes.txt", "text/plain", 10⟩]
        ⟨none, []⟩ =
      (false, ⟨some ⟨"error", "File too large (big.png - max 10MB)", ""⟩, []⟩) := by
  decide

/-- C5, amended: the multi-file validators check the count first
(`png-to-pdf.js` only), then walk the files in order and apply to each file
the type check and then the per-file size check, and check the aggregate size
last (`jpg-to-pdf.js` only), returning at the first failing check. So the
reason reported is that of the first file that fails a check: when every file
before `f` passes both per-file checks, the reason is the type reason if `f`
fails the type check, and the size reason naming `f` if `f` passes it and is
over the size limit. -/
theorem validateFiles_first_failing_check (pre post : List File) (f : File) (pg : Page) :
    ((∀ g ∈ pre, JpgToPdf.typeAccepted g = true ∧ g.size ≤ 20 * 1024 * 1024) →
      (JpgToPdf.typeAccepted f = false →
        JpgToPdf.validateFiles (pre ++ f :: post) pg =
          (false, clearFileInput (showStatus "error" "Only JPG/JPEG files are allowed" pg))) ∧
      (JpgToPdf.typeAccepted f = true → 20 * 1024 * 1024 < f.size →
        JpgToPdf.validateFiles (pre ++ f :: post) pg =
          (false, clearFileInput
            (showStatus "error" ("File " ++ f.name ++ " is too large (max 20MB)") pg))) ∧
      (100 * 1024 * 1024 < (pre.map File.size).sum →
        JpgToPdf.validateFiles pre pg =
          (false, clearFileInput
            (showStatus "error" "Total files size too large (max 50MB)" pg)))) ∧
    PngToPdf.validateFiles [] pg =
      (false, showStatus "error" "Please select at least one file" pg) ∧
    (20 < pre.length →
      PngToPdf.validateFiles pre pg = (false, showStatus "error" "Maximum 20 files allowed" pg)) ∧
    ((pre ++ f :: post).length ≤ 20 →
      (∀ g ∈ pre, PngToPdf.typeAccepted g = true ∧ g.size ≤ 10 * 1024 * 1024) →
      (PngToPdf.typeAccepted f = false →
        PngToPdf.validateFiles (pre ++ f :: post) pg =
          (false, showStatus "error" ("Only PNG files are allowed (" ++ f.name ++ ")") pg)) ∧
      (PngToPdf.typeAccepted f = true → 10 * 1024 * 1024 < f.size →
        PngToPdf.validateFiles (pre ++ f :: post) pg =
          (false, showStatus "error" ("File too large (" ++ f.name ++ " - max 10MB)") pg))) := by
  refine ⟨fun hpre => ?_, rfl, fun h => ?_, fun hcount hpre => ?_⟩
  · exact ⟨(jpgToPdf_first_failure pg pre post f hpre).1,
      (jpgToPdf_first_failure pg pre post f hpre).2,
      jpgToPdf_total_failure pg pre hpre⟩
  · unfold PngToPdf.validateFiles
    have h0 : ¬ pre.length = 0 := by omega
    have h20 : pre.length > 20 := h
    simp only [h0, h20, if_false, if_true]
  · exact pngToPdf_first_failure pg pre post f hcount hpre

theorem validateFiles_first_failing_check_witness :
    JpgToPdf.validateFiles
        [⟨"a.jpg", "image/jpeg", 2048⟩, ⟨"notes.txt", "text/plain", 10⟩,
          ⟨"big.jpg", "image/jpeg", 21 * 1024 * 1024⟩]
        ⟨none, []⟩ =
      (false, clearFileInput
        (showStatus "error" "Only JPG/JPEG files are allowed" ⟨none, []⟩)) ∧
    PngToPdf.validateFiles
        [⟨"a.png", "image/png", 2048⟩, ⟨"notes.txt", "text/plain", 10⟩,
          ⟨"big.png", "image/png", 11 * 1024 * 1024⟩]
        ⟨none, []⟩ =
      (false, showStatus "error" "Only PNG files are allowed (notes.txt)" ⟨none, []⟩) :=
  ⟨((validateFiles_first_failing_check [⟨"a.jpg", "image/jpeg", 2048⟩]
      [⟨"big.jpg", "image/jpeg", 21 * 1024 * 1024⟩] ⟨"notes.txt", "text/plain", 10⟩
      ⟨none, []⟩).1 (by decide)).1 (by decide),
    ((validateFiles_first_failing_check [⟨"a.png", "image/png", 2048⟩]
      [⟨"big.png", "image/png", 11 * 1024 * 1024⟩] ⟨"notes.txt", "text/plain", 10⟩
      ⟨none, []⟩).2.2.2 (by decide) (by decide)).1 (by decide)⟩

/-! ## Mutating one file of an accepted set -/

theorem jpgToPdf_accepted_files (files : List File) (pg : Page)
    (h : (JpgToPdf.validateFiles files pg).1 = true) :
    ∀ g ∈ files, JpgToPdf.typeAccepted g = true ∧ g.size ≤ 20 * 1024 * 1024 := by
  unfold JpgToPdf.validateFiles at h
  cases hl : JpgToPdf.validateFiles.loop pg files 0 with
  | error r =>
    rw [hl] at h
    have := jpgToPdf_loop_error_fst pg files 0 r hl
    simp only [this] at h
    cases h
  | ok t =>
    intro g hg
    obtain ⟨h1, h2⟩ := ((jpgToPdf_loop_ok_iff pg files 0 t).1 hl).1 g hg
    refine ⟨?_, h2⟩
    unfold JpgToPdf.typeAccepted
    rw [← Bool.not_or] at h1
    revert h1
    cases JpgToPdf.validTypes.contains g.type || JpgToPdf.validExtensions.test g.name <;> simp

theorem pngToPdf_accepted_files (files : List File) (pg : Page)
    (h : (PngToPdf.validateFiles files pg).1 = true) :
    files.length ≤ 20 ∧
      ∀ g ∈ files, PngToPdf.typeAccepted g = true ∧ g.size ≤ 10 * 1024 * 1024 := by
  obtain ⟨_, h2, h3⟩ := (pngToPdf_validateFiles_true_iff_loop files pg).1 h
  exact ⟨h2, (pngToPdf_loop_none_iff pg files).1 h3⟩

theorem mentions_middle (before name after : String) :
    Mentions (before ++ name ++ after) name := by
  unfold Mentions
  exact ⟨before.data, after.data, by simp [String.data_append]⟩

/-- C6: for every file set accepted by `validateFiles` (`jpg-to-pdf.js`,
`png-to-pdf.js`) and every index `i`, replacing file `i` by a file with the
same name and type and a size above the per-file limit (20MB, resp. 10MB)
makes `validateFiles` return false and show a status message that contains the
name of file `i`. -/
theorem oversize_file_rejected_by_name (files : List File) (pg : Page) (i : Nat)
    (hi : i < files.length) (size : Nat) :
    ((JpgToPdf.validateFiles files pg).1 = true → 20 * 1024 * 1024 < size →
      (JpgToPdf.validateFiles (files.set i ⟨files[i].name, files[i].type, size⟩) pg).1 = false ∧
      ∃ st, (JpgToPdf.validateFiles
          (files.set i ⟨files[i].name, files[i].type, size⟩) pg).2.status = some st ∧
        Mentions st.message files[i].name) ∧
    ((PngToPdf.validateFiles files pg).1 = true → 10 * 1024 * 1024 < size →
      (PngToPdf.validateFiles (files.set i ⟨files[i].name, files[i].type, size⟩) pg).1 = false ∧
      ∃ st, (PngToPdf.validateFiles
          (files.set i ⟨files[i].name, files[i].type, size⟩) pg).2.status = some st ∧
        Mentions st.message files[i].name) := by
  have hset : files.set i ⟨files[i].name, files[i].type, size⟩ =
      files.take i ++ ⟨files[i].name, files[i].type, size⟩ :: files.drop (i + 1) := by
    rw [List.set_eq_take_append_cons_drop, if_pos hi]
  constructor
  · intro hacc hsize
    have hall := jpgToPdf_accepted_files files pg hacc
    have hpre : ∀ g ∈ files.take i,
        JpgToPdf.typeAccepted g = true ∧ g.size ≤ 20 * 1024 * 1024 :=
      fun g hg => hall g (List.mem_of_mem_take hg)
    have htype : JpgToPdf.typeAccepted ⟨files[i].name, files[i].type, size⟩ = true :=
      (hall files[i] (List.getElem_mem hi)).1
    rw [hset, (jpgToPdf_first_failure pg _ _ _ hpre).2 htype hsize]
    exact ⟨rfl, _, rfl, mentions_middle "File " files[i].name " is too large (max 20MB)"⟩
  · intro hacc hsize
    obtain ⟨hlen, hall⟩ := pngToPdf_accepted_files files pg hacc
    have hpre : ∀ g ∈ files.take i,
        PngToPdf.typeAccepted g = true ∧ g.size ≤ 10 * 1024 * 1024 :=
      fun g hg => hall g (List.mem_of_mem_take hg)
    have htype : PngToPdf.typeAccepted ⟨files[i].name, files[i].type, size⟩ = true :=
      (hall files[i] (List.getElem_mem hi)).1
    have hcount : (files.take i ++
        ⟨files[i].name, files[i].type, size⟩ :: files.drop (i + 1)).length ≤ 20 := by
      rw [← hset, List.length_set]; exact hlen
    rw [hset, (pngToPdf_first_failure pg _ _ _ hcount hpre).2 htype hsize]
    exact ⟨rfl, _, rfl, mentions_middle "File too large (" files[i].name " - max 10MB)"⟩

theorem oversize_file_rejected_by_name_witness :
    ((JpgToPdf.validateFiles
        [⟨"a.jpg", "image/jpeg", 2048⟩, ⟨"b.jpeg", "", 4096⟩] ⟨none, []⟩).1 = true ∧
      ∃ st, (JpgToPdf.validateFiles
          [⟨"a.jpg", "image/jpeg", 2048⟩, ⟨"b.jpeg", "", 20 * 1024 * 1024 + 1⟩]
          ⟨none, []⟩).2.status = some st ∧
        Mentions st.message "b.jpeg") ∧
    ((PngToPdf.validateFiles
        [⟨"a.png", "image/png", 2048⟩, ⟨"b.png", "", 4096⟩] ⟨none, []⟩).1 = true ∧
      ∃ st, (PngToPdf.validateFiles
          [⟨"a.png", "image/png", 2048⟩, ⟨"b.png", "", 10 * 1024 * 1024 + 1⟩]
          ⟨none, []⟩).2.status = some st ∧
        Mentions st.message "b.png") :=
  ⟨⟨by decide, ((oversize_file_rejected_by_name
      [⟨"a.jpg", "image/jpeg", 2048⟩, ⟨"b.jpeg", "", 4096⟩] ⟨none, []⟩ 1 (by decide)
      (20 * 1024 * 1024 + 1)).1 (by decide) (by decide)).2⟩,
    ⟨by decide, ((oversize_file_rejected_by_name
      [⟨"a.png", "image/png", 2048⟩, ⟨"b.png", "", 4096⟩] ⟨none, []⟩ 1 (by decide)
      (10 * 1024 * 1024 + 1)).2 (by decide) (by decide)).2⟩⟩

/-! ## What validation does to the file input -/

theorem jpgToPdf_loop_error_selection (pg : Page) (files : List File) (total : Nat)
    (r : Bool × Page) (h : JpgToPdf.validateFiles.loop pg files total = .error r) :
    r.2.selection = [] := by
  induction files generalizing total with
  | nil => simp [JpgToPdf.validateFiles.loop] at h
  | cons f rest ih =>
    rw [JpgToPdf.validateFiles.loop] at h
    split at h
    · cases h; rfl
    · split at h
      · cases h; rfl
      · exact ih _ h

theorem jpgToPdf_validateFiles_page (files : List File) (pg : Page) :
    ((JpgToPdf.validateFiles files pg).1 = true → (JpgToPdf.validateFiles files pg).2 = pg) ∧
    ((JpgToPdf.validateFiles files pg).1 = false →
      (JpgToPdf.validateFiles files pg).2.selection = []) := by
  unfold JpgToPdf.validateFiles
  cases hl : JpgToPdf.validateFiles.loop pg files 0 with
  | error r =>
    have h1 := jpgToPdf_loop_error_fst pg files 0 r hl
    have h2 := jpgToPdf_loop_error_selection pg files 0 r hl
    constructor
    · intro h
      rw [h1] at h
      cases h
    · intro _
      exact h2
  | ok t =>
    dsimp only
    split
    · exact ⟨fun h => (by cases h), fun _ => rfl⟩
    · exact ⟨fun _ => rfl, fun h => by cases h⟩

theorem pdfToHtml_validateFile_page (file : File) (pg : Page) :
    ((PdfToHtml.validateFile file pg).1 = true → (PdfToHtml.validateFile file pg).2 = pg) ∧
    ((PdfToHtml.validateFile file pg).1 = false →
      (PdfToHtml.validateFile file pg).2.selection = []) := by
  unfold PdfToHtml.validateFile
  split
  · exact ⟨fun h => (by cases h), fun _ => rfl⟩
  · split
    · exact ⟨fun h => (by cases h), fun _ => rfl⟩
    · exact ⟨fun _ => rfl, fun h => by cases h⟩

theorem pdfToWord_validateFile_page (file : File) (pg : Page) :
    ((PdfToWord.validateFile file pg).1 = true → (PdfToWord.validateFile file pg).2 = pg) ∧
    ((PdfToWord.validateFile file pg).1 = false →
      (PdfToWord.validateFile file pg).2.selection = []) := by
  unfold PdfToWord.validateFile
  split
  · exact ⟨fun h => (by cases h), fun _ => rfl⟩
  · split
    · exact ⟨fun h => (by cases h), fun _ => rfl⟩
    · exact ⟨fun _ => rfl, fun h => by cases h⟩

/-- C7, as stated, fails: run on a file input that holds one text file, each
of the five validators rejects the file and leaves the file input with an
empty selection, not with the file it held. -/
theorem rejection_empties_file_input :
    JpgToPdf.validateFiles [⟨"notes.txt", "text/plain", 10⟩]
        ⟨none, [⟨"notes.txt", "text/plain", 10⟩]⟩ =
      (false, ⟨some ⟨"error", "Only JPG/JPEG files are allowed", ""⟩, []⟩) ∧
    PdfToHtml.validateFile ⟨"notes.txt", "text/plain", 10⟩
        ⟨none, [⟨"notes.txt", "text/plain", 10⟩]⟩ =
      (false, ⟨some ⟨"error", "Only PDF files are allowed", ""⟩, []⟩) ∧
    PdfToJpg.validateFile ⟨"notes.txt", "text/plain", 10⟩
        ⟨none, [⟨"notes.txt", "text/plain", 10⟩]⟩ =
      (false, ⟨some ⟨"error", "Only PDF files are allowed", ""⟩, []⟩) ∧
    PdfToWebp.validateFile ⟨"notes.txt", "text/plain", 10⟩
        ⟨none, [⟨"notes.txt", "text/plain", 10⟩]⟩ =
      (false, ⟨some ⟨"error", "Only PDF files are allowed", ""⟩, []⟩) ∧
    PdfToWord.validateFile ⟨"notes.txt", "text/plain", 10⟩
        ⟨none, [⟨"notes.txt", "text/plain", 10⟩]⟩ =
      (false, ⟨some ⟨"error", "Only PDF files are allowed", ""⟩, []⟩) := by
  decide

/-- C7, amended: running `validateFile` / `validateFiles` (`jpg-to-pdf.js`,
`pdf-to-html.js`, `pdf-to-jpg.js`, `pdf-to-webp.js`, `pdf-to-word.js`) on an
input it accepts leaves the page as it was, the file selection held by the
file input included; on an input it rejects, the validator resets the file
input (`fileInput.value = ''`), which leaves its selection empty. -/
theorem validation_page_effect (files : List File) (file : File) (pg : Page) :
    (((JpgToPdf.validateFiles files pg).1 = true → (JpgToPdf.validateFiles files pg).2 = pg) ∧
      ((JpgToPdf.validateFiles files pg).1 = false →
        (JpgToPdf.validateFiles files pg).2.selection = [])) ∧
    (((PdfToHtml.validateFile file pg).1 = true → (PdfToHtml.validateFile file pg).2 = pg) ∧
      ((PdfToHtml.validateFile file pg).1 = false →
        (PdfToHtml.validateFile file pg).2.selection = [])) ∧
    (((PdfToJpg.validateFile file pg).1 = true → (PdfToJpg.validateFile file pg).2 = pg) ∧
      ((PdfToJpg.validateFile file pg).1 = false →
        (PdfToJpg.validateFile file pg).2.selection = [])) ∧
    (((PdfToWebp.validateFile file pg).1 = true → (PdfToWebp.validateFile file pg).2 = pg) ∧
      ((PdfToWebp.validateFile file pg).1 = false →
        (PdfToWebp.validateFile file pg).2.selection = [])) ∧
    (((PdfToWord.validateFile file pg).1 = true → (PdfToWord.validateFile file pg).2 = pg) ∧
      ((PdfToWord.validateFile file pg).1 = false →
        (PdfToWord.validateFile file pg).2.selection = [])) := by
  rw [pdfToJpg_validateFile_eq, pdfToWebp_validateFile_eq]
  exact ⟨jpgToPdf_validateFiles_page files pg, pdfToHtml_validateFile_page file pg,
    pdfToHtml_validateFile_page file pg, pdfToHtml_validateFile_page file pg,
    pdfToWord_validateFile_page file pg⟩

theorem validation_page_effect_witness :
    (JpgToPdf.validateFiles [⟨"a.jpg", "image/jpeg", 2048⟩]
        ⟨none, [⟨"a.jpg", "image/jpeg", 2048⟩]⟩).2 = ⟨none, [⟨"a.jpg", "image/jpeg", 2048⟩]⟩ ∧
    (PdfToHtml.validateFile ⟨"scan.pdf", "application/pdf", 1024⟩
        ⟨none, [⟨"scan.pdf", "application/pdf", 1024⟩]⟩).2 =
      ⟨none, [⟨"scan.pdf", "application/pdf", 1024⟩]⟩ ∧
    (PdfToWord.validateFile ⟨"notes.txt", "text/plain", 10⟩
        ⟨none, [⟨"notes.txt", "text/plain", 10⟩]⟩).2.selection = [] :=
  ⟨(validation_page_effect [⟨"a.jpg", "image/jpeg", 2048⟩] ⟨"scan.pdf", "application/pdf", 1024⟩
      ⟨none, [⟨"a.jpg", "image/jpeg", 2048⟩]⟩).1.1 (by decide),
    (validation_page_effect [] ⟨"scan.pdf", "application/pdf", 1024⟩
      ⟨none, [⟨"scan.pdf", "application/pdf", 1024⟩]⟩).2.1.1 (by decide),
    (validation_page_effect [] ⟨"notes.txt", "text/plain", 10⟩
      ⟨none, [⟨"notes.txt", "text/plain", 10⟩]⟩).2.2.2.2.2 (by decide)⟩

/-! ## The path selected by handleDownload -/

theorem truthy_iff_present (field : Option String) : truthy field = true ↔ Present field := by
  unfold truthy Present
  cases field with
  | none => simp
  | some s => simp

theorem truthy_some (s : String) (h : s ≠ "") : truthy (some s) = true :=
  (truthy_iff_present _).2 ⟨s, rfl, h⟩

/-- C8, as stated, fails: for a payload whose `converted_file` and
`converted_file_url` are both non-empty and different, the path
`handleDownload` uses is `converted_file_url`, not `converted_file`. -/
theorem converted_file_url_used_when_both_present :
    (PdfToJpg.handleDownload
      ⟨some "media/7_url.jpg", some "media/7_file.jpg", none⟩).path = some "media/7_url.jpg" ∧
    (JpgToPdf.handleDownload
      ⟨some "media/7_url.pdf", some "media/7_file.pdf", none⟩).path = some "media/7_url.pdf" ∧
    (PngToPdf.handleDownload
      ⟨some "media/7_url.pdf", some "media/7_file.pdf", none⟩).path = some "media/7_url.pdf" := by
  decide

/-- C8, amended: when selecting the result path in `handleDownload`, the
fields are checked in the priority order `converted_file_url`, then
`converted_file`, then (in `pdf-to-jpg.js` only) `images[0].url`, the first
present field winning: for every payload with a non-empty
`converted_file_url` the path used for the download is `converted_file_url`,
whatever `converted_file` is; `converted_file` is used when
`converted_file_url` is absent or empty, and `images[0].url` when both are. -/
theorem download_path_priority (d : FileData) (u f : String) (image : Image)
    (rest : List Image) :
    (d.converted_file_url = some u → u ≠ "" →
      (JpgToPdf.handleDownload d).path = some u ∧
      (PngToPdf.handleDownload d).path = some u ∧
      (PdfToJpg.handleDownload d).path = some u ∧
      (PdfToPng.handleDownload d).path = some u ∧
      (PdfToWebp.handleDownload d).path = some u ∧
      (PdfToWord.handleDownload d).path = some u) ∧
    (truthy d.converted_file_url = false → d.converted_file = some f → f ≠ "" →
      (JpgToPdf.handleDownload d).path = some f ∧
      (PngToPdf.handleDownload d).path = some f ∧
      (PdfToJpg.handleDownload d).path = some f ∧
      (PdfToPng.handleDownload d).path = some f ∧
      (PdfToWebp.handleDownload d).path = some f ∧
      (PdfToWord.handleDownload d).path = some f) ∧
    (truthy d.converted_file_url = false → truthy d.converted_file = false →
      d.images = some (image :: rest) → image.url = some u →
      (PdfToJpg.handleDownload d).path = some u) := by
  refine ⟨fun h hu => ?_, fun h0 h hf => ?_, fun h0 h1 h2 h3 => ?_⟩
  · have ht := truthy_some u hu
    simp [JpgToPdf.handleDownload, PngToPdf.handleDownload, PdfToJpg.handleDownload,
      PdfToPng.handleDownload, PdfToWebp.handleDownload, PdfToWord.handleDownload, h, ht,
      DownloadStep.ofPath, DownloadStep.path]
  · have ht := truthy_some f hf
    simp [JpgToPdf.handleDownload, PngToPdf.handleDownload, PdfToJpg.handleDownload,
      PdfToPng.handleDownload, PdfToWebp.handleDownload, PdfToWord.handleDownload, h, h0, ht,
      DownloadStep.ofPath, DownloadStep.path]
  · simp [PdfToJpg.handleDownload, h0, h1, h2, h3, DownloadStep.ofPath, DownloadStep.path]

theorem download_path_priority_witness :
    (PdfToJpg.handleDownload
      ⟨some "media/7_url.jpg", some "media/7_file.jpg", none⟩).path = some "media/7_url.jpg" ∧
    (PdfToWebp.handleDownload ⟨some "", some "media/7_file.webp", none⟩).path =
      some "media/7_file.webp" ∧
    (PdfToJpg.handleDownload ⟨none, none, some [⟨some "media/7_page1.jpg"⟩]⟩).path =
      some "media/7_page1.jpg" :=
  ⟨((download_path_priority ⟨some "media/7_url.jpg", some "media/7_file.jpg", none⟩
      "media/7_url.jpg" "" ⟨none⟩ []).1 rfl (by decide)).2.2.1,
    ((download_path_priority ⟨some "", some "media/7_file.webp", none⟩
      "" "media/7_file.webp" ⟨none⟩ []).2.1 rfl rfl (by decide)).2.2.2.2.1,
    (download_path_priority ⟨none, none, some [⟨some "media/7_page1.jpg"⟩]⟩
      "media/7_page1.jpg" "" ⟨some "media/7_page1.jpg"⟩ []).2.2 rfl rfl rfl rfl⟩

/-! ## When handleDownload has no path -/

theorem plain_handleDownload_no_path_iff (fileName : String → Option String) (d : FileData) :
    ((if truthy d.converted_file_url = true then
          DownloadStep.ofPath fileName d.converted_file_url
        else if truthy d.converted_file = true then
          DownloadStep.ofPath fileName d.converted_file
        else DownloadStep.caught (.error "No file path available")).thrown =
        some (.error "No file path available") ∧
      (if truthy d.converted_file_url = true then
          DownloadStep.ofPath fileName d.converted_file_url
        else if truthy d.converted_file = true then
          DownloadStep.ofPath fileName d.converted_file
        else DownloadStep.caught (.error "No file path available")).request = none) ↔
      ¬ Present d.converted_file_url ∧ ¬ Present d.converted_file := by
  rw [← truthy_iff_present, ← truthy_iff_present]
  cases hu : d.converted_file_url with
  | none =>
    cases hf : d.converted_file with
    | none => simp [truthy, DownloadStep.thrown, DownloadStep.request]
    | some f =>
      by_cases hf2 : f = "" <;>
        simp [truthy, hf2, DownloadStep.thrown, DownloadStep.request, DownloadStep.ofPath]
  | some u =>
    by_cases hu2 : u = ""
    · cases hf : d.converted_file with
      | none => simp [truthy, hu2, DownloadStep.thrown, DownloadStep.request]
      | some f =>
        by_cases hf2 : f = "" <;>
          simp [truthy, hu2, hf2, DownloadStep.thrown, DownloadStep.request,
            DownloadStep.ofPath]
    · simp [truthy, hu2, DownloadStep.thrown, DownloadStep.request, DownloadStep.ofPath]

/-- C9: `handleDownload` fails with the error `No file path available`, and
issues no download request, if and only if none of the path fields it
consults is present (non-empty) in the payload: `converted_file_url` and
`converted_file` for `jpg-to-pdf.js`, `pdf-to-png.js`, `pdf-to-webp.js`,
`pdf-to-word.js` and `png-to-pdf.js`, and additionally a non-empty `images`
list for `pdf-to-jpg.js`. -/
theorem handleDownload_no_file_path_iff (d : FileData) :
    (((JpgToPdf.handleDownload d).thrown = some (.error "No file path available") ∧
        (JpgToPdf.handleDownload d).request = none) ↔
      ¬ Present d.converted_file_url ∧ ¬ Present d.converted_file) ∧
    (((PdfToPng.handleDownload d).thrown = some (.error "No file path available") ∧
        (PdfToPng.handleDownload d).request = none) ↔
      ¬ Present d.converted_file_url ∧ ¬ Present d.converted_file) ∧
    (((PdfToWebp.handleDownload d).thrown = some (.error "No file path available") ∧
        (PdfToWebp.handleDownload d).request = none) ↔
      ¬ Present d.converted_file_url ∧ ¬ Present d.converted_file) ∧
    (((PdfToWord.handleDownload d).thrown = some (.error "No file path available") ∧
        (PdfToWord.handleDownload d).request = none) ↔
      ¬ Present d.converted_file_url ∧ ¬ Present d.converted_file) ∧
    (((PngToPdf.handleDownload d).thrown = some (.error "No file path available") ∧
        (PngToPdf.handleDownload d).request = none) ↔
      ¬ Present d.converted_file_url ∧ ¬ Present d.converted_file) ∧
    (((PdfToJpg.handleDownload d).thrown = some (.error "No file path available") ∧
        (PdfToJpg.handleDownload d).request = none) ↔
      ¬ Present d.converted_file_url ∧ ¬ Present d.converted_file ∧
        ¬ ∃ image rest, d.images = some (image :: rest)) := by
  refine ⟨plain_handleDownload_no_path_iff _ d, plain_handleDownload_no_path_iff _ d,
    plain_handleDownload_no_path_iff _ d, plain_handleDownload_no_path_iff _ d, ?_, ?_⟩
  · rw [← truthy_iff_present, ← truthy_iff_present]
    unfold PngToPdf.handleDownload
    cases hu : d.converted_file_url with
    | none =>
      cases hf : d.converted_file with
      | none => simp [truthy, DownloadStep.thrown, DownloadStep.request]
      | some f =>
        by_cases hf2 : f = "" <;>
          simp [truthy, hf2, DownloadStep.thrown, DownloadStep.request, DownloadStep.ofPath]
    | some u =>
      by_cases hu2 : u = ""
      · cases hf : d.converted_file with
        | none => simp [truthy, hu2, DownloadStep.thrown, DownloadStep.request]
        | some f =>
          by_cases hf2 : f = "" <;>
            simp [truthy, hu2, hf2, DownloadStep.thrown, DownloadStep.request,
              DownloadStep.ofPath]
      · simp [truthy, hu2, DownloadStep.thrown, DownloadStep.request, DownloadStep.ofPath]
  · rw [← truthy_iff_present, ← truthy_iff_present]
    unfold PdfToJpg.handleDownload
    cases hu : truthy d.converted_file_url
    · cases hf : truthy d.converted_file
      · simp only [Bool.false_eq_true, if_false, not_false_eq_true, true_and]
        cases hi : d.images with
        | none => simp [DownloadStep.thrown, DownloadStep.request]
        | some l =>
          cases l with
          | nil => simp [DownloadStep.thrown, DownloadStep.request]
          | cons image rest =>
            cases hw : image.url <;>
              simp [DownloadStep.thrown, DownloadStep.request, DownloadStep.ofPath, hw]
      · obtain ⟨f, hf1, hf2⟩ := (truthy_iff_present _).1 hf
        simp [hf1, DownloadStep.thrown, DownloadStep.request, DownloadStep.ofPath]
    · obtain ⟨u, hu1, hu2⟩ := (truthy_iff_present _).1 hu
      simp [hu1, DownloadStep.thrown, DownloadStep.request, DownloadStep.ofPath]

/-! ## constructDownloadUrl -/

theorem dropLiteral_append (lit rest : List Char) : dropLiteral lit (lit ++ rest) = some rest := by
  unfold dropLiteral
  simp

theorem dropLiteral_eq_none (lit cs : List Char) (h : ¬ lit <+: cs) :
    dropLiteral lit cs = none := by
  unfold dropLiteral
  simp [h]

theorem cleanPath_of_no_origin (cs : List Char) (h : matchOrigin cs = none) :
    cleanPath ('/' :: cs) = cs ∧ (¬ "/".data <+: cs → cleanPath cs = cs) := by
  constructor
  · unfold cleanPath
    have : matchOrigin ('/' :: cs) = none := by
      unfold matchOrigin
      rw [dropLiteral_eq_none, dropLiteral_eq_none] <;> simp
    rw [this]
    rfl
  · intro hs
    unfold cleanPath
    rw [h]
    simp only [Option.getD_none]
    split
    · exact absurd (by simp) hs
    · rfl

theorem matchOrigin_host (scheme host path : List Char)
    (hs : scheme = "http://".data ∨ scheme = "https://".data)
    (hh : '/' ∉ host) (hne : host ≠ []) :
    matchOrigin (scheme ++ host ++ '/' :: path) = some ('/' :: path) := by
  have htake : (host ++ '/' :: path).takeWhile (· != '/') = host := by
    rw [List.takeWhile_append_of_pos]
    · simp
    · intro a ha
      have : a ≠ '/' := fun h => hh (h ▸ ha)
      simpa using this
  have hdrop : (host ++ '/' :: path).dropWhile (· != '/') = '/' :: path := by
    rw [List.dropWhile_append_of_pos]
    · simp
    · intro a ha
      have : a ≠ '/' := fun h => hh (h ▸ ha)
      simpa using this
  have hempty : host.isEmpty = false := by
    cases host with
    | nil => exact absurd rfl hne
    | cons _ _ => rfl
  unfold matchOrigin
  rcases hs with hs | hs
  · subst hs
    have h1 : dropLiteral "https://".data ("http://".data ++ host ++ '/' :: path) = none := by
      apply dropLiteral_eq_none
      simp
    rw [h1, List.append_assoc, Option.orElse, dropLiteral_append]
    simp only [htake, hdrop, hempty, Bool.false_eq_true, if_false]
  · subst hs
    rw [List.append_assoc, dropLiteral_append]
    simp only [Option.orElse, htake, hdrop, hempty, Bool.false_eq_true, if_false]

/-- C10, as stated, fails: the empty string is a host `h` containing no `/`,
and for it `constructDownloadUrl('http://' + h + '/' + p)` keeps the whole
argument as the path: the origin group of the pattern needs at least one host
character. -/
theorem empty_host_not_stripped :
    ¬ '/' ∈ "".data ∧
    constructDownloadUrl ("http://" ++ "" ++ "/" ++ "x.pdf") =
      "http://127.0.0.1:8000/http:///x.pdf" ∧
    constructDownloadUrl ("http://" ++ "" ++ "/" ++ "x.pdf") ≠ BACKEND_URL ++ "/" ++ "x.pdf" := by
  decide

/-- C10, amended: `constructDownloadUrl` strips an absolute origin prefix
and one leading slash and re-prefixes the backend origin: for every path `p`
that does not begin with `/` or with `http://` or `https://`, and every
non-empty host `h` containing no `/`, `constructDownloadUrl(p)`,
`constructDownloadUrl('/' + p)`, `constructDownloadUrl('http://' + h + '/' + p)`
and `constructDownloadUrl('https://' + h + '/' + p)` are all equal to
`BACKEND_URL + '/' + p`. -/
theorem constructDownloadUrl_strips_origin (p h : String)
    (hslash : ¬ "/".data <+: p.data) (hhttp : ¬ "http://".data <+: p.data)
    (hhttps : ¬ "https://".data <+: p.data) (hhost : '/' ∉ h.data) (hne : h ≠ "") :
    constructDownloadUrl p = BACKEND_URL ++ "/" ++ p ∧
    constructDownloadUrl ("/" ++ p) = BACKEND_URL ++ "/" ++ p ∧
    constructDownloadUrl ("http://" ++ h ++ "/" ++ p) = BACKEND_URL ++ "/" ++ p ∧
    constructDownloadUrl ("https://" ++ h ++ "/" ++ p) = BACKEND_URL ++ "/" ++ p := by
  have hnone : matchOrigin p.data = none := by
    unfold matchOrigin
    rw [dropLiteral_eq_none _ _ hhttps, dropLiteral_eq_none _ _ hhttp]
    rfl
  have hdata : h.data ≠ [] := fun hd => hne (String.ext hd)
  have horigin : ∀ scheme : String, scheme = "http://" ∨ scheme = "https://" →
      cleanPath (scheme ++ h ++ "/" ++ p).data = p.data := by
    intro scheme hs
    have : (scheme ++ h ++ "/" ++ p).data = scheme.data ++ h.data ++ '/' :: p.data := by
      simp [String.data_append]
    rw [this]
    unfold cleanPath
    rw [matchOrigin_host scheme.data h.data p.data (by rcases hs with hs | hs <;> simp [hs])
      hhost hdata]
    rfl
  unfold constructDownloadUrl
  refine ⟨?_, ?_, ?_, ?_⟩
  · rw [(cleanPath_of_no_origin p.data hnone).2 hslash]
  · have : ("/" ++ p).data = '/' :: p.data := by simp [String.data_append]
    rw [this, (cleanPath_of_no_origin p.data hnone).1]
  · rw [horigin "http://" (Or.inl rfl)]
  · rw [horigin "https://" (Or.inr rfl)]

theorem constructDownloadUrl_strips_origin_witness :
    constructDownloadUrl "media/7_x.pdf" = "http://127.0.0.1:8000/media/7_x.pdf" ∧
    constructDownloadUrl "/media/7_x.pdf" = "http://127.0.0.1:8000/media/7_x.pdf" ∧
    constructDownloadUrl "http://example.org/media/7_x.pdf" =
      "http://127.0.0.1:8000/media/7_x.pdf" ∧
    constructDownloadUrl "https://example.org/media/7_x.pdf" =
      "http://127.0.0.1:8000/media/7_x.pdf" :=
  constructDownloadUrl_strips_origin "media/7_x.pdf" "example.org"
    (by decide) (by decide) (by decide) (by decide) (by decide)

theorem cleanPath_backend_origin (q : List Char) :
    cleanPath ("http://".data ++ "127.0.0.1:8000".data ++ '/' :: q) = q := by
  unfold cleanPath
  rw [matchOrigin_host "http://".data "127.0.0.1:8000".data q (Or.inl rfl) (by decide)
    (by decide)]
  rfl

/-- C11: download-target resolution is idempotent: for every path string `p`,
`constructDownloadUrl(constructDownloadUrl(p))` is `constructDownloadUrl(p)`,
so resolving an already resolved payload again yields the same URL. -/
theorem constructDownloadUrl_idempotent (p : String) :
    constructDownloadUrl (constructDownloadUrl p) = constructDownloadUrl p := by
  have hdata : (constructDownloadUrl p).data =
      "http://".data ++ "127.0.0.1:8000".data ++ '/' :: cleanPath p.data := by
    simp [constructDownloadUrl, BACKEND_URL, String.data_append]
  have hclean : cleanPath (constructDownloadUrl p).data = cleanPath p.data := by
    rw [hdata, cleanPath_backend_origin]
  show BACKEND_URL ++ "/" ++ (⟨cleanPath (constructDownloadUrl p).data⟩ : String) =
    constructDownloadUrl p
  rw [hclean]
  rfl

/-! ## The file name derived from the result path -/

theorem split_of_not_mem (sep : Char) (seg : List Char) (h : sep ∉ seg) :
    split sep seg = [seg] := by
  induction seg with
  | nil => rfl
  | cons c cs ih =>
    have hc : (c == sep) = false := by
      simp only [beq_eq_false_iff_ne, ne_eq]
      intro hcs
      exact h (hcs ▸ List.mem_cons_self _ _)
    rw [split, ih (fun hm => h (List.mem_cons_of_mem _ hm))]
    simp [hc]

theorem split_append_sep (sep : Char) (dir seg : List Char) (h : sep ∉ seg) :
    ∃ first rest, split sep (dir ++ sep :: seg) = first :: rest ∧ rest ≠ [] ∧
      rest.getLast? = some seg := by
  induction dir with
  | nil =>
    refine ⟨[], [seg], ?_, by simp, by simp⟩
    rw [List.nil_append, split, split_of_not_mem sep seg h]
    simp
  | cons c dir ih =>
    obtain ⟨first, rest, h1, h2, h3⟩ := ih
    rw [List.cons_append, split, h1]
    by_cases hc : (c == sep) = true
    · refine ⟨[], first :: rest, by simp [hc], by simp, ?_⟩
      cases rest with
      | nil => exact absurd rfl h2
      | cons r rs => rw [List.getLast?_cons_cons]; exact h3
    · exact ⟨c :: first, rest, by simp [hc], h2, h3⟩

theorem lastPart_eq (path seg : List Char) (h : IsLastSegment path seg) :
    (split '/' path).getD ((split '/' path).length - 1) [] = seg ∧
      (split '/' path).length > 0 := by
  obtain ⟨hseg, hpath | ⟨dir, hpath⟩⟩ := h
  · subst hpath
    rw [split_of_not_mem '/' path hseg]
    simp
  · obtain ⟨first, rest, h1, h2, h3⟩ := split_append_sep '/' dir seg hseg
    rw [hpath, h1]
    cases rest with
    | nil => exact absurd rfl h2
    | cons r rs =>
      rw [List.getD_eq_getElem?_getD, ← List.getLast?_eq_getElem?, List.getLast?_cons_cons, h3]
      simp

theorem indexOf_of_not_mem (c : Char) (cs : List Char) (h : c ∉ cs) : indexOf c cs = none := by
  induction cs with
  | nil => rfl
  | cons x xs ih =>
    have hx : (x == c) = false := by
      simp only [beq_eq_false_iff_ne, ne_eq]
      intro hxc
      exact h (hxc ▸ List.mem_cons_self _ _)
    rw [indexOf, ih (fun hm => h (List.mem_cons_of_mem _ hm))]
    simp [hx]

theorem indexOf_first (c : Char) (pre post : List Char) (h : c ∉ pre) :
    indexOf c (pre ++ c :: post) = some pre.length := by
  induction pre with
  | nil => simp [indexOf]
  | cons x xs ih =>
    have hx : (x == c) = false := by
      simp only [beq_eq_false_iff_ne, ne_eq]
      intro hxc
      exact h (hxc ▸ List.mem_cons_self _ _)
    rw [List.cons_append, indexOf, ih (fun hm => h (List.mem_cons_of_mem _ hm))]
    simp [hx]

theorem deriveFileName_of_segment (fileName : String) (mapCut : List Char → List Char)
    (path : String) (seg : List Char) (hseg : IsLastSegment path.data seg) :
    ('_' ∉ seg → deriveFileName fileName mapCut path = ⟨seg⟩) ∧
    (∀ id stem, seg = id ++ '_' :: stem → '_' ∉ id →
      deriveFileName fileName mapCut path = ⟨mapCut stem⟩) := by
  obtain ⟨h1, h2⟩ := lastPart_eq path.data seg hseg
  constructor
  · intro h
    unfold deriveFileName
    simp only [h2, if_true, h1, indexOf_of_not_mem '_' seg h]
  · intro id stem hcut hid
    unfold deriveFileName
    simp only [h2, if_true, h1, hcut, indexOf_first '_' id stem hid]
    simp

theorem replacePdfExtension_spec (ext : String) (stem : List Char) :
    TrailingPdfReplaced ext stem (replacePdfExtension ext stem) := by
  unfold replacePdfExtension TrailingPdfReplaced
  by_cases h : endsWithI ".pdf".data stem = true
  · left
    obtain ⟨base, e, h1, h2⟩ := (endsWithI_iff ".pdf" ⟨stem⟩).1 h
    have h1 : stem = base ++ e := h1
    have hl : e.length = 4 := h2.length_eq.symm
    refine ⟨base, e, h1, h2, ?_⟩
    rw [if_pos h]
    have : (base ++ e).length - 4 = base.length := by simp [hl]
    rw [h1, this, List.take_left]
  · right
    refine ⟨fun hc => h ((endsWithI_iff ".pdf" ⟨stem⟩).2 hc), ?_⟩
    rw [if_neg h]

theorem ofPath_eq_fetch (fileName : String → Option String) (selected : Option String)
    (url path : String) (fn : Option String)
    (h : DownloadStep.ofPath fileName selected = .fetch url path fn) :
    url = constructDownloadUrl path ∧ fn = fileName path := by
  cases selected with
  | none => simp [DownloadStep.ofPath] at h
  | some p =>
    simp only [DownloadStep.ofPath, DownloadStep.fetch.injEq] at h
    obtain ⟨h1, h2, h3⟩ := h
    subst h2
    exact ⟨h1.symm, h3.symm⟩

theorem plain_step_eq_fetch (fileName : String → Option String) (d : FileData)
    (url path : String) (fn : Option String)
    (h : (if truthy d.converted_file_url = true then
          DownloadStep.ofPath fileName d.converted_file_url
        else if truthy d.converted_file = true then
          DownloadStep.ofPath fileName d.converted_file
        else DownloadStep.caught (.error "No file path available")) = .fetch url path fn) :
    url = constructDownloadUrl path ∧ fn = fileName path := by
  split at h
  · exact ofPath_eq_fetch _ _ _ _ _ h
  · split at h
    · exact ofPath_eq_fetch _ _ _ _ _ h
    · cases h

theorem pdfToJpg_step_eq_fetch (d : FileData) (url path : String) (fn : Option String)
    (h : PdfToJpg.handleDownload d = .fetch url path fn) :
    url = constructDownloadUrl path ∧
      fn = some (deriveFileName "converted.jpg" (replacePdfExtension ".jpg") path) := by
  unfold PdfToJpg.handleDownload at h
  simp only at h
  split at h
  · exact ofPath_eq_fetch _ _ _ _ _ h
  · split at h
    · exact ofPath_eq_fetch _ _ _ _ _ h
    · split at h
      · exact ofPath_eq_fetch _ _ _ _ _ h
      · cases h

theorem derived_name_saved (dflt : String) (mapCut : List Char → List Char)
    (step : DownloadStep) (url path : String) (fn : Option String) (response : Response)
    (seg : List Char) (hstep : step = .fetch url path fn)
    (hfn : fn = some (deriveFileName dflt mapCut path)) (hok : response.ok = true)
    (hseg : IsLastSegment path.data seg) :
    ('_' ∉ seg → step.resume dflt (.resolved response) = .saved url ⟨seg⟩) ∧
    (∀ id stem, seg = id ++ '_' :: stem → '_' ∉ id →
      step.resume dflt (.resolved response) = .saved url ⟨mapCut stem⟩) := by
  have hrun : step.resume dflt (.resolved response) =
      .saved url (deriveFileName dflt mapCut path) := by
    rw [hstep, hfn]
    simp [DownloadStep.resume, hok]
  obtain ⟨h1, h2⟩ := deriveFileName_of_segment dflt mapCut path seg hseg
  constructor
  · intro h
    rw [hrun, h1 h]
  · intro id stem hcut hid
    rw [hrun, h2 id stem hcut hid]

/-- C12: in the `handleDownload` of `pdf-to-jpg.js` (and likewise
`pdf-to-png.js`, `pdf-to-webp.js`, `pdf-to-word.js` with their own output
extension), for every result path whose final `/`-delimited segment contains
`_`, the save filename is the text after the first `_` of that segment with a
trailing `.pdf` (any letter case) replaced by the output extension of the
kind; for the path `converted_files/42_report.pdf` and `pdf-to-jpg.js` the
filename is `report.jpg`. -/
theorem pdf_kinds_save_name (d : FileData) (url path : String) (fn : Option String)
    (response : Response) (seg id stem : List Char) (hok : response.ok = true)
    (hseg : IsLastSegment path.data seg) (hcut : seg = id ++ '_' :: stem) (hid : '_' ∉ id) :
    (PdfToJpg.handleDownload d = .fetch url path fn →
      ∃ name, PdfToJpg.handleDownload.run d (.resolved response) = .saved url name ∧
        TrailingPdfReplaced ".jpg" stem name.data) ∧
    (PdfToPng.handleDownload d = .fetch url path fn →
      ∃ name, PdfToPng.handleDownload.run d (.resolved response) = .saved url name ∧
        TrailingPdfReplaced ".png" stem name.data) ∧
    (PdfToWebp.handleDownload d = .fetch url path fn →
      ∃ name, PdfToWebp.handleDownload.run d (.resolved response) = .saved url name ∧
        TrailingPdfReplaced ".webp" stem name.data) ∧
    (PdfToWord.handleDownload d = .fetch url path fn →
      ∃ name, PdfToWord.handleDownload.run d (.resolved response) = .saved url name ∧
        TrailingPdfReplaced ".docx" stem name.data) ∧
    PdfToJpg.handleDownload.run ⟨none, some "converted_files/42_report.pdf", none⟩
        (.resolved ⟨200, none⟩) =
      .saved "http://127.0.0.1:8000/converted_files/42_report.pdf" "report.jpg" := by
  refine ⟨fun h => ?_, fun h => ?_, fun h => ?_, fun h => ?_, by decide⟩
  · exact ⟨_, (derived_name_saved _ _ _ url path fn response seg h
      (pdfToJpg_step_eq_fetch d url path fn h).2 hok hseg).2 id stem hcut hid,
      replacePdfExtension_spec ".jpg" stem⟩
  · exact ⟨_, (derived_name_saved _ _ _ url path fn response seg h
      (plain_step_eq_fetch _ d url path fn h).2 hok hseg).2 id stem hcut hid,
      replacePdfExtension_spec ".png" stem⟩
  · exact ⟨_, (derived_name_saved _ _ _ url path fn response seg h
      (plain_step_eq_fetch _ d url path fn h).2 hok hseg).2 id stem hcut hid,
      replacePdfExtension_spec ".webp" stem⟩
  · exact ⟨_, (derived_name_saved _ _ _ url path fn response seg h
      (plain_step_eq_fetch _ d url path fn h).2 hok hseg).2 id stem hcut hid,
      replacePdfExtension_spec ".docx" stem⟩

theorem pdf_kinds_save_name_witness :
    ∃ name, PdfToWebp.handleDownload.run ⟨some "/media/out/42_My_Report.PDF", none, none⟩
        (.resolved ⟨200, none⟩) =
        .saved "http://127.0.0.1:8000/media/out/42_My_Report.PDF" name ∧
      TrailingPdfReplaced ".webp" "My_Report.PDF".data name.data :=
  (pdf_kinds_save_name ⟨some "/media/out/42_My_Report.PDF", none, none⟩
    "http://127.0.0.1:8000/media/out/42_My_Report.PDF" "/media/out/42_My_Report.PDF"
    (some "My_Report.webp") ⟨200, none⟩ "42_My_Report.PDF".data "42".data "My_Report.PDF".data
    (by decide) ⟨by decide, Or.inr ⟨"/media/out".data, by decide⟩⟩ (by decide)
    (by decide)).2.2.1 (by decide)

/-- C13, as stated, fails: for the result paths `converted_files/_report.jpg`
and `converted_files/_report.pdf`, whose final segment starts with `_` and has
no further `_`, the filename derived by `handleDownload` is the segment
without its leading underscore. -/
theorem leading_underscore_dropped :
    PdfToJpg.handleDownload.run ⟨none, some "converted_files/_report.jpg", none⟩
        (.resolved ⟨200, none⟩) =
      .saved "http://127.0.0.1:8000/converted_files/_report.jpg" "report.jpg" ∧
    JpgToPdf.handleDownload.run ⟨none, some "converted_files/_report.pdf", none⟩
        (.resolved ⟨200, none⟩) =
      .saved "http://127.0.0.1:8000/converted_files/_report.pdf" "report.pdf" := by
  decide

/-- C13, amended: for every result path whose final `/`-delimited segment
starts with `_`, the filename derived by `handleDownload` is that segment
without the leading underscore: the text after it, as it is in
`jpg-to-pdf.js`, and with a trailing `.pdf` (any letter case) replaced by the
output extension in `pdf-to-jpg.js`, `pdf-to-png.js`, `pdf-to-webp.js` and
`pdf-to-word.js`. -/
theorem leading_underscore_save_name (d : FileData) (url path : String) (fn : Option String)
    (response : Response) (stem : List Char) (hok : response.ok = true)
    (hseg : IsLastSegment path.data ('_' :: stem)) :
    (JpgToPdf.handleDownload d = .fetch url path fn →
      JpgToPdf.handleDownload.run d (.resolved response) = .saved url ⟨stem⟩) ∧
    (PdfToJpg.handleDownload d = .fetch url path fn →
      ∃ name, PdfToJpg.handleDownload.run d (.resolved response) = .saved url name ∧
        TrailingPdfReplaced ".jpg" stem name.data) ∧
    (PdfToPng.handleDownload d = .fetch url path fn →
      ∃ name, PdfToPng.handleDownload.run d (.resolved response) = .saved url name ∧
        TrailingPdfReplaced ".png" stem name.data) ∧
    (PdfToWebp.handleDownload d = .fetch url path fn →
      ∃ name, PdfToWebp.handleDownload.run d (.resolved response) = .saved url name ∧
        TrailingPdfReplaced ".webp" stem name.data) ∧
    (PdfToWord.handleDownload d = .fetch url path fn →
      ∃ name, PdfToWord.handleDownload.run d (.resolved response) = .saved url name ∧
        TrailingPdfReplaced ".docx" stem name.data) := by
  have hid : '_' ∉ ([] : List Char) := List.not_mem_nil _
  refine ⟨fun h => ?_, fun h => ?_, fun h => ?_, fun h => ?_, fun h => ?_⟩
  · exact (derived_name_saved _ id _ url path fn response _ h
      (plain_step_eq_fetch _ d url path fn h).2 hok hseg).2 [] stem rfl hid
  · exact ⟨_, (derived_name_saved _ _ _ url path fn response _ h
      (pdfToJpg_step_eq_fetch d url path fn h).2 hok hseg).2 [] stem rfl hid,
      replacePdfExtension_spec ".jpg" stem⟩
  · exact ⟨_, (derived_name_saved _ _ _ url path fn response _ h
      (plain_step_eq_fetch _ d url path fn h).2 hok hseg).2 [] stem rfl hid,
      replacePdfExtension_spec ".png" stem⟩
  · exact ⟨_, (derived_name_saved _ _ _ url path fn response _ h
      (plain_step_eq_fetch _ d url path fn h).2 hok hseg).2 [] stem rfl hid,
      replacePdfExtension_spec ".webp" stem⟩
  · exact ⟨_, (derived_name_saved _ _ _ url path fn response _ h
      (plain_step_eq_fetch _ d url path fn h).2 hok hseg).2 [] stem rfl hid,
      replacePdfExtension_spec ".docx" stem⟩

theorem leading_underscore_save_name_witness :
    JpgToPdf.handleDownload.run ⟨none, some "converted_files/_report.pdf", none⟩
        (.resolved ⟨200, none⟩) =
      .saved "http://127.0.0.1:8000/converted_files/_report.pdf" "report.pdf" :=
  (leading_underscore_save_name ⟨none, some "converted_files/_report.pdf", none⟩
    "http://127.0.0.1:8000/converted_files/_report.pdf" "converted_files/_report.pdf"
    (some "report.pdf") ⟨200, none⟩ "report.pdf".data (by decide)
    ⟨by decide, Or.inr ⟨"converted_files".data, by decide⟩⟩).1 (by decide)

/-- C14, as stated, fails: in `pdf-to-jpg.js` the final segment
`42_report.png` gives the name `report.png` and the final segment `report.pdf`
gives `report.pdf`; neither ends in `.jpg`. -/
theorem other_extension_kept :
    PdfToJpg.handleDownload.run ⟨none, some "converted_files/42_report.png", none⟩
        (.resolved ⟨200, none⟩) =
      .saved "http://127.0.0.1:8000/converted_files/42_report.png" "report.png" ∧
    PdfToJpg.handleDownload.run ⟨none, some "converted_files/report.pdf", none⟩
        (.resolved ⟨200, none⟩) =
      .saved "http://127.0.0.1:8000/converted_files/report.pdf" "report.pdf" ∧
    ¬ ".jpg".data <:+ "report.png".data ∧ ¬ ".jpg".data <:+ "report.pdf".data := by
  decide

theorem trailingPdfReplaced_cases (ext : String) (stem out : List Char)
    (h : TrailingPdfReplaced ext stem out) :
    (EndsWithAnyCase ".pdf" ⟨stem⟩ → ext.data <:+ out) ∧
    (¬ EndsWithAnyCase ".pdf" ⟨stem⟩ → out = stem) := by
  rcases h with ⟨base, e, h1, h2, h3⟩ | ⟨h1, h2⟩
  · exact ⟨fun _ => ⟨base, h3.symm⟩, fun hn => absurd ⟨base, e, h1, h2⟩ hn⟩
  · exact ⟨fun hp => absurd hp h1, fun _ => h2⟩

/-- C14, amended: for every PDF-to-X kind (`pdf-to-jpg.js`, `pdf-to-png.js`,
`pdf-to-webp.js`, `pdf-to-word.js`), the filename derived by `handleDownload`
ends with the output extension of the kind when the final segment of the
result path contains `_` and the text after its first `_` ends with `.pdf`
(any letter case): only that extension is replaced. A final segment without
`_` is used as it is (`report.pdf` stays `report.pdf`), and a text after the
first `_` that does not end with `.pdf` is used as it is (`42_report.png`
gives `report.png`). -/
theorem pdf_kinds_extension (d : FileData) (url path : String) (fn : Option String)
    (response : Response) (seg : List Char) (hok : response.ok = true)
    (hseg : IsLastSegment path.data seg) :
    (PdfToJpg.handleDownload d = .fetch url path fn →
      ('_' ∉ seg → PdfToJpg.handleDownload.run d (.resolved response) = .saved url ⟨seg⟩) ∧
      ∀ id stem, seg = id ++ '_' :: stem → '_' ∉ id →
        ∃ name, PdfToJpg.handleDownload.run d (.resolved response) = .saved url name ∧
          (EndsWithAnyCase ".pdf" ⟨stem⟩ → ".jpg".data <:+ name.data) ∧
          (¬ EndsWithAnyCase ".pdf" ⟨stem⟩ → name.data = stem)) ∧
    (PdfToPng.handleDownload d = .fetch url path fn →
      ('_' ∉ seg → PdfToPng.handleDownload.run d (.resolved response) = .saved url ⟨seg⟩) ∧
      ∀ id stem, seg = id ++ '_' :: stem → '_' ∉ id →
        ∃ name, PdfToPng.handleDownload.run d (.resolved response) = .saved url name ∧
          (EndsWithAnyCase ".pdf" ⟨stem⟩ → ".png".data <:+ name.data) ∧
          (¬ EndsWithAnyCase ".pdf" ⟨stem⟩ → name.data = stem)) ∧
    (PdfToWebp.handleDownload d = .fetch url path fn →
      ('_' ∉ seg → PdfToWebp.handleDownload.run d (.resolved response) = .saved url ⟨seg⟩) ∧
      ∀ id stem, seg = id ++ '_' :: stem → '_' ∉ id →
        ∃ name, PdfToWebp.handleDownload.run d (.resolved response) = .saved url name ∧
          (EndsWithAnyCase ".pdf" ⟨stem⟩ → ".webp".data <:+ name.data) ∧
          (¬ EndsWithAnyCase ".pdf" ⟨stem⟩ → name.data = stem)) ∧
    (PdfToWord.handleDownload d = .fetch url path fn →
      ('_' ∉ seg → PdfToWord.handleDownload.run d (.resolved response) = .saved url ⟨seg⟩) ∧
      ∀ id stem, seg = id ++ '_' :: stem → '_' ∉ id →
        ∃ name, PdfToWord.handleDownload.run d (.resolved response) = .saved url name ∧
          (EndsWithAnyCase ".pdf" ⟨stem⟩ → ".docx".data <:+ name.data) ∧
          (¬ EndsWithAnyCase ".pdf" ⟨stem⟩ → name.data = stem)) := by
  refine ⟨fun h => ?_, fun h => ?_, fun h => ?_, fun h => ?_⟩
  · have hs := derived_name_saved _ _ _ url path fn response seg h
      (pdfToJpg_step_eq_fetch d url path fn h).2 hok hseg
    exact ⟨hs.1, fun id stem hcut hid => ⟨_, hs.2 id stem hcut hid,
      trailingPdfReplaced_cases _ _ _ (replacePdfExtension_spec ".jpg" stem)⟩⟩
  · have hs := derived_name_saved _ _ _ url path fn response seg h
      (plain_step_eq_fetch _ d url path fn h).2 hok hseg
    exact ⟨hs.1, fun id stem hcut hid => ⟨_, hs.2 id stem hcut hid,
      trailingPdfReplaced_cases _ _ _ (replacePdfExtension_spec ".png" stem)⟩⟩
  · have hs := derived_name_saved _ _ _ url path fn response seg h
      (plain_step_eq_fetch _ d url path fn h).2 hok hseg
    exact ⟨hs.1, fun id stem hcut hid => ⟨_, hs.2 id stem hcut hid,
      trailingPdfReplaced_cases _ _ _ (replacePdfExtension_spec ".webp" stem)⟩⟩
  · have hs := derived_name_saved _ _ _ url path fn response seg h
      (plain_step_eq_fetch _ d url path fn h).2 hok hseg
    exact ⟨hs.1, fun id stem hcut hid => ⟨_, hs.2 id stem hcut hid,
      trailingPdfReplaced_cases _ _ _ (replacePdfExtension_spec ".docx" stem)⟩⟩

theorem pdf_kinds_extension_witness :
    PdfToPng.handleDownload.run ⟨none, some "converted_files/report.pdf", none⟩
        (.resolved ⟨200, none⟩) =
      .saved "http://127.0.0.1:8000/converted_files/report.pdf" "report.pdf" :=
  ((pdf_kinds_extension ⟨none, some "converted_files/report.pdf", none⟩
    "http://127.0.0.1:8000/converted_files/report.pdf" "converted_files/report.pdf"
    (some "report.pdf") ⟨200, none⟩ "report.pdf".data (by decide)
    ⟨by decide, Or.inr ⟨"converted_files".data, by decide⟩⟩).2.1 (by decide)).1 (by decide)

/-! ## The Content-Disposition header -/

theorem resume_header_irrelevant (dflt : String) (step : DownloadStep) (status : Nat)
    (h1 h2 : Option String) :
    step.resume dflt (.resolved ⟨status, h1⟩) = step.resume dflt (.resolved ⟨status, h2⟩) := by
  cases step <;> rfl

theorem matchFileNameGroup_quoted (name : List Char) (hne : name ≠ [])
    (hterm : ∀ c ∈ name, isLineTerminator c = false) :
    matchFileNameGroup (name ++ ['"']) = some name := by
  unfold matchFileNameGroup
  have hlen : 2 ≤ (name ++ ['"']).length := by
    cases name with
    | nil => exact absurd rfl hne
    | cons _ _ => simp
  have hany : name.any isLineTerminator = false := by
    rw [List.any_eq_false]
    intro c hc
    simp [hterm c hc]
  simp [hlen, hany, hne]

theorem matchFileName_attachment (name : List Char) (hne : name ≠ [])
    (hterm : ∀ c ∈ name, isLineTerminator c = false) :
    matchFileName ("attachment; filename=\"".data ++ name ++ ['"']) = some name := by
  have h := matchFileNameGroup_quoted name hne hterm
  simp [matchFileName, dropLiteral, matchFileNameTail, h]

/-- C15, as stated, fails: for a download response whose `Content-Disposition`
header names `server.jpg`, `handleDownload` of `pdf-to-jpg.js` saves under the
name derived from the result path, and `handleDownload` of `pdf-to-html.js`
under the last part of the URL. -/
theorem header_filename_not_used :
    PdfToJpg.handleDownload.run ⟨none, some "converted_files/42_report.pdf", none⟩
        (.resolved ⟨200, some "attachment; filename=\"server.jpg\""⟩) =
      .saved "http://127.0.0.1:8000/converted_files/42_report.pdf" "report.jpg" ∧
    PdfToHtml.handleDownload.run (some "/media/out/7_x.html")
        (.resolved ⟨200, some "attachment; filename=\"server.html\""⟩) =
      .saved "/media/out/7_x.html" "7_x.html" := by
  decide

/-- C15, amended: only `png-to-pdf.js` reads the `Content-Disposition` header
of the download response: there the filename used for the save action is the
one the header carries (for `attachment; filename="NAME"` it is `NAME`), and
`converted.pdf` when the response has no such header. In `jpg-to-pdf.js`,
`pdf-to-jpg.js`, `pdf-to-png.js`, `pdf-to-webp.js`, `pdf-to-word.js` and
`pdf-to-html.js` the header is not read: the run of `handleDownload` is the
same whatever the header is, and the filename is the one derived from the
result path. -/
theorem content_disposition_use (d : FileData) (download_url : Option String)
    (status : Nat) (h1 h2 : Option String) (name url path : String) (fn : Option String) :
    JpgToPdf.handleDownload.run d (.resolved ⟨status, h1⟩) =
      JpgToPdf.handleDownload.run d (.resolved ⟨status, h2⟩) ∧
    PdfToJpg.handleDownload.run d (.resolved ⟨status, h1⟩) =
      PdfToJpg.handleDownload.run d (.resolved ⟨status, h2⟩) ∧
    PdfToPng.handleDownload.run d (.resolved ⟨status, h1⟩) =
      PdfToPng.handleDownload.run d (.resolved ⟨status, h2⟩) ∧
    PdfToWebp.handleDownload.run d (.resolved ⟨status, h1⟩) =
      PdfToWebp.handleDownload.run d (.resolved ⟨status, h2⟩) ∧
    PdfToWord.handleDownload.run d (.resolved ⟨status, h1⟩) =
      PdfToWord.handleDownload.run d (.resolved ⟨status, h2⟩) ∧
    PdfToHtml.handleDownload.run download_url (.resolved ⟨status, h1⟩) =
      PdfToHtml.handleDownload.run download_url (.resolved ⟨status, h2⟩) ∧
    (PngToPdf.handleDownload d = .fetch url path fn → 200 ≤ status → status ≤ 299 →
      (name ≠ "" → (∀ c ∈ name.data, isLineTerminator c = false) →
        PngToPdf.handleDownload.run d
            (.resolved ⟨status, some ("attachment; filename=\"" ++ name ++ "\"")⟩) =
          .saved url name) ∧
      PngToPdf.handleDownload.run d (.resolved ⟨status, none⟩) = .saved url "converted.pdf") := by
  refine ⟨resume_header_irrelevant _ _ _ _ _, resume_header_irrelevant _ _ _ _ _,
    resume_header_irrelevant _ _ _ _ _, resume_header_irrelevant _ _ _ _ _,
    resume_header_irrelevant _ _ _ _ _, ?_, ?_⟩
  · unfold PdfToHtml.handleDownload.run
    cases PdfToHtml.handleDownload download_url <;> rfl
  · intro hstep hlo hhi
    have hok : ∀ h, (⟨status, h⟩ : Response).ok = true := by
      intro h
      simp [Response.ok, hlo, hhi]
    constructor
    · intro hne hterm
      have hdata : name.data ≠ [] := fun hd => hne (String.ext hd)
      have hm := matchFileName_attachment name.data hdata hterm
      have hheader : ("attachment; filename=\"" ++ name ++ "\"").data =
          "attachment; filename=\"".data ++ name.data ++ ['"'] := by
        simp [String.data_append]
      unfold PngToPdf.handleDownload.run
      rw [hstep]
      simp only [hok, Bool.not_true, Bool.false_eq_true, if_false, hheader, hm]
      have ht : truthy (some ("attachment; filename=\"" ++ name ++ "\"")) = true := by
        apply truthy_some
        intro hc
        have := congrArg String.data hc
        rw [hheader] at this
        simp at this
      simp [ht]
    · unfold PngToPdf.handleDownload.run
      rw [hstep]
      simp only [hok, Bool.not_true, Bool.false_eq_true, if_false]

theorem content_disposition_use_witness :
    PngToPdf.handleDownload.run ⟨none, some "converted_files/42_merged.pdf", none⟩
        (.resolved ⟨200, some ("attachment; filename=\"" ++ "album.pdf" ++ "\"")⟩) =
      .saved "http://127.0.0.1:8000/converted_files/42_merged.pdf" "album.pdf" :=
  ((content_disposition_use ⟨none, some "converted_files/42_merged.pdf", none⟩ none 200
    none none "album.pdf" "http://127.0.0.1:8000/converted_files/42_merged.pdf"
    "converted_files/42_merged.pdf" none).2.2.2.2.2.2 (by decide) (by decide) (by decide)).1
    (by decide) (by decide)

/-! ## pdf-to-html.js: one poll -/

theorem clearInterval_timers (handle : Nat) (s : PdfToHtml.State) :
    ∀ t ∈ (PdfToHtml.clearInterval (some handle) s).timers, t.1 ≠ handle := by
  intro t ht
  simp only [PdfToHtml.clearInterval, List.mem_filter] at ht
  intro h
  have := ht.2
  simp [h] at this

/-- C16: in `pdf-to-html.js`, one step of `pollConversionStatus` on a
successfully fetched status payload stops the poller (clears the interval
timer `pollInterval` refers to) if and only if the status is `COMPLETED` or
`FAILED`: `COMPLETED` shows the success banner and exposes the download
action, `FAILED` shows the failure banner, and `PENDING` or `PROCESSING`
leaves banner, download action and timers as they are. For the status
sequence `PENDING`, `PROCESSING`, `COMPLETED` the job is completed after the
third poll and no timer is left. -/
theorem poll_step_on_payload (s : PdfToHtml.State) (data : PdfToHtml.StatusPayload)
    (timer : Nat) (task : Option String) (hpoll : s.pollInterval = some timer)
    (hset : (timer, task) ∈ s.timers) :
    ((∀ t ∈ (PdfToHtml.pollConversionStatus.settle (.payload data) s).timers, t.1 ≠ timer) ↔
      data.status = some "COMPLETED" ∨ data.status = some "FAILED") ∧
    (data.status = some "COMPLETED" →
      (PdfToHtml.pollConversionStatus.settle (.payload data) s).page.status =
        some ⟨"success", "Conversion completed!", ""⟩ ∧
      (PdfToHtml.pollConversionStatus.settle (.payload data) s).downloadButton = some data) ∧
    (data.status = some "FAILED" →
      (PdfToHtml.pollConversionStatus.settle (.payload data) s).page.status =
        some ⟨"error", "Conversion failed: " ++
          (if truthy data.error then data.error.getD "" else "Unknown error"), ""⟩ ∧
      (PdfToHtml.pollConversionStatus.settle (.payload data) s).downloadButton =
        s.downloadButton) ∧
    (data.status = some "PENDING" ∨ data.status = some "PROCESSING" →
      PdfToHtml.pollConversionStatus.settle (.payload data) s =
        { s with inFlight := s.inFlight - 1 }) ∧
    PdfToHtml.run PdfToHtml.State.initial
        [.start (some "t1"),
          .tick 1, .settle (.payload ⟨some "PENDING", none, none⟩),
          .tick 1, .settle (.payload ⟨some "PROCESSING", none, none⟩),
          .tick 1, .settle (.payload ⟨some "COMPLETED", some "/media/out/7_x.html", none⟩)] =
      { page := ⟨some ⟨"success", "Conversion completed!", ""⟩, []⟩
        downloadButton := some ⟨some "COMPLETED", some "/media/out/7_x.html", none⟩
        convertDisabled := false
        currentTaskId := none
        pollInterval := some 1
        timers := []
        nextTimer := 2
        inFlight := 0
        requests := ["http://127.0.0.1:8000/api/conversion-status/t1/",
          "http://127.0.0.1:8000/api/conversion-status/t1/",
          "http://127.0.0.1:8000/api/conversion-status/t1/"] } := by
  refine ⟨?_, ?_, ?_, ?_, by decide⟩
  · by_cases hc : data.status = some "COMPLETED"
    · simp only [hc, true_or, iff_true]
      intro t ht
      have : t ∈ (PdfToHtml.clearInterval (some timer) { s with inFlight := s.inFlight - 1 }).timers := by
        simpa [PdfToHtml.pollConversionStatus.settle, hc, hpoll, PdfToHtml.showDownloadButton,
          PdfToHtml.resetConvertButton] using ht
      exact clearInterval_timers timer _ t this
    · by_cases hf : data.status = some "FAILED"
      · simp only [hf, or_true, iff_true]
        intro t ht
        have : t ∈ (PdfToHtml.clearInterval (some timer)
            { s with inFlight := s.inFlight - 1 }).timers := by
          simpa [PdfToHtml.pollConversionStatus.settle, hf, hpoll,
            PdfToHtml.resetConvertButton] using ht
        exact clearInterval_timers timer _ t this
      · simp only [hc, hf, or_self, iff_false, not_forall]
        refine ⟨(timer, task), ?_⟩
        simp [PdfToHtml.pollConversionStatus.settle, hc, hf, hset]
  · intro hc
    simp [PdfToHtml.pollConversionStatus.settle, hc, PdfToHtml.showDownloadButton,
      PdfToHtml.resetConvertButton, PdfToHtml.clearInterval, showStatus]
  · intro hf
    simp [PdfToHtml.pollConversionStatus.settle, hf, PdfToHtml.resetConvertButton,
      PdfToHtml.clearInterval, showStatus]
  · rintro (hp | hp) <;> simp [PdfToHtml.pollConversionStatus.settle, hp]

theorem poll_step_on_payload_witness :
    PdfToHtml.pollConversionStatus.settle (.payload ⟨some "FAILED", none, some "bad file"⟩)
        (PdfToHtml.run PdfToHtml.State.initial [.start (some "t1"), .tick 1]) =
      { page := ⟨some ⟨"error", "Conversion failed: bad file", ""⟩, []⟩
        downloadButton := none
        convertDisabled := false
        currentTaskId := none
        pollInterval := some 1
        timers := []
        nextTimer := 2
        inFlight := 0
        requests := ["http://127.0.0.1:8000/api/conversion-status/t1/"] } ∧
    ∀ t ∈ (PdfToHtml.pollConversionStatus.settle
        (.payload ⟨some "FAILED", none, some "bad file"⟩)
        (PdfToHtml.run PdfToHtml.State.initial [.start (some "t1"), .tick 1])).timers,
      t.1 ≠ 1 :=
  ⟨by decide, (poll_step_on_payload
    (PdfToHtml.run PdfToHtml.State.initial [.start (some "t1"), .tick 1])
    ⟨some "FAILED", none, some "bad file"⟩ 1 (some "t1") (by decide) (by decide)).1.2
    (Or.inr rfl)⟩

/-! ## pdf-to-html.js: requests in flight -/

theorem startConversionPolling_inFlight (taskId : Option String) (s : PdfToHtml.State) :
    (PdfToHtml.startConversionPolling taskId s).inFlight = s.inFlight := by
  unfold PdfToHtml.startConversionPolling
  cases hp : s.pollInterval with
  | none => rfl
  | some handle =>
    by_cases hz : (handle != 0) = true
    · simp [hz, PdfToHtml.clearInterval]
    · simp [hz]

theorem settle_inFlight (outcome : PdfToHtml.PollOutcome) (s : PdfToHtml.State) :
    (PdfToHtml.pollConversionStatus.settle outcome s).inFlight = s.inFlight - 1 := by
  unfold PdfToHtml.pollConversionStatus.settle
  cases outcome with
  | failed => rfl
  | payload data =>
    by_cases hc : (data.status == some "COMPLETED") = true
    · simp [hc, PdfToHtml.showDownloadButton, PdfToHtml.resetConvertButton,
        PdfToHtml.clearInterval]
    · by_cases hf : (data.status == some "FAILED") = true
      · simp [hc, hf, PdfToHtml.resetConvertButton, PdfToHtml.clearInterval]
      · simp [hc, hf]

theorem step_inFlight_le (s : PdfToHtml.State) (e : PdfToHtml.Event)
    (h : ∀ timer, e = .tick timer → s.inFlight = 0) (hs : s.inFlight ≤ 1) :
    (PdfToHtml.step s e).inFlight ≤ 1 := by
  cases e with
  | start taskId =>
    rw [PdfToHtml.step, startConversionPolling_inFlight]
    exact hs
  | tick timer =>
    have h0 := h timer rfl
    simp only [PdfToHtml.step]
    cases hfind : (s.timers.find? fun t => t.1 == timer) with
    | none => exact hs
    | some t => simp [PdfToHtml.pollConversionStatus.request, h0]
  | settle outcome =>
    unfold PdfToHtml.step
    by_cases h0 : s.inFlight = 0
    · simp [h0]
    · simp only [h0, if_false, settle_inFlight]
      omega

theorem sequential_inFlight_le (events : List PdfToHtml.Event) :
    ∀ s : PdfToHtml.State, s.inFlight ≤ 1 → PdfToHtml.ticksWhenIdle s events = true →
      ∀ k, (PdfToHtml.run s (events.take k)).inFlight ≤ 1 := by
  induction events with
  | nil =>
    intro s hs _ k
    simpa [PdfToHtml.run] using hs
  | cons e events ih =>
    intro s hs hidle k
    cases k with
    | zero => simpa [PdfToHtml.run] using hs
    | succ k =>
      have hstep : (PdfToHtml.step s e).inFlight ≤ 1 := by
        apply step_inFlight_le s e _ hs
        intro timer he
        subst he
        simp only [PdfToHtml.ticksWhenIdle, Bool.and_eq_true, beq_iff_eq] at hidle
        exact hidle.1
      have hrest : PdfToHtml.ticksWhenIdle (PdfToHtml.step s e) events = true := by
        cases e with
        | tick timer =>
          simp only [PdfToHtml.ticksWhenIdle, Bool.and_eq_true] at hidle
          exact hidle.2
        | start taskId => simpa [PdfToHtml.ticksWhenIdle] using hidle
        | settle outcome => simpa [PdfToHtml.ticksWhenIdle] using hidle
      have := ih (PdfToHtml.step s e) hstep hrest k
      simpa [PdfToHtml.run] using this

/-- C17, as stated, fails: when the timer of a job fires twice before the
first status response arrives, two status requests for that job are in flight
at the same time. -/
theorem two_polls_in_flight :
    (PdfToHtml.run PdfToHtml.State.initial [.start (some "t1"), .tick 1, .tick 1]).inFlight = 2 ∧
    (PdfToHtml.run PdfToHtml.State.initial [.start (some "t1"), .tick 1, .tick 1]).requests =
      ["http://127.0.0.1:8000/api/conversion-status/t1/",
        "http://127.0.0.1:8000/api/conversion-status/t1/"] := by
  decide

/-- C17, amended: every tick of the interval timer that is set issues a status
request, whether or not the previous request has resolved, so two status
requests for a job are in flight at once when a response takes longer than the
interval. There are never two in flight in the runs in which every status
request settles before the next tick. -/
theorem polls_in_flight (s : PdfToHtml.State) (timer : Nat) (task : Option String)
    (events : List PdfToHtml.Event) (k : Nat) :
    ((s.timers.find? fun t => t.1 == timer) = some (timer, task) →
      (PdfToHtml.step s (.tick timer)).inFlight = s.inFlight + 1 ∧
      (PdfToHtml.step s (.tick timer)).requests =
        s.requests ++ [PdfToHtml.STATUS_ENDPOINT ++ task.getD "undefined" ++ "/"]) ∧
    (s.inFlight ≤ 1 → PdfToHtml.ticksWhenIdle s events = true →
      (PdfToHtml.run s (events.take k)).inFlight ≤ 1) := by
  constructor
  · intro h
    simp [PdfToHtml.step, h, PdfToHtml.pollConversionStatus.request]
  · intro hs hidle
    exact sequential_inFlight_le events s hs hidle k

theorem polls_in_flight_witness :
    (PdfToHtml.step (PdfToHtml.run PdfToHtml.State.initial [.start (some "t1"), .tick 1])
      (.tick 1)).inFlight = 2 ∧
    (PdfToHtml.run PdfToHtml.State.initial
      ([PdfToHtml.Event.start (some "t1"), .tick 1,
        .settle (.payload ⟨some "PENDING", none, none⟩), .tick 1].take 4)).inFlight ≤ 1 :=
  ⟨((polls_in_flight (PdfToHtml.run PdfToHtml.State.initial [.start (some "t1"), .tick 1])
      1 (some "t1") [] 0).1 (by decide)).1,
    (polls_in_flight PdfToHtml.State.initial 1 none
      [.start (some "t1"), .tick 1, .settle (.payload ⟨some "PENDING", none, none⟩), .tick 1]
      4).2 (by decide) (by decide)⟩

/-! ## pdf-to-html.js: the interval timers -/

theorem clearInterval_of_all (handle : Nat) (s : PdfToHtml.State)
    (h : ∀ t ∈ s.timers, s.pollInterval = some t.1) (hp : s.pollInterval = some handle) :
    (PdfToHtml.clearInterval (some handle) s).timers = [] := by
  simp only [PdfToHtml.clearInterval, List.filter_eq_nil_iff]
  intro t ht
  have := h t ht
  rw [hp] at this
  simp [this]

theorem startConversionPolling_timers (taskId : Option String) (s : PdfToHtml.State)
    (h : ∀ t ∈ s.timers, s.pollInterval = some t.1)
    (hpos : ∀ handle, s.pollInterval = some handle → 0 < handle) :
    (PdfToHtml.startConversionPolling taskId s).timers = [(s.nextTimer, taskId)] ∧
    (PdfToHtml.startConversionPolling taskId s).pollInterval = some s.nextTimer ∧
    (PdfToHtml.startConversionPolling taskId s).nextTimer = s.nextTimer + 1 := by
  unfold PdfToHtml.startConversionPolling
  cases hp : s.pollInterval with
  | none =>
    have : s.timers = [] := by
      cases ht : s.timers with
      | nil => rfl
      | cons t ts =>
        have := h t (ht ▸ List.mem_cons_self _ _)
        rw [hp] at this
        cases this
    simp [this]
  | some handle =>
    have hz : (handle != 0) = true := by
      have := hpos handle hp
      simp
      omega
    have hc := clearInterval_of_all handle s h hp
    simp only [hz, if_true, hc, List.nil_append]
    exact ⟨rfl, rfl, rfl⟩

theorem timers_invariant (events : List PdfToHtml.Event) :
    ∀ s : PdfToHtml.State,
      (s.timers.length ≤ 1 ∧ (∀ t ∈ s.timers, s.pollInterval = some t.1) ∧
        (∀ handle, s.pollInterval = some handle → 0 < handle) ∧ 0 < s.nextTimer) →
      ((PdfToHtml.run s events).timers.length ≤ 1 ∧
        (∀ t ∈ (PdfToHtml.run s events).timers,
          (PdfToHtml.run s events).pollInterval = some t.1) ∧
        (∀ handle, (PdfToHtml.run s events).pollInterval = some handle → 0 < handle) ∧
        0 < (PdfToHtml.run s events).nextTimer) := by
  induction events with
  | nil => intro s hs; simpa [PdfToHtml.run] using hs
  | cons e events ih =>
    intro s hs
    obtain ⟨h1, h2, h3, h4⟩ := hs
    have hstep : (PdfToHtml.step s e).timers.length ≤ 1 ∧
        (∀ t ∈ (PdfToHtml.step s e).timers, (PdfToHtml.step s e).pollInterval = some t.1) ∧
        (∀ handle, (PdfToHtml.step s e).pollInterval = some handle → 0 < handle) ∧
        0 < (PdfToHtml.step s e).nextTimer := by
      cases e with
      | start taskId =>
        obtain ⟨g1, g2, g3⟩ := startConversionPolling_timers taskId s h2 h3
        simp only [PdfToHtml.step]
        rw [g1, g2, g3]
        refine ⟨by simp, ?_, ?_, by omega⟩
        · intro t ht
          simp only [List.mem_singleton] at ht
          rw [ht]
        · intro handle hh
          simp only [Option.some.injEq] at hh
          omega
      | tick timer =>
        simp only [PdfToHtml.step]
        cases hfind : (s.timers.find? fun t => t.1 == timer) with
        | none => exact ⟨h1, h2, h3, h4⟩
        | some t => exact ⟨h1, h2, h3, h4⟩
      | settle outcome =>
        have hsub : ∀ s' : PdfToHtml.State, s'.pollInterval = s.pollInterval →
            s'.nextTimer = s.nextTimer → List.Sublist s'.timers s.timers →
            s'.timers.length ≤ 1 ∧ (∀ t ∈ s'.timers, s'.pollInterval = some t.1) ∧
            (∀ handle, s'.pollInterval = some handle → 0 < handle) ∧ 0 < s'.nextTimer := by
          intro s' e1 e2 e3
          refine ⟨Nat.le_trans e3.length_le h1, ?_, ?_, ?_⟩
          · intro t ht
            rw [e1]
            exact h2 t (e3.subset ht)
          · rw [e1]; exact h3
          · rw [e2]; exact h4
        simp only [PdfToHtml.step]
        by_cases h0 : s.inFlight = 0
        · simp only [h0, if_true]
          exact ⟨h1, h2, h3, h4⟩
        · simp only [h0, if_false]
          apply hsub
          · unfold PdfToHtml.pollConversionStatus.settle
            cases outcome with
            | failed => rfl
            | payload data =>
              by_cases hc : (data.status == some "COMPLETED") = true
              · simp [hc, PdfToHtml.showDownloadButton, PdfToHtml.resetConvertButton,
                  PdfToHtml.clearInterval]
              · by_cases hf : (data.status == some "FAILED") = true
                · simp [hc, hf, PdfToHtml.resetConvertButton, PdfToHtml.clearInterval]
                · simp [hc, hf]
          · unfold PdfToHtml.pollConversionStatus.settle
            cases outcome with
            | failed => rfl
            | payload data =>
              by_cases hc : (data.status == some "COMPLETED") = true
              · simp [hc, PdfToHtml.showDownloadButton, PdfToHtml.resetConvertButton,
                  PdfToHtml.clearInterval]
              · by_cases hf : (data.status == some "FAILED") = true
                · simp [hc, hf, PdfToHtml.resetConvertButton, PdfToHtml.clearInterval]
                · simp [hc, hf]
          · unfold PdfToHtml.pollConversionStatus.settle
            cases outcome with
            | failed =>
              simp only [PdfToHtml.resetConvertButton, PdfToHtml.clearInterval]
              exact List.filter_sublist _
            | payload data =>
              by_cases hc : (data.status == some "COMPLETED") = true
              · simp only [hc, if_true, PdfToHtml.showDownloadButton,
                  PdfToHtml.resetConvertButton, PdfToHtml.clearInterval]
                exact List.filter_sublist _
              · by_cases hf : (data.status == some "FAILED") = true
                · simp only [hc, hf, if_true, if_false, Bool.false_eq_true,
                    PdfToHtml.resetConvertButton, PdfToHtml.clearInterval]
                  exact List.filter_sublist _
                · simp only [hc, hf, if_false, Bool.false_eq_true]
                  exact List.Sublist.refl _
    have := ih (PdfToHtml.step s e) hstep
    simpa [PdfToHtml.run] using this

/-- C18: in `pdf-to-html.js`, at most one polling interval timer is set at
any time: after every sequence of `startConversionPolling` calls, timer ticks
and poll outcomes, at most one timer is set and `pollInterval` holds its
handle, and starting polling for a new task clears that timer first, so that
the only timer set afterwards is the new one: no timer of a superseded job is
left. -/
theorem at_most_one_timer (events : List PdfToHtml.Event) (taskId : Option String) :
    (PdfToHtml.run PdfToHtml.State.initial events).timers.length ≤ 1 ∧
    (∀ t ∈ (PdfToHtml.run PdfToHtml.State.initial events).timers,
      (PdfToHtml.run PdfToHtml.State.initial events).pollInterval = some t.1) ∧
    (PdfToHtml.startConversionPolling taskId
        (PdfToHtml.run PdfToHtml.State.initial events)).timers =
      [((PdfToHtml.run PdfToHtml.State.initial events).nextTimer, taskId)] ∧
    (PdfToHtml.startConversionPolling taskId
        (PdfToHtml.run PdfToHtml.State.initial events)).pollInterval =
      some (PdfToHtml.run PdfToHtml.State.initial events).nextTimer := by
  have hinit : PdfToHtml.State.initial.timers.length ≤ 1 ∧
      (∀ t ∈ PdfToHtml.State.initial.timers, PdfToHtml.State.initial.pollInterval = some t.1) ∧
      (∀ handle, PdfToHtml.State.initial.pollInterval = some handle → 0 < handle) ∧
      0 < PdfToHtml.State.initial.nextTimer := by
    refine ⟨by decide, ?_, ?_, by decide⟩
    · intro t ht
      simp [PdfToHtml.State.initial] at ht
    · intro handle hh
      simp [PdfToHtml.State.initial] at hh
  obtain ⟨h1, h2, h3, _⟩ := timers_invariant events PdfToHtml.State.initial hinit
  obtain ⟨g1, g2, _⟩ := startConversionPolling_timers taskId _ h2 h3
  exact ⟨h1, h2, g1, g2⟩

/-! ## pdf-to-html.js: a job that stays pending -/

theorem pending_round (s : PdfToHtml.State) (timer : Nat) (task : Option String)
    (data : PdfToHtml.StatusPayload)
    (hset : (s.timers.find? fun t => t.1 == timer) = some (timer, task))
    (hidle : s.inFlight = 0)
    (hdata : data.status = some "PENDING" ∨ data.status = some "PROCESSING") :
    PdfToHtml.run s [.tick timer, .settle (.payload data)] =
      { s with requests :=
          s.requests ++ [PdfToHtml.STATUS_ENDPOINT ++ task.getD "undefined" ++ "/"] } := by
  have hc : (data.status == some "COMPLETED") = false := by
    rcases hdata with h | h <;> simp [h]
  have hf : (data.status == some "FAILED") = false := by
    rcases hdata with h | h <;> simp [h]
  simp [PdfToHtml.run, PdfToHtml.step, hset, PdfToHtml.pollConversionStatus.request, hidle,
    PdfToHtml.pollConversionStatus.settle, hc, hf]

theorem pending_rounds (outcomes : List PdfToHtml.PollOutcome) (timer : Nat)
    (task : Option String) :
    ∀ s : PdfToHtml.State,
      (s.timers.find? fun t => t.1 == timer) = some (timer, task) → s.inFlight = 0 →
      (∀ o ∈ outcomes, ∃ data, o = .payload data ∧
        (data.status = some "PENDING" ∨ data.status = some "PROCESSING")) →
      PdfToHtml.run s (PdfToHtml.pollRounds timer outcomes) =
        { s with requests := (s.requests ++ List.replicate outcomes.length
            (PdfToHtml.STATUS_ENDPOINT ++ task.getD "undefined" ++ "/")) } := by
  induction outcomes with
  | nil =>
    intro s _ _ _
    simp [PdfToHtml.pollRounds, PdfToHtml.run]
  | cons o outcomes ih =>
    intro s hset hidle hall
    obtain ⟨data, ho, hdata⟩ := hall o (List.mem_cons_self _ _)
    subst ho
    have hround := pending_round s timer task data hset hidle hdata
    have hsplit : PdfToHtml.run s (PdfToHtml.pollRounds timer (.payload data :: outcomes)) =
        PdfToHtml.run (PdfToHtml.run s [.tick timer, .settle (.payload data)])
          (PdfToHtml.pollRounds timer outcomes) := by
      simp [PdfToHtml.pollRounds, PdfToHtml.run]
    rw [hsplit, hround]
    have hnext := ih
      { s with requests :=
          (s.requests ++ [PdfToHtml.STATUS_ENDPOINT ++ task.getD "undefined" ++ "/"]) }
      hset hidle (fun o ho => hall o (List.mem_cons_of_mem _ ho))
    rw [hnext]
    simp [List.replicate_succ]

/-- C19, as stated, fails: a job whose status responses are all `PENDING` is
still polled after 30 polls: the timer is still set, the 31st tick issues a
31st status request, and the page shows no timeout. -/
theorem still_polling_after_ceiling :
    (PdfToHtml.run
      (PdfToHtml.convert.settle (.resolved 200 (.ok ⟨some "t1", none⟩))
        { PdfToHtml.State.initial with convertDisabled := true })
      (PdfToHtml.pollRounds 1
        (List.replicate 31 (.payload ⟨some "PENDING", none, none⟩)))).timers =
      [(1, some "t1")] ∧
    (PdfToHtml.run
      (PdfToHtml.convert.settle (.resolved 200 (.ok ⟨some "t1", none⟩))
        { PdfToHtml.State.initial with convertDisabled := true })
      (PdfToHtml.pollRounds 1
        (List.replicate 31 (.payload ⟨some "PENDING", none, none⟩)))).requests.length = 31 ∧
    (PdfToHtml.run
      (PdfToHtml.convert.settle (.resolved 200 (.ok ⟨some "t1", none⟩))
        { PdfToHtml.State.initial with convertDisabled := true })
      (PdfToHtml.pollRounds 1
        (List.replicate 31 (.payload ⟨some "PENDING", none, none⟩)))).page.status =
      some ⟨"loading", "Conversion in progress...", ""⟩ := by
  have h := pending_rounds (List.replicate 31 (.payload ⟨some "PENDING", none, none⟩)) 1
    (some "t1")
    (PdfToHtml.convert.settle (.resolved 200 (.ok ⟨some "t1", none⟩))
      { PdfToHtml.State.initial with convertDisabled := true })
    (by decide) (by decide)
    (by
      intro o ho
      rw [List.eq_of_mem_replicate ho]
      exact ⟨_, rfl, Or.inl rfl⟩)
  rw [h]
  refine ⟨by decide, ?_, by decide⟩
  simp only [List.length_append, List.length_replicate]
  decide

/-- C19, amended: `pdf-to-html.js` has no timeout ceiling: a job whose status
responses are all `PENDING` or `PROCESSING` is polled for as long as they keep
coming. After any number of polls, each settled before the next tick, the
timer is still set, one status request per poll has been issued, and the rest
of the page is as it was when polling started. -/
theorem pending_job_keeps_polling (s : PdfToHtml.State) (timer : Nat) (task : Option String)
    (outcomes : List PdfToHtml.PollOutcome)
    (hset : (s.timers.find? fun t => t.1 == timer) = some (timer, task))
    (hidle : s.inFlight = 0)
    (hall : ∀ o ∈ outcomes, ∃ data, o = .payload data ∧
      (data.status = some "PENDING" ∨ data.status = some "PROCESSING")) :
    PdfToHtml.run s (PdfToHtml.pollRounds timer outcomes) =
      { s with requests := (s.requests ++ List.replicate outcomes.length
          (PdfToHtml.STATUS_ENDPOINT ++ task.getD "undefined" ++ "/")) } ∧
    (PdfToHtml.run s (PdfToHtml.pollRounds timer outcomes)).timers = s.timers ∧
    (PdfToHtml.step (PdfToHtml.run s (PdfToHtml.pollRounds timer outcomes))
        (.tick timer)).requests.length = s.requests.length + outcomes.length + 1 := by
  have h := pending_rounds outcomes timer task s hset hidle hall
  refine ⟨h, by rw [h], ?_⟩
  rw [h]
  simp only [PdfToHtml.step, hset, PdfToHtml.pollConversionStatus.request, List.length_append,
    List.length_replicate, List.length_singleton, Nat.add_assoc]

theorem pending_job_keeps_polling_witness :
    (PdfToHtml.run (PdfToHtml.startConversionPolling (some "t1") PdfToHtml.State.initial)
      (PdfToHtml.pollRounds 1
        [.payload ⟨some "PENDING", none, none⟩,
          .payload ⟨some "PROCESSING", none, none⟩])).timers = [(1, some "t1")] :=
  (pending_job_keeps_polling
    (PdfToHtml.startConversionPolling (some "t1") PdfToHtml.State.initial) 1 (some "t1")
    [.payload ⟨some "PENDING", none, none⟩, .payload ⟨some "PROCESSING", none, none⟩]
    (by decide) (by decide)
    (by
      intro o ho
      simp only [List.mem_cons, List.mem_singleton, List.not_mem_nil, or_false] at ho
      rcases ho with ho | ho
      · exact ⟨_, ho, Or.inl rfl⟩
      · exact ⟨_, ho, Or.inr rfl⟩)).2.1

/-! ## pdf-to-html.js: from the upload to polling -/

/-- C22, as stated, fails: for a 2xx upload response whose body has no
`task_id`, the convert handler of `pdf-to-html.js` starts a polling timer, and
the first tick of that timer issues a status request, for the task id
`undefined`. -/
theorem polling_started_without_task_id :
    (PdfToHtml.convert.settle (.resolved 200 (.ok ⟨none, none⟩))
      { PdfToHtml.State.initial with convertDisabled := true }).timers = [(1, none)] ∧
    (PdfToHtml.step
      (PdfToHtml.convert.settle (.resolved 200 (.ok ⟨none, none⟩))
        { PdfToHtml.State.initial with convertDisabled := true })
      (.tick 1)).requests = ["http://127.0.0.1:8000/api/conversion-status/undefined/"] := by
  decide

/-- C22, amended: in `pdf-to-html.js` the controller moves from uploading to
polling on every 2xx upload response with a JSON body, with or without a
`task_id`: the `task_id` of the body (`undefined` when the field is absent)
is stored in `currentTaskId`, `Conversion in progress...` is shown and a
polling timer is started for it. No polling timer is started when the upload
is rejected, when the response is not 2xx, or when a 2xx body is not JSON. -/
theorem upload_to_polling (s : PdfToHtml.State) (status : Nat) (data : PdfToHtml.UploadBody)
    (message : String) (body : Except String PdfToHtml.UploadBody) :
    (httpOk status = true →
      PdfToHtml.convert.settle (.resolved status (.ok data)) s =
        PdfToHtml.startConversionPolling data.task_id
          { s with
            currentTaskId := data.task_id
            page := showStatus "loading" "Conversion in progress..." s.page }) ∧
    (httpOk status = true →
      (PdfToHtml.convert.settle (.resolved status (.error message)) s).timers = s.timers) ∧
    (httpOk status = false →
      (PdfToHtml.convert.settle (.resolved status body) s).timers = s.timers) ∧
    (PdfToHtml.convert.settle (.rejected message) s).timers = s.timers := by
  refine ⟨fun h => ?_, fun h => ?_, fun h => ?_, rfl⟩
  · simp [PdfToHtml.convert.settle, h]
  · simp [PdfToHtml.convert.settle, h, PdfToHtml.resetConvertButton]
  · cases body <;> simp [PdfToHtml.convert.settle, h, PdfToHtml.resetConvertButton]

theorem upload_to_polling_witness :
    PdfToHtml.convert.settle (.resolved 200 (.ok ⟨some "t1", none⟩))
        { PdfToHtml.State.initial with convertDisabled := true } =
      { page := ⟨some ⟨"loading", "Conversion in progress...", ""⟩, []⟩
        downloadButton := none
        convertDisabled := true
        currentTaskId := some "t1"
        pollInterval := some 1
        timers := [(1, some "t1")]
        nextTimer := 2
        inFlight := 0
        requests := [] } :=
  ((upload_to_polling { PdfToHtml.State.initial with convertDisabled := true } 200
    ⟨some "t1", none⟩ "" (.error "")).1 (by decide)).trans (by decide)

/-! ## pdf-to-html.js: the download request -/

/-- C26, as stated, fails: for the download URL `/media/out/7_x.html`,
`handleDownload` of `pdf-to-html.js` passes the bare relative URL to `fetch`,
not the URL qualified with `BACKEND_URL`. -/
theorem download_url_not_qualified :
    (PdfToHtml.handleDownload (some "/media/out/7_x.html")).request =
      some "/media/out/7_x.html" ∧
    (PdfToHtml.handleDownload (some "/media/out/7_x.html")).request ≠
      some (BACKEND_URL ++ "/media/out/7_x.html") := by
  decide

/-- C26, amended: in `pdf-to-html.js`, for every completed status payload
with a non-empty `download_url`, `handleDownload` performs one GET, and its
URL is `download_url` exactly as the payload gives it (a server-relative URL
is left for the browser to resolve; `BACKEND_URL` is not used). A payload
without `download_url` fails with `No download URL available` and no
request. -/
theorem download_url_fetched_as_given (url : String) (hne : url ≠ "") :
    PdfToHtml.handleDownload (some url) = .fetch url url none ∧
    (PdfToHtml.handleDownload (some url)).request = some url ∧
    PdfToHtml.handleDownload none = .caught (.error "No download URL available") ∧
    PdfToHtml.handleDownload (some "") = .caught (.error "No download URL available") := by
  have ht := truthy_some url hne
  refine ⟨?_, ?_, by decide, by decide⟩ <;>
    simp [PdfToHtml.handleDownload, ht, DownloadStep.request]

theorem download_url_fetched_as_given_witness :
    (PdfToHtml.handleDownload (some "/media/out/7_x.html")).request =
      some "/media/out/7_x.html" :=
  (download_url_fetched_as_given "/media/out/7_x.html" (by decide)).2.1

/-! ## pdf-to-png.js and png-to-pdf.js: superseding an upload -/

theorem abortCurrent_fresh (s : ConvertState) (h : ControllersFresh s) :
    ControllersFresh (abortCurrent s) := by
  obtain ⟨h1, h2⟩ := h
  unfold abortCurrent
  cases hc : s.abortController with
  | none => exact ⟨h1, by simp [hc]⟩
  | some c =>
    refine ⟨?_, by simpa [hc] using h2⟩
    intro d hd
    simp only [List.mem_append, List.mem_singleton] at hd
    rcases hd with hd | hd
    · exact h1 d hd
    · subst hd; exact h2 d hc

theorem startAbortableUpload_fresh (request : Nat → UploadRequest) (s : ConvertState)
    (h : ControllersFresh s) : ControllersFresh (startAbortableUpload request s) := by
  obtain ⟨h1, h2⟩ := h
  refine ⟨fun c hc => Nat.lt_succ_of_lt (h1 c hc), ?_⟩
  intro c hc
  simp only [startAbortableUpload, Option.some.injEq] at hc
  subst hc
  exact Nat.lt_succ_self _

theorem pdfToPng_settle_controllers (job : Nat) (upload : Upload) (s : ConvertState) :
    (PdfToPng.convert.settle job upload s).aborted = s.aborted ∧
      (PdfToPng.convert.settle job upload s).nextController = s.nextController ∧
      ((PdfToPng.convert.settle job upload s).abortController = none ∨
        PdfToPng.convert.settle job upload s = s) := by
  unfold PdfToPng.convert.settle
  cases s.uploads.find? fun u => u.1 == job with
  | none => simp
  | some u =>
    simp only [PdfToPng.convert.caught, PdfToPng.renderResults]
    split <;> (try split) <;> (try split) <;> simp

theorem pngToPdf_renderResults_controllers (data : ResultPayload) (s t : ConvertState)
    (h : PngToPdf.renderResults data s = .ok t ∨ PngToPdf.renderResults data s = .error t) :
    t.aborted = s.aborted ∧ t.nextController = s.nextController := by
  unfold PngToPdf.renderResults at h
  split at h <;> rcases h with h | h <;> simp at h <;> subst h <;> simp

theorem pngToPdf_settle_controllers (typeError : String) (job : Nat) (upload : Upload)
    (s : ConvertState) :
    (PngToPdf.convert.settle typeError job upload s).aborted = s.aborted ∧
      (PngToPdf.convert.settle typeError job upload s).nextController = s.nextController ∧
      ((PngToPdf.convert.settle typeError job upload s).abortController = none ∨
        PngToPdf.convert.settle typeError job upload s = s) := by
  unfold PngToPdf.convert.settle
  cases s.uploads.find? fun u => u.1 == job with
  | none => simp
  | some u =>
    simp only [PngToPdf.convert.caught]
    split
    · simp
    · simp
    · split
      · simp
      · split
        · rename_i s3 heq
          have h3 := pngToPdf_renderResults_controllers _ _ _ (Or.inr heq)
          simpa using h3
        · rename_i s3 heq
          have h3 := pngToPdf_renderResults_controllers _ _ _ (Or.inl heq)
          simpa using h3

theorem fresh_of_controllers (s t : ConvertState) (h : ControllersFresh s)
    (ha : t.aborted = s.aborted) (hn : t.nextController = s.nextController)
    (hc : t.abortController = none ∨ t = s) : ControllersFresh t := by
  rcases hc with hc | hc
  · exact ⟨by rw [ha, hn]; exact h.1, by simp [hc]⟩
  · rw [hc]; exact h

theorem pdfToPng_click_fresh (csrftoken : Option String) (s : ConvertState)
    (h : ControllersFresh s) : ControllersFresh (PdfToPng.convert.click csrftoken s) := by
  unfold PdfToPng.convert.click
  split
  · exact h
  · exact startAbortableUpload_fresh (PdfToPng.convert.request csrftoken s.page.selection) _
      (abortCurrent_fresh s h)

theorem pngToPdf_click_fresh (csrftoken : Option String) (s : ConvertState)
    (h : ControllersFresh s) : ControllersFresh (PngToPdf.convert.click csrftoken s) := by
  unfold PngToPdf.convert.click
  split
  · exact h
  · exact startAbortableUpload_fresh (PngToPdf.convert.request csrftoken s.selectedFiles) _
      (abortCurrent_fresh s h)

theorem pdfToPng_step_fresh (s : ConvertState) (e : ConvertEvent) (h : ControllersFresh s) :
    ControllersFresh (PdfToPng.step s e) := by
  cases e with
  | click csrftoken => exact pdfToPng_click_fresh csrftoken s h
  | settle job upload =>
    obtain ⟨ha, hn, hc⟩ := pdfToPng_settle_controllers job upload s
    exact fresh_of_controllers s _ h ha hn hc
  | timeout job =>
    simp only [PdfToPng.step, PdfToPng.convert.timeout]
    split
    · exact abortCurrent_fresh _ h
    · exact h

theorem pngToPdf_step_fresh (typeError : String) (s : ConvertState) (e : ConvertEvent)
    (h : ControllersFresh s) : ControllersFresh (PngToPdf.step typeError s e) := by
  cases e with
  | click csrftoken => exact pngToPdf_click_fresh csrftoken s h
  | settle job upload =>
    obtain ⟨ha, hn, hc⟩ := pngToPdf_settle_controllers typeError job upload s
    exact fresh_of_controllers s _ h ha hn hc
  | timeout job =>
    simp only [PngToPdf.step, PngToPdf.convert.timeout]
    split
    · split
      · exact abortCurrent_fresh _ h
      · exact h
    · exact h

theorem pdfToPng_run_fresh (events : List ConvertEvent) (s : ConvertState)
    (h : ControllersFresh s) : ControllersFresh (PdfToPng.run s events) := by
  induction events generalizing s with
  | nil => exact h
  | cons e es ih => exact ih _ (pdfToPng_step_fresh s e h)

theorem pngToPdf_run_fresh (typeError : String) (events : List ConvertEvent) (s : ConvertState)
    (h : ControllersFresh s) : ControllersFresh (PngToPdf.run typeError s events) := by
  induction events generalizing s with
  | nil => exact h
  | cons e es ih => exact ih _ (pngToPdf_step_fresh typeError s e h)

theorem initial_fresh (files : List File) : ControllersFresh (ConvertState.initial files) :=
  ⟨by simp [ConvertState.initial], by simp [ConvertState.initial]⟩

theorem superseding_click (request : Nat → UploadRequest) (s : ConvertState) (c : Nat)
    (h : ControllersFresh s) (hc : s.abortController = some c) :
    (startAbortableUpload request (abortCurrent s)).log =
        s.log ++ [.abort c, .upload s.nextJob (request s.nextController)] ∧
      (startAbortableUpload request (abortCurrent s)).aborted = s.aborted ++ [c] ∧
      s.nextController ∉ s.aborted ++ [c] := by
  refine ⟨by simp [startAbortableUpload, abortCurrent, hc],
    by simp [startAbortableUpload, abortCurrent, hc], ?_⟩
  intro hmem
  simp only [List.mem_append, List.mem_singleton] at hmem
  rcases hmem with hmem | hmem
  · exact Nat.lt_irrefl _ (h.1 _ hmem)
  · have := h.2 c hc
    omega

/-- C20. In `pdf-to-png.js` and `png-to-pdf.js`, after any sequence of events,
when the convert handler runs with files chosen while `abortController` holds
the controller `c` of a previous job, the handler first aborts `c` and then
issues the upload of the new job, whose request carries the signal of the
controller created in between: that controller is not `c`, and it is not among
the aborted ones. -/
theorem superseded_upload_aborted_first (typeError : String) (files : List File)
    (events : List ConvertEvent) (csrftoken : Option String) (c : Nat) :
    (∀ s, s = PdfToPng.run (ConvertState.initial files) events →
      s.abortController = some c → s.page.selection ≠ [] →
      ∃ request,
        (PdfToPng.convert.click csrftoken s).log =
            s.log ++ [.abort c, .upload s.nextJob request] ∧
          request.signal = some s.nextController ∧ s.nextController ≠ c ∧
          c ∈ (PdfToPng.convert.click csrftoken s).aborted ∧
          s.nextController ∉ (PdfToPng.convert.click csrftoken s).aborted) ∧
    (∀ s, s = PngToPdf.run typeError (ConvertState.initial files) events →
      s.abortController = some c → s.selectedFiles ≠ [] →
      ∃ request,
        (PngToPdf.convert.click csrftoken s).log =
            s.log ++ [.abort c, .upload s.nextJob request] ∧
          request.signal = some s.nextController ∧ s.nextController ≠ c ∧
          c ∈ (PngToPdf.convert.click csrftoken s).aborted ∧
          s.nextController ∉ (PngToPdf.convert.click csrftoken s).aborted) := by
  constructor
  · intro s hs hc hsel
    have hfresh : ControllersFresh s := hs ▸ pdfToPng_run_fresh events _ (initial_fresh files)
    have hlen : ¬ s.page.selection.length = 0 := by
      simpa [List.length_eq_zero] using hsel
    obtain ⟨hlog, hab, hnot⟩ := superseding_click
      (PdfToPng.convert.request csrftoken s.page.selection) s c hfresh hc
    have hne : s.nextController ≠ c := fun h => hnot (by simp [h])
    refine ⟨PdfToPng.convert.request csrftoken s.page.selection s.nextController,
      ?_, rfl, hne, ?_, ?_⟩
    · simp only [PdfToPng.convert.click, hlen, if_false]
      exact hlog
    · simp only [PdfToPng.convert.click, hlen, if_false]
      rw [hab]; simp
    · simp only [PdfToPng.convert.click, hlen, if_false]
      rw [hab]; exact hnot
  · intro s hs hc hsel
    have hfresh : ControllersFresh s :=
      hs ▸ pngToPdf_run_fresh typeError events _ (initial_fresh files)
    have hlen : ¬ s.selectedFiles.length = 0 := by
      simpa [List.length_eq_zero] using hsel
    obtain ⟨hlog, hab, hnot⟩ := superseding_click
      (PngToPdf.convert.request csrftoken s.selectedFiles) s c hfresh hc
    have hne : s.nextController ≠ c := fun h => hnot (by simp [h])
    refine ⟨PngToPdf.convert.request csrftoken s.selectedFiles s.nextController,
      ?_, rfl, hne, ?_, ?_⟩
    · simp only [PngToPdf.convert.click, hlen, if_false]
      exact hlog
    · simp only [PngToPdf.convert.click, hlen, if_false]
      rw [hab]; simp
    · simp only [PngToPdf.convert.click, hlen, if_false]
      rw [hab]; exact hnot

theorem superseded_upload_aborted_first_witness :
    ∃ request,
      (PdfToPng.convert.click none
          (PdfToPng.run (ConvertState.initial [⟨"a.pdf", "application/pdf", 10⟩])
            [.click none])).log =
        [.upload 0 (PdfToPng.convert.request none [⟨"a.pdf", "application/pdf", 10⟩] 0),
          .abort 0, .upload 1 request] ∧
      request.signal = some 1 := by
  obtain ⟨request, hlog, hsignal, _⟩ :=
    (superseded_upload_aborted_first "" [⟨"a.pdf", "application/pdf", 10⟩] [.click none]
      none 0).1 _ rfl (by decide) (by decide)
  exact ⟨request, hlog.trans rfl, hsignal.trans (by decide)⟩

/-! ## pdf-to-png.js: the payloads the upload handler accepts -/

theorem pdfToPng_settle_ok (s : ConvertState) (job controller status : Nat)
    (data : ResultPayload)
    (hfind : (s.uploads.find? fun u => u.1 == job) = some (job, controller))
    (hlive : controller ∉ s.aborted) (hok : httpOk status = true) :
    PdfToPng.convert.settle job (.resolved status (.ok data)) s =
      if truthy data.converted_file then
        { s with
          uploads := s.uploads.filter fun v => v.1 != job
          timeouts := s.timeouts.filter fun t => t != job
          currentConversion := some data
          container := .button data
          page := (PdfToPng.showStatus "success" "Conversion successful!"
            "Your PNG file is ready" s.page)
          convertDisabled := false
          abortController := none }
      else
        { s with
          uploads := s.uploads.filter fun v => v.1 != job
          timeouts := s.timeouts.filter fun t => t != job
          container := .empty
          page := (PdfToPng.showStatus "error" "Conversion failed"
            "Conversion succeeded but no file URL was returned" s.page)
          convertDisabled := false
          abortController := none } := by
  have hc : s.aborted.contains controller = false := by
    simpa using hlive
  unfold PdfToPng.convert.settle
  simp only [hfind, awaited, hc, hok]
  cases ht : truthy data.converted_file <;>
    simp [PdfToPng.convert.caught, PdfToPng.renderResults, ht, hok, PdfToPng.showStatus, includes]

/-- C29, amended. In `pdf-to-png.js`, when the upload of a job that was not
aborted resolves with a 2xx status and a parsed payload, the handler ends in
the successful state, with the download button bound to the payload, exactly
when `converted_file` is present and non-empty; otherwise, whatever
`converted_file_url` holds, it ends with the error
`Conversion succeeded but no file URL was returned`, an empty download
container and `currentConversion` unchanged. -/
theorem pdfToPng_completed_iff_converted_file (s : ConvertState)
    (job controller status : Nat) (data : ResultPayload)
    (hfind : (s.uploads.find? fun u => u.1 == job) = some (job, controller))
    (hlive : controller ∉ s.aborted) (hok : httpOk status = true) :
    (Present data.converted_file →
      (PdfToPng.convert.settle job (.resolved status (.ok data)) s).page.status =
          some ⟨"success", "Conversion successful!", "Your PNG file is ready"⟩ ∧
        (PdfToPng.convert.settle job (.resolved status (.ok data)) s).container =
          .button data ∧
        (PdfToPng.convert.settle job (.resolved status (.ok data)) s).currentConversion =
          some data) ∧
    (¬ Present data.converted_file →
      (PdfToPng.convert.settle job (.resolved status (.ok data)) s).page.status =
          some ⟨"error", "Conversion failed",
            "Conversion succeeded but no file URL was returned"⟩ ∧
        (PdfToPng.convert.settle job (.resolved status (.ok data)) s).container = .empty ∧
        (PdfToPng.convert.settle job (.resolved status (.ok data)) s).currentConversion =
          s.currentConversion) := by
  rw [pdfToPng_settle_ok s job controller status data hfind hlive hok]
  constructor
  · intro h
    rw [if_pos ((truthy_iff_present _).2 h)]
    exact ⟨rfl, rfl, rfl⟩
  · intro h
    rw [if_neg (fun ht => h ((truthy_iff_present _).1 ht))]
    exact ⟨rfl, rfl, rfl⟩

theorem pdfToPng_completed_iff_converted_file_witness :
    (PdfToPng.convert.settle 0
        (.resolved 200 (.ok ⟨⟨none, some "converted_files/7_a.png", none⟩, none, none, none, none⟩))
        (PdfToPng.run (ConvertState.initial [⟨"a.pdf", "application/pdf", 10⟩])
          [.click none])).page.status =
      some ⟨"success", "Conversion successful!", "Your PNG file is ready"⟩ :=
  ((pdfToPng_completed_iff_converted_file
    (PdfToPng.run (ConvertState.initial [⟨"a.pdf", "application/pdf", 10⟩]) [.click none])
    0 0 200 ⟨⟨none, some "converted_files/7_a.png", none⟩, none, none, none, none⟩
    (by decide) (by decide) (by decide)).1 ⟨"converted_files/7_a.png", rfl, by decide⟩).1

/-- C29, as stated, fails: for a 2xx response whose payload carries
`converted_file_url` and no `converted_file`, the upload handler of
`pdf-to-png.js` ends with the error
`Conversion succeeded but no file URL was returned`, although `handleDownload`
resolves a download URL from that payload. -/
theorem converted_file_url_alone_rejected :
    (PdfToPng.run (ConvertState.initial [⟨"a.pdf", "application/pdf", 10⟩])
        [.click none,
          .settle 0 (.resolved 200
            (.ok ⟨⟨some "/media/converted/7_a.png", none, none⟩,
              none, none, none, none⟩))]).page.status =
      some ⟨"error", "Conversion failed",
        "Conversion succeeded but no file URL was returned"⟩ ∧
    (PdfToPng.handleDownload ⟨some "/media/converted/7_a.png", none, none⟩).request =
      some (BACKEND_URL ++ "/media/converted/7_a.png") := by
  decide

/-! ## The upload handlers without a path check -/

/-- C23, as stated, fails: a 2xx upload response whose payload has no path
field ends, in `pdf-to-jpg.js`, `pdf-to-webp.js` and `pdf-to-word.js`, with
the success banner and a download button. -/
theorem payload_without_path_reported_successful :
    ((PdfToJpg.convert.settle (.resolved 200 (.ok ⟨⟨none, none, none⟩, none, none, none, none⟩))
          (PdfToJpg.convert.click none
            (ConvertState.initial [⟨"a.pdf", "application/pdf", 10⟩]))).page.status =
        some ⟨"success", "Conversion successful!", ""⟩ ∧
      (PdfToJpg.convert.settle (.resolved 200 (.ok ⟨⟨none, none, none⟩, none, none, none, none⟩))
          (PdfToJpg.convert.click none
            (ConvertState.initial [⟨"a.pdf", "application/pdf", 10⟩]))).container =
        .button ⟨⟨none, none, none⟩, none, none, none, none⟩) ∧
    ((PdfToWebp.convert.settle (.resolved 200 (.ok ⟨⟨none, none, none⟩, none, none, none, none⟩))
          (PdfToWebp.convert.click none
            (ConvertState.initial [⟨"a.pdf", "application/pdf", 10⟩]))).page.status =
        some ⟨"success", "Conversion successful!", ""⟩ ∧
      (PdfToWebp.convert.settle (.resolved 200 (.ok ⟨⟨none, none, none⟩, none, none, none, none⟩))
          (PdfToWebp.convert.click none
            (ConvertState.initial [⟨"a.pdf", "application/pdf", 10⟩]))).container =
        .button ⟨⟨none, none, none⟩, none, none, none, none⟩) ∧
    ((PdfToWord.convert.settle (.resolved 200 (.ok ⟨⟨none, none, none⟩, none, none, none, none⟩))
          (PdfToWord.convert.click none
            (ConvertState.initial [⟨"a.pdf", "application/pdf", 10⟩]))).page.status =
        some ⟨"success", "Conversion completed successfully!", ""⟩ ∧
      (PdfToWord.convert.settle (.resolved 200 (.ok ⟨⟨none, none, none⟩, none, none, none, none⟩))
          (PdfToWord.convert.click none
            (ConvertState.initial [⟨"a.pdf", "application/pdf", 10⟩]))).container =
        .button ⟨⟨none, none, none⟩, none, none, none, none⟩) := by
  decide

/-- C23, amended. In `pdf-to-jpg.js`, `pdf-to-webp.js` and `pdf-to-word.js`,
every 2xx upload response whose body parses ends with the success banner, the
payload stored in `currentConversion` and a download button, whatever path
fields the payload holds; when neither `converted_file_url` nor
`converted_file` is present, the failure shows only on the download:
`handleDownload` of `pdf-to-webp.js` and `pdf-to-word.js` then fails with
`No file path available`, and so does that of `pdf-to-jpg.js` when the payload
has no `images` either. -/
theorem upload_success_without_path_check (s : ConvertState) (status : Nat)
    (data : ResultPayload) (hok : httpOk status = true) :
    ((PdfToJpg.convert.settle (.resolved status (.ok data)) s).page.status =
        some ⟨"success", "Conversion successful!", ""⟩ ∧
      (PdfToJpg.convert.settle (.resolved status (.ok data)) s).container = .button data ∧
      (PdfToJpg.convert.settle (.resolved status (.ok data)) s).currentConversion =
        some data) ∧
    ((PdfToWebp.convert.settle (.resolved status (.ok data)) s).page.status =
        some ⟨"success", "Conversion successful!", ""⟩ ∧
      (PdfToWebp.convert.settle (.resolved status (.ok data)) s).container = .button data ∧
      (PdfToWebp.convert.settle (.resolved status (.ok data)) s).currentConversion =
        some data) ∧
    ((PdfToWord.convert.settle (.resolved status (.ok data)) s).page.status =
        some ⟨"success", "Conversion completed successfully!", ""⟩ ∧
      (PdfToWord.convert.settle (.resolved status (.ok data)) s).container = .button data ∧
      (PdfToWord.convert.settle (.resolved status (.ok data)) s).currentConversion =
        some data) ∧
    (¬ Present data.converted_file_url → ¬ Present data.converted_file →
      (PdfToWebp.handleDownload data.toFileData).thrown =
          some (.error "No file path available") ∧
        (PdfToWord.handleDownload data.toFileData).thrown =
          some (.error "No file path available") ∧
        (data.images = none →
          (PdfToJpg.handleDownload data.toFileData).thrown =
            some (.error "No file path available"))) := by
  refine ⟨?_, ?_, ?_, ?_⟩
  · simp [PdfToJpg.convert.settle, hok, showStatus]
  · simp [PdfToWebp.convert.settle, hok, showStatus]
  · simp [PdfToWord.convert.settle, hok, showStatus]
  · intro hu hf
    have hu2 : truthy data.converted_file_url = false := by
      cases h : truthy data.converted_file_url
      · rfl
      · exact absurd ((truthy_iff_present _).1 h) hu
    have hf2 : truthy data.converted_file = false := by
      cases h : truthy data.converted_file
      · rfl
      · exact absurd ((truthy_iff_present _).1 h) hf
    refine ⟨?_, ?_, ?_⟩
    · simp [PdfToWebp.handleDownload, hu2, hf2, DownloadStep.thrown]
    · simp [PdfToWord.handleDownload, hu2, hf2, DownloadStep.thrown]
    · intro hi
      simp [PdfToJpg.handleDownload, hu2, hf2, hi, DownloadStep.thrown]

theorem upload_success_without_path_check_witness :
    (PdfToJpg.convert.settle (.resolved 200 (.ok ⟨⟨none, none, none⟩, none, none, none, none⟩))
        (ConvertState.initial [⟨"a.pdf", "application/pdf", 10⟩])).container =
      .button ⟨⟨none, none, none⟩, none, none, none, none⟩ :=
  (upload_success_without_path_check (ConvertState.initial [⟨"a.pdf", "application/pdf", 10⟩])
    200 ⟨⟨none, none, none⟩, none, none, none, none⟩ (by decide)).1.2.1

/-! ## The anti-forgery header of the upload request -/

/-- C24, as stated, fails: with no `csrftoken` cookie (`getCookie` gives
`null`), the request the convert handler of `jpg-to-pdf.js` issues carries an
`X-CSRFToken` header, whose value is the text `null`; so does that of
`pdf-to-png.js`. -/
theorem absent_cookie_sends_null_header :
    (JpgToPdf.convert.click none (ConvertState.initial [⟨"a.jpg", "image/jpeg", 10⟩])).log =
      [.upload 0
        { url := "http://127.0.0.1:8000/api/jpg-to-pdf/"
          headers := [("X-CSRFToken", "null")]
          signal := none
          files := [("files", ⟨"a.jpg", "image/jpeg", 10⟩)] }] ∧
    (PdfToPng.convert.click none (ConvertState.initial [⟨"a.pdf", "application/pdf", 10⟩])).log =
      [.upload 0
        { url := "http://127.0.0.1:8000/api/pdf-to-png/"
          headers := [("X-CSRFToken", "null"), ("Accept", "application/json")]
          signal := some 0
          files := [("file", ⟨"a.pdf", "application/pdf", 10⟩)] }] := by
  decide

/-- C24, amended. Whatever `getCookie('csrftoken')` gives, the convert handler
of each synchronous script, run with files chosen, issues one upload request,
and that request carries an `X-CSRFToken` header: its value is the cookie
value, and the text `null` when the cookie is absent. -/
theorem upload_always_carries_csrf_header (csrftoken : Option String) (s : ConvertState)
    (hsel : s.page.selection ≠ []) (hfiles : s.selectedFiles ≠ []) :
    headerValue none = "null" ∧
    (∀ value, headerValue (some value) = value) ∧
    (∃ request, (JpgToPdf.convert.click csrftoken s).log =
        s.log ++ [.upload s.nextJob request] ∧
      ("X-CSRFToken", headerValue csrftoken) ∈ request.headers) ∧
    (∃ request, (PdfToJpg.convert.click csrftoken s).log =
        s.log ++ [.upload s.nextJob request] ∧
      ("X-CSRFToken", headerValue csrftoken) ∈ request.headers) ∧
    (∃ request, (PdfToWebp.convert.click csrftoken s).log =
        s.log ++ [.upload s.nextJob request] ∧
      ("X-CSRFToken", headerValue csrftoken) ∈ request.headers) ∧
    (∃ request, (PdfToWord.convert.click csrftoken s).log =
        s.log ++ [.upload s.nextJob request] ∧
      ("X-CSRFToken", headerValue csrftoken) ∈ request.headers) ∧
    (∃ request, (PdfToPng.convert.click csrftoken s).log =
        (abortCurrent s).log ++ [.upload s.nextJob request] ∧
      ("X-CSRFToken", headerValue csrftoken) ∈ request.headers) ∧
    (∃ request, (PngToPdf.convert.click csrftoken s).log =
        (abortCurrent s).log ++ [.upload s.nextJob request] ∧
      ("X-CSRFToken", headerValue csrftoken) ∈ request.headers) := by
  have hlen : ¬ s.page.selection.length = 0 := by
    simpa [List.length_eq_zero] using hsel
  have hlen2 : ¬ s.selectedFiles.length = 0 := by
    simpa [List.length_eq_zero] using hfiles
  have hjob : (abortCurrent s).nextJob = s.nextJob := by
    unfold abortCurrent
    cases s.abortController <;> rfl
  have hctl : (abortCurrent s).nextController = s.nextController := by
    unfold abortCurrent
    cases s.abortController <;> rfl
  refine ⟨rfl, fun _ => rfl, ?_, ?_, ?_, ?_, ?_, ?_⟩
  · exact ⟨JpgToPdf.convert.request csrftoken s.page.selection,
      by simp [JpgToPdf.convert.click, hlen, startUpload],
      by simp [JpgToPdf.convert.request]⟩
  · exact ⟨PdfToJpg.convert.request csrftoken s.page.selection,
      by simp [PdfToJpg.convert.click, hlen, startUpload],
      by simp [PdfToJpg.convert.request]⟩
  · exact ⟨PdfToWebp.convert.request csrftoken s.page.selection,
      by simp [PdfToWebp.convert.click, hlen, startUpload],
      by simp [PdfToWebp.convert.request]⟩
  · exact ⟨PdfToWord.convert.request csrftoken s.page.selection,
      by simp [PdfToWord.convert.click, hlen, startUpload],
      by simp [PdfToWord.convert.request]⟩
  · exact ⟨PdfToPng.convert.request csrftoken s.page.selection s.nextController,
      by simp [PdfToPng.convert.click, hlen, startAbortableUpload, hjob, hctl],
      by simp [PdfToPng.convert.request]⟩
  · exact ⟨PngToPdf.convert.request csrftoken s.selectedFiles s.nextController,
      by simp [PngToPdf.convert.click, hlen2, startAbortableUpload, hjob, hctl],
      by simp [PngToPdf.convert.request]⟩

theorem upload_always_carries_csrf_header_witness :
    ∃ request, (JpgToPdf.convert.click none
        (ConvertState.initial [⟨"a.jpg", "image/jpeg", 10⟩])).log = [.upload 0 request] ∧
      ("X-CSRFToken", "null") ∈ request.headers :=
  (upload_always_carries_csrf_header none (ConvertState.initial [⟨"a.jpg", "image/jpeg", 10⟩])
    (by decide) (by decide)).2.2.1

/-! ## jpg-to-pdf.js: the total size limit -/

/-- C28, evaluated: three JPEG files of 20MB each, 60MB in total, pass
`validateFiles` of `jpg-to-pdf.js`, which shows nothing; the total is above
the 50MB that the comment and the rejection message state. -/
theorem total_above_stated_limit_accepted :
    JpgToPdf.validateFiles
        [⟨"a.jpg", "image/jpeg", 20971520⟩, ⟨"b.jpg", "image/jpeg", 20971520⟩,
          ⟨"c.jpg", "image/jpeg", 20971520⟩]
        ⟨none, [⟨"a.jpg", "image/jpeg", 20971520⟩, ⟨"b.jpg", "image/jpeg", 20971520⟩,
          ⟨"c.jpg", "image/jpeg", 20971520⟩]⟩ =
      (true, ⟨none, [⟨"a.jpg", "image/jpeg", 20971520⟩, ⟨"b.jpg", "image/jpeg", 20971520⟩,
        ⟨"c.jpg", "image/jpeg", 20971520⟩]⟩) ∧
    20971520 + 20971520 + 20971520 > 50 * 1024 * 1024 := by
  decide

/-! ## jpg-to-pdf.js and png-to-pdf.js: the fields the upload handler reads -/

/-- C27, as stated, fails: for a 2xx response whose payload has a valid
`converted_file` and neither `original_files` nor `page_count`, the handlers
of `jpg-to-pdf.js` and `png-to-pdf.js` end with an error banner (the message
of the `TypeError` raised on reading `length`) and no download button. -/
theorem result_without_original_files_fails :
    ((JpgToPdf.convert.settle (fun property => "no " ++ property)
          (.resolved 200 (.ok ⟨⟨none, some "converted_files/7_a.pdf", none⟩,
            none, none, none, none⟩))
          (JpgToPdf.convert.click none
            (ConvertState.initial [⟨"a.jpg", "image/jpeg", 10⟩]))).page.status =
        some ⟨"error", "no length", ""⟩ ∧
      (JpgToPdf.convert.settle (fun property => "no " ++ property)
          (.resolved 200 (.ok ⟨⟨none, some "converted_files/7_a.pdf", none⟩,
            none, none, none, none⟩))
          (JpgToPdf.convert.click none
            (ConvertState.initial [⟨"a.jpg", "image/jpeg", 10⟩]))).container = .empty) ∧
    ((PngToPdf.run "no length" (ConvertState.initial [⟨"a.png", "image/png", 10⟩])
          [.click none,
            .settle 0 (.resolved 200 (.ok ⟨⟨none, some "converted_files/7_a.pdf", none⟩,
              none, none, none, none⟩))]).page.status =
        some ⟨"error", "Conversion failed: no length", ""⟩ ∧
      (PngToPdf.run "no length" (ConvertState.initial [⟨"a.png", "image/png", 10⟩])
          [.click none,
            .settle 0 (.resolved 200 (.ok ⟨⟨none, some "converted_files/7_a.pdf", none⟩,
              none, none, none, none⟩))]).container = .empty) := by
  decide

theorem pngToPdf_settle_ok (typeError : String) (s : ConvertState)
    (job controller status : Nat) (data : ResultPayload)
    (hfind : (s.uploads.find? fun u => u.1 == job) = some (job, controller))
    (hlive : controller ∉ s.aborted) (hok : httpOk status = true) :
    PngToPdf.convert.settle typeError job (.resolved status (.ok data)) s =
      match PngToPdf.renderResults data
        { s with
          uploads := s.uploads.filter fun v => v.1 != job
          timeouts := s.timeouts.filter fun t => t != job
          currentConversion := some data } with
      | .error s3 =>
        { PngToPdf.convert.caught "TypeError" typeError s3 with
          convertDisabled := false, abortController := none }
      | .ok s3 =>
        { s3 with
          page := (showStatus "success"
            ("Successfully combined " ++
              toString (match data.page_count with
                | some (n + 1) => n + 1
                | _ => s.selectedFiles.length) ++ " files into PDF!") s3.page)
          convertDisabled := false
          abortController := none } := by
  have hc : s.aborted.contains controller = false := by
    simpa using hlive
  unfold PngToPdf.convert.settle
  simp only [hfind, awaited, hc, hok, Bool.false_eq_true, if_false, Bool.not_true]
  cases PngToPdf.renderResults data _ <;> rfl

/-- C27, amended. For a 2xx upload response whose payload has a
`converted_file`: the handler of `jpg-to-pdf.js` ends in the successful state
with the download button when the payload has `original_files`, and with the
error banner of a `TypeError` and the download container untouched when it
has not, whatever `page_count` holds; the handler of `png-to-pdf.js` (for a
job that was not aborted) ends in the successful state with the download
button when the payload has a non-zero `page_count` or has `original_files`,
and with the error banner `Conversion failed: ...` of a `TypeError` and an
empty download container otherwise. -/
theorem result_fields_the_handlers_need (typeError : String → String) (s : ConvertState)
    (job controller status : Nat) (data : ResultPayload) (path : String)
    (hok : httpOk status = true) (hfile : data.converted_file = some path)
    (hfind : (s.uploads.find? fun u => u.1 == job) = some (job, controller))
    (hlive : controller ∉ s.aborted) :
    (data.original_files ≠ none →
      (JpgToPdf.convert.settle typeError (.resolved status (.ok data)) s).page.status =
          some ⟨"success", "Conversion successful! Files combined into single PDF.", ""⟩ ∧
        (JpgToPdf.convert.settle typeError (.resolved status (.ok data)) s).container =
          .button data) ∧
    (data.original_files = none →
      (JpgToPdf.convert.settle typeError (.resolved status (.ok data)) s).page.status =
          some ⟨"error", typeError "length", ""⟩ ∧
        (JpgToPdf.convert.settle typeError (.resolved status (.ok data)) s).container =
          s.container) ∧
    ((∃ n, data.page_count = some (n + 1)) ∨ data.original_files ≠ none →
      ((PngToPdf.convert.settle (typeError "length") job
            (.resolved status (.ok data)) s).page.status.map fun banner => banner.type) =
          some "success" ∧
        (PngToPdf.convert.settle (typeError "length") job
            (.resolved status (.ok data)) s).container = .button data) ∧
    ((data.page_count = none ∨ data.page_count = some 0) ∧ data.original_files = none →
      (PngToPdf.convert.settle (typeError "length") job
            (.resolved status (.ok data)) s).page.status =
          some ⟨"error", "Conversion failed: " ++ typeError "length", ""⟩ ∧
        (PngToPdf.convert.settle (typeError "length") job
            (.resolved status (.ok data)) s).container = .empty) := by
  refine ⟨?_, ?_, ?_, ?_⟩
  · intro h
    cases ho : data.original_files with
    | none => exact absurd ho h
    | some files => simp [JpgToPdf.convert.settle, hok, hfile, ho, showStatus]
  · intro h
    simp [JpgToPdf.convert.settle, hok, hfile, h, showStatus, JpgToPdf.convert.caught]
  · intro h
    rw [pngToPdf_settle_ok (typeError "length") s job controller status data hfind hlive hok]
    rcases h with ⟨n, hn⟩ | h
    · simp [PngToPdf.renderResults, hn, showStatus]
    · cases ho : data.original_files with
      | none => exact absurd ho h
      | some files =>
        cases hp : data.page_count with
        | none => simp [PngToPdf.renderResults, ho, hp, showStatus]
        | some n =>
          cases n with
          | zero => simp [PngToPdf.renderResults, ho, hp, showStatus]
          | succ n => simp [PngToPdf.renderResults, ho, hp, showStatus]
  · rintro ⟨hp, ho⟩
    rw [pngToPdf_settle_ok (typeError "length") s job controller status data hfind hlive hok]
    rcases hp with hp | hp <;>
      simp [PngToPdf.renderResults, hp, ho, showStatus, PngToPdf.convert.caught]

theorem result_fields_the_handlers_need_witness :
    (PngToPdf.convert.settle "no length" 0
        (.resolved 200 (.ok ⟨⟨none, some "converted_files/7_a.pdf", none⟩,
          some ["a.png"], none, none, none⟩))
        (PngToPdf.run "no length" (ConvertState.initial [⟨"a.png", "image/png", 10⟩])
          [.click none])).container =
      .button ⟨⟨none, some "converted_files/7_a.pdf", none⟩, some ["a.png"], none, none, none⟩ :=
  ((result_fields_the_handlers_need (fun _ => "no length")
    (PngToPdf.run "no length" (ConvertState.initial [⟨"a.png", "image/png", 10⟩]) [.click none])
    0 0 200 ⟨⟨none, some "converted_files/7_a.pdf", none⟩, some ["a.png"], none, none, none⟩
    "converted_files/7_a.pdf" (by decide) rfl (by decide) (by decide)).2.2.1
      (Or.inr (by decide))).2

/-! ## getCookie -/

theorem split_cons_sep (sep : Char) (seg rest : List Char) (h : sep ∉ seg) :
    split sep (seg ++ sep :: rest) = seg :: split sep rest := by
  induction seg with
  | nil => simp [split]
  | cons c cs ih =>
    have hc : (c == sep) = false := by
      simp only [beq_eq_false_iff_ne, ne_eq]
      intro hcs
      exact h (hcs ▸ List.mem_cons_self _ _)
    rw [List.cons_append, split, ih (fun hm => h (List.mem_cons_of_mem _ hm))]
    simp [hc]

theorem dropWhile_append_of_all (p : Char → Bool) (ws rest : List Char)
    (h : ∀ c ∈ ws, p c = true) : (ws ++ rest).dropWhile p = rest.dropWhile p := by
  induction ws with
  | nil => rfl
  | cons c cs ih =>
    rw [List.cons_append, List.dropWhile_cons, h c (List.mem_cons_self _ _)]
    exact ih fun d hd => h d (List.mem_cons_of_mem _ hd)

theorem dropWhile_of_head (p : Char → Bool) (cs : List Char)
    (h : ∀ c, cs.head? = some c → p c = false) : cs.dropWhile p = cs := by
  cases cs with
  | nil => rfl
  | cons c cs => rw [List.dropWhile_cons, h c rfl]; rfl

theorem trim_pair (p : CookiePair) (h : p.WellFormed) :
    trim p.text = p.key ++ '=' :: p.value := by
  obtain ⟨hlead, htrail, -, -, -, -, hkey, hvalue⟩ := h
  have hhead : ∀ c, (p.key ++ '=' :: (p.value ++ p.trail)).head? = some c →
      isWhiteSpace c = false := by
    intro c hc
    cases hk : p.key with
    | nil =>
      rw [hk] at hc
      simp only [List.nil_append, List.head?_cons, Option.some.injEq] at hc
      subst hc
      decide
    | cons k ks =>
      rw [hk] at hc
      simp only [List.cons_append, List.head?_cons, Option.some.injEq] at hc
      exact hkey c (by rw [hk, List.head?_cons, hc])
  have hlast : ∀ c, (p.key ++ '=' :: p.value).reverse.head? = some c →
      isWhiteSpace c = false := by
    intro c hc
    rw [List.head?_reverse] at hc
    cases hv : p.value.getLast? with
    | none =>
      have hnil : p.value = [] := List.getLast?_eq_none_iff.1 hv
      rw [hnil] at hc
      simp at hc
      subst hc
      decide
    | some v =>
      have : (p.key ++ '=' :: p.value).getLast? = some v := by
        rw [List.getLast?_append, List.getLast?_cons, hv]
        rfl
      rw [this] at hc
      exact hvalue c (by rw [hv, hc])
  have htext : p.text = p.lead ++ (p.key ++ '=' :: (p.value ++ p.trail)) := by
    simp [CookiePair.text]
  have hrev : (p.key ++ '=' :: (p.value ++ p.trail)).reverse =
      p.trail.reverse ++ (p.key ++ '=' :: p.value).reverse := by
    simp
  unfold trim
  rw [htext, dropWhile_append_of_all _ _ _ hlead, dropWhile_of_head _ _ hhead, hrev,
    dropWhile_append_of_all _ _ _ (fun c hc => htrail c (List.mem_reverse.1 hc)),
    dropWhile_of_head _ _ hlast, List.reverse_reverse]

theorem split_pair (p : CookiePair) (h : p.WellFormed) :
    split '=' (trim p.text) = [p.key, p.value] := by
  rw [trim_pair p h, split_cons_sep '=' _ _ h.2.2.2.1, split_of_not_mem '=' _ h.2.2.2.2.2.1]

theorem isWhiteSpace_ne_semicolon (c : Char) (h : isWhiteSpace c = true) : c ≠ ';' := by
  rintro rfl
  exact absurd h (by decide)

theorem semicolon_not_mem_text (p : CookiePair) (h : p.WellFormed) : ';' ∉ p.text := by
  obtain ⟨hlead, htrail, hk, -, hv, -, -, -⟩ := h
  intro hmem
  simp only [CookiePair.text, List.mem_append, List.mem_cons] at hmem
  rcases hmem with ((hmem | hmem) | hmem | hmem) | hmem
  · exact isWhiteSpace_ne_semicolon _ (hlead _ hmem) rfl
  · exact hk hmem
  · exact absurd hmem (by decide)
  · exact hv hmem
  · exact isWhiteSpace_ne_semicolon _ (htrail _ hmem) rfl

theorem split_cookieString (pairs : List CookiePair) (hne : pairs ≠ [])
    (h : ∀ p ∈ pairs, p.WellFormed) :
    split ';' (cookieString pairs) = pairs.map CookiePair.text := by
  induction pairs with
  | nil => exact absurd rfl hne
  | cons p rest ih =>
    cases rest with
    | nil =>
      simp only [cookieString, List.map_cons, List.map_nil]
      exact split_of_not_mem ';' _ (semicolon_not_mem_text p (h p (List.mem_cons_self _ _)))
    | cons q rest =>
      simp only [cookieString, List.map_cons]
      rw [split_cons_sep ';' _ _ (semicolon_not_mem_text p (h p (List.mem_cons_self _ _))),
        ih (by simp) (fun r hr => h r (List.mem_cons_of_mem _ hr))]
      rfl

theorem getCookie_loop_pairs (decodeURIComponent : String → Except String String)
    (name : String) (pairs : List CookiePair) (h : ∀ p ∈ pairs, p.WellFormed) :
    getCookie.loop decodeURIComponent name (pairs.map CookiePair.text) =
      match pairs.find? fun p => p.key == name.data with
      | none => .ok none
      | some p => (decodeURIComponent ⟨p.value⟩).map some := by
  induction pairs with
  | nil => rfl
  | cons p rest ih =>
    rw [List.map_cons, getCookie.loop, split_pair p (h p (List.mem_cons_self _ _))]
    by_cases hk : p.key = name.data
    · simp [hk]
    · have hk2 : (p.key == name.data) = false := by simpa using hk
      rw [List.find?_cons, hk2]
      simp only [List.head?_cons, Option.some.injEq, hk]
      rw [← ih fun r hr => h r (List.mem_cons_of_mem _ hr)]
      simp [hk]

/-- C25, as stated, fails: for the cookie string `csrftoken=ab=cd`,
`getCookie('csrftoken')` gives `ab`, not the whole text `ab=cd` after the
first `=`; and for the cookie string `a =1`, whose key is `a` once trimmed,
`getCookie('a')` gives `null`. -/
theorem cookie_value_cut_at_second_equals :
    getCookie (fun text => .ok text) "csrftoken=ab=cd" "csrftoken" = .ok (some "ab") ∧
    getCookie (fun text => .ok text) "a =1" "a" = .ok none :=
  ⟨rfl, rfl⟩

/-- C25, amended. For every cookie string made of one or more `;`-separated
`key=value` pairs, each with white space around it, a key that does not start
with white space, a value that does not end with it, and no `=` in the value,
`getCookie(name)` gives `decodeURIComponent` of the value of the first pair
whose key (the text of the pair before the `=`, without the leading white
space) is equal to `name`, and `null` when no key is equal to `name`. -/
theorem getCookie_first_exact_key (decodeURIComponent : String → Except String String)
    (name : String) (pairs : List CookiePair) (hne : pairs ≠ [])
    (h : ∀ p ∈ pairs, p.WellFormed) :
    getCookie decodeURIComponent ⟨cookieString pairs⟩ name =
      match pairs.find? fun p => p.key == name.data with
      | none => .ok none
      | some p => (decodeURIComponent ⟨p.value⟩).map some := by
  unfold getCookie
  rw [split_cookieString pairs hne h]
  exact getCookie_loop_pairs decodeURIComponent name pairs h

theorem getCookie_first_exact_key_witness :
    getCookie (fun text => .ok text)
        ⟨cookieString [⟨[], ['x'], ['1'], []⟩, ⟨[' '], "csrftoken".data, "abc".data, []⟩]⟩
        "csrftoken" = .ok (some "abc") :=
  (getCookie_first_exact_key (fun text => .ok text) "csrftoken"
    [⟨[], ['x'], ['1'], []⟩, ⟨[' '], "csrftoken".data, "abc".data, []⟩] (by simp)
    (by
      intro p hp
      simp only [List.mem_cons, List.mem_singleton, List.not_mem_nil, or_false] at hp
      rcases hp with rfl | rfl <;>
        refine ⟨by decide, by decide, by decide, by decide, by decide, by decide, ?_, ?_⟩ <;>
        (intro c hc; simp at hc; subst hc; decide))).trans rfl

/-! ## pdf-to-png.js and png-to-pdf.js: the events a browser delivers -/

theorem pdfToPng_settle_fields (job : Nat) (upload : Upload) (s : ConvertState) :
    ((s.uploads.find? fun u => u.1 == job) = none ∧
        PdfToPng.convert.settle job upload s = s) ∨
      ((s.uploads.find? fun u => u.1 == job) ≠ none ∧
        (PdfToPng.convert.settle job upload s).convertDisabled = false ∧
        (PdfToPng.convert.settle job upload s).abortController = none ∧
        (PdfToPng.convert.settle job upload s).uploads =
          s.uploads.filter (fun v => v.1 != job) ∧
        (PdfToPng.convert.settle job upload s).timeouts =
          s.timeouts.filter (fun t => t != job)) := by
  unfold PdfToPng.convert.settle
  cases hfind : s.uploads.find? fun u => u.1 == job with
  | none => simp
  | some u =>
    simp only [PdfToPng.convert.caught, PdfToPng.renderResults]
    split <;> (try split) <;> (try split) <;> simp

theorem pngToPdf_renderResults_fields (data : ResultPayload) (s t : ConvertState)
    (h : PngToPdf.renderResults data s = .ok t ∨ PngToPdf.renderResults data s = .error t) :
    t.uploads = s.uploads ∧ t.timeouts = s.timeouts := by
  unfold PngToPdf.renderResults at h
  split at h <;> rcases h with h | h <;> simp at h <;> subst h <;> simp

theorem pngToPdf_settle_fields (typeError : String) (job : Nat) (upload : Upload)
    (s : ConvertState) :
    ((s.uploads.find? fun u => u.1 == job) = none ∧
        PngToPdf.convert.settle typeError job upload s = s) ∨
      ((s.uploads.find? fun u => u.1 == job) ≠ none ∧
        (PngToPdf.convert.settle typeError job upload s).convertDisabled = false ∧
        (PngToPdf.convert.settle typeError job upload s).abortController = none ∧
        (PngToPdf.convert.settle typeError job upload s).uploads =
          s.uploads.filter (fun v => v.1 != job) ∧
        (PngToPdf.convert.settle typeError job upload s).timeouts =
          s.timeouts.filter (fun t => t != job)) := by
  unfold PngToPdf.convert.settle
  cases hfind : s.uploads.find? fun u => u.1 == job with
  | none => simp
  | some u =>
    simp only [PngToPdf.convert.caught]
    split
    · simp
    · simp
    · split
      · simp
      · split
        · rename_i s3 heq
          have h3 := pngToPdf_renderResults_fields _ _ _ (Or.inr heq)
          simpa using h3
        · rename_i s3 heq
          have h3 := pngToPdf_renderResults_fields _ _ _ (Or.inl heq)
          simpa using h3

theorem singleJob_settle (s t : ConvertState) (job : Nat) (h : SingleJob s)
    (ht : ((s.uploads.find? fun u => u.1 == job) = none ∧ t = s) ∨
      ((s.uploads.find? fun u => u.1 == job) ≠ none ∧ t.convertDisabled = false ∧
        t.abortController = none ∧ t.uploads = s.uploads.filter (fun v => v.1 != job) ∧
        t.timeouts = s.timeouts.filter (fun t => t != job))) : SingleJob t := by
  rcases ht with ⟨-, rfl⟩ | ⟨hfind, hd, ha, hu, hto⟩
  · exact h
  · rcases h with ⟨-, -, hup, -⟩ | ⟨-, j, c, hup, -, hcases⟩
    · rw [hup] at hfind
      exact absurd rfl hfind
    · have hj : j = job := by
        rw [hup] at hfind
        by_contra hne
        apply hfind
        simp [hne]
      subst hj
      refine Or.inl ⟨hd, ha, ?_, ?_⟩
      · rw [hu, hup]; simp
      · rw [hto]
        rcases hcases with ⟨h1, -⟩ | ⟨h1, -⟩ <;> rw [h1] <;> simp

theorem singleJob_start (request : Nat → UploadRequest) (s t : ConvertState)
    (hfresh : ControllersFresh s) (h : SingleJob s) (hen : s.convertDisabled = false)
    (hd : t.convertDisabled = true)
    (hu : t.uploads = (startAbortableUpload request (abortCurrent s)).uploads)
    (ha : t.abortController = (startAbortableUpload request (abortCurrent s)).abortController)
    (hto : t.timeouts = (startAbortableUpload request (abortCurrent s)).timeouts)
    (hab : t.aborted = (startAbortableUpload request (abortCurrent s)).aborted) :
    SingleJob t := by
  rcases h with ⟨-, hnone, hup, htimeouts⟩ | ⟨hdis, -⟩
  · have hcur : abortCurrent s = s := by simp [abortCurrent, hnone]
    rw [hcur] at hu ha hto hab
    refine Or.inr ⟨hd, s.nextJob, s.nextController, ?_, ?_, Or.inl ⟨?_, ?_⟩⟩
    · rw [hu]; simp [startAbortableUpload, hup]
    · rw [ha]; simp [startAbortableUpload]
    · rw [hto]; simp [startAbortableUpload, htimeouts]
    · rw [hab]
      intro hmem
      exact Nat.lt_irrefl _ (hfresh.1 _ hmem)
  · rw [hen] at hdis
    exact absurd hdis (by decide)

theorem singleJob_timeout (s : ConvertState) (job : Nat) (h : SingleJob s) :
    SingleJob (PdfToPng.convert.timeout job s) ∧
      ∀ typeError, PngToPdf.step typeError s (.timeout job) =
        PdfToPng.convert.timeout job s := by
  rcases h with ⟨hd, hnone, hup, htimeouts⟩ | ⟨hd, j, c, hup, hctl, hcases⟩
  · have hs : PdfToPng.convert.timeout job s = s := by
      simp [PdfToPng.convert.timeout, htimeouts]
    refine ⟨by rw [hs]; exact Or.inl ⟨hd, hnone, hup, htimeouts⟩, fun _ => ?_⟩
    rw [hs]
    simp [PngToPdf.step, PngToPdf.convert.timeout, htimeouts]
  · rcases hcases with ⟨hto, hlive⟩ | ⟨hto, hdead⟩
    · by_cases hj : job = j
      · subst hj
        refine ⟨Or.inr ⟨?_, job, c, ?_, ?_, Or.inr ⟨?_, ?_⟩⟩, fun _ => ?_⟩
        · simp [PdfToPng.convert.timeout, hto, abortCurrent, hctl, hd]
        · simp [PdfToPng.convert.timeout, hto, abortCurrent, hctl, hup]
        · simp [PdfToPng.convert.timeout, hto, abortCurrent, hctl]
        · simp [PdfToPng.convert.timeout, hto, abortCurrent, hctl]
        · simp [PdfToPng.convert.timeout, hto, abortCurrent, hctl]
        · simp [PngToPdf.step, PngToPdf.convert.timeout, PdfToPng.convert.timeout, hto, hctl]
      · have hs : PdfToPng.convert.timeout job s = s := by
          simp [PdfToPng.convert.timeout, hto, hj]
        refine ⟨by rw [hs]; exact Or.inr ⟨hd, j, c, hup, hctl, Or.inl ⟨hto, hlive⟩⟩,
          fun _ => ?_⟩
        rw [hs]
        simp [PngToPdf.step, PngToPdf.convert.timeout, hto, hj]
    · have hs : PdfToPng.convert.timeout job s = s := by
        simp [PdfToPng.convert.timeout, hto]
      refine ⟨by rw [hs]; exact Or.inr ⟨hd, j, c, hup, hctl, Or.inr ⟨hto, hdead⟩⟩, fun _ => ?_⟩
      rw [hs]
      simp [PngToPdf.step, PngToPdf.convert.timeout, hto]

theorem singleJob_of_fields (s t : ConvertState) (h : SingleJob s)
    (hd : t.convertDisabled = s.convertDisabled) (hu : t.uploads = s.uploads)
    (hc : t.abortController = s.abortController) (hto : t.timeouts = s.timeouts)
    (ha : t.aborted = s.aborted) : SingleJob t := by
  unfold SingleJob
  rw [hd, hu, hc, hto, ha]
  exact h

theorem pdfToPng_deliver_invariant (s : ConvertState) (e : ConvertEvent)
    (h : ControllersFresh s ∧ SingleJob s) :
    ControllersFresh (PdfToPng.deliver s e) ∧ SingleJob (PdfToPng.deliver s e) := by
  cases e with
  | click csrftoken =>
    cases hd : s.convertDisabled with
    | true => simpa [PdfToPng.deliver, hd] using h
    | false =>
      have hstep : PdfToPng.deliver s (.click csrftoken) = PdfToPng.convert.click csrftoken s := by
        simp [PdfToPng.deliver, hd]
      rw [hstep]
      refine ⟨pdfToPng_click_fresh csrftoken s h.1, ?_⟩
      unfold PdfToPng.convert.click
      split
      · exact singleJob_of_fields s _ h.2 rfl rfl rfl rfl rfl
      · exact singleJob_start (PdfToPng.convert.request csrftoken s.page.selection) s _
          h.1 h.2 hd rfl rfl rfl rfl rfl
  | settle job upload =>
    refine ⟨pdfToPng_step_fresh s (.settle job upload) h.1, ?_⟩
    exact singleJob_settle s _ job h.2 (pdfToPng_settle_fields job upload s)
  | timeout job =>
    exact ⟨pdfToPng_step_fresh s (.timeout job) h.1, (singleJob_timeout s job h.2).1⟩

theorem pngToPdf_deliver_invariant (typeError : String) (s : ConvertState) (e : ConvertEvent)
    (h : ControllersFresh s ∧ SingleJob s) :
    ControllersFresh (PngToPdf.deliver typeError s e) ∧
      SingleJob (PngToPdf.deliver typeError s e) := by
  cases e with
  | click csrftoken =>
    cases hd : s.convertDisabled with
    | true => simpa [PngToPdf.deliver, hd] using h
    | false =>
      have hstep : PngToPdf.deliver typeError s (.click csrftoken) =
          PngToPdf.convert.click csrftoken s := by
        simp [PngToPdf.deliver, hd]
      rw [hstep]
      refine ⟨pngToPdf_click_fresh csrftoken s h.1, ?_⟩
      unfold PngToPdf.convert.click
      split
      · exact singleJob_of_fields s _ h.2 rfl rfl rfl rfl rfl
      · exact singleJob_start (PngToPdf.convert.request csrftoken s.selectedFiles) s _
          h.1 h.2 hd rfl rfl rfl rfl rfl
  | settle job upload =>
    refine ⟨pngToPdf_step_fresh typeError s (.settle job upload) h.1, ?_⟩
    exact singleJob_settle s _ job h.2 (pngToPdf_settle_fields typeError job upload s)
  | timeout job =>
    have heq : PngToPdf.deliver typeError s (.timeout job) = PdfToPng.convert.timeout job s :=
      (singleJob_timeout s job h.2).2 typeError
    rw [heq]
    exact ⟨pdfToPng_step_fresh s (.timeout job) h.1, (singleJob_timeout s job h.2).1⟩

theorem initial_singleJob (files : List File) : SingleJob (ConvertState.initial files) :=
  Or.inl ⟨rfl, rfl, rfl, rfl⟩

theorem pdfToPng_delivered_invariant (events : List ConvertEvent) (s : ConvertState)
    (h : ControllersFresh s ∧ SingleJob s) :
    ControllersFresh (PdfToPng.delivered s events) ∧ SingleJob (PdfToPng.delivered s events) := by
  induction events generalizing s with
  | nil => exact h
  | cons e es ih => exact ih _ (pdfToPng_deliver_invariant s e h)

theorem pngToPdf_delivered_invariant (typeError : String) (events : List ConvertEvent)
    (s : ConvertState) (h : ControllersFresh s ∧ SingleJob s) :
    ControllersFresh (PngToPdf.delivered typeError s events) ∧
      SingleJob (PngToPdf.delivered typeError s events) := by
  induction events generalizing s with
  | nil => exact h
  | cons e es ih => exact ih _ (pngToPdf_deliver_invariant typeError s e h)

theorem singleJob_in_flight (s : ConvertState) (job c : Nat) (h : SingleJob s)
    (hmem : (job, c) ∈ s.uploads) :
    s.uploads = [(job, c)] ∧ s.abortController = some c ∧
      ((s.timeouts = [job] ∧ c ∉ s.aborted) ∨ (s.timeouts = [] ∧ c ∈ s.aborted)) := by
  rcases h with ⟨-, -, hup, -⟩ | ⟨-, j, d, hup, hctl, hcases⟩
  · rw [hup] at hmem
    exact absurd hmem (by simp)
  · rw [hup] at hmem
    simp only [List.mem_singleton, Prod.mk.injEq] at hmem
    obtain ⟨rfl, rfl⟩ := hmem
    exact ⟨hup, hctl, hcases⟩

theorem timeout_of_job_in_flight (s : ConvertState) (job c : Nat)
    (hctl : s.abortController = some c) (hto : job ∈ s.timeouts) :
    ((PdfToPng.convert.timeout job s).aborted = s.aborted ++ [c] ∧
      (PdfToPng.convert.timeout job s).log = s.log ++ [.abort c]) ∧
    ((PngToPdf.convert.timeout job s).aborted = s.aborted ++ [c] ∧
      (PngToPdf.convert.timeout job s).log = s.log ++ [.abort c]) := by
  refine ⟨⟨?_, ?_⟩, ?_, ?_⟩ <;>
    simp [PdfToPng.convert.timeout, PngToPdf.convert.timeout, hto, abortCurrent, hctl]

theorem aborted_upload_settles_timed_out (typeError : String) (s : ConvertState) (job c : Nat)
    (upload : Upload) (hup : s.uploads = [(job, c)]) (hdead : c ∈ s.aborted) :
    (PdfToPng.convert.settle job upload s).page.status =
        some ⟨"error", "Conversion timed out",
          "The operation took too long. Please try again with a smaller file."⟩ ∧
      (PngToPdf.convert.settle typeError job upload s).page.status =
        some ⟨"error", "Conversion timed out", ""⟩ := by
  constructor
  · simp [PdfToPng.convert.settle, hup, awaited, hdead, PdfToPng.convert.caught,
      PdfToPng.showStatus]
  · simp [PngToPdf.convert.settle, hup, awaited, hdead, PngToPdf.convert.caught, showStatus]

theorem deliver_aborts_by_timeout (s : ConvertState) (h : SingleJob s) (e : ConvertEvent)
    (t : ConvertState)
    (hclick : ∀ csrftoken, e = .click csrftoken →
      t.aborted = s.aborted ∨
        (s.convertDisabled = false ∧ t.aborted = (abortCurrent s).aborted))
    (hsettle : ∀ job upload, e = .settle job upload → t.aborted = s.aborted)
    (htimeout : ∀ job, e = .timeout job → t = PdfToPng.convert.timeout job s)
    (hne : t.aborted ≠ s.aborted) :
    ∃ job c, e = .timeout job ∧ s.uploads = [(job, c)] ∧ t.aborted = s.aborted ++ [c] := by
  cases e with
  | click csrftoken =>
    rcases hclick csrftoken rfl with ht | ⟨hen, ht⟩
    · exact absurd ht hne
    · rcases h with ⟨-, hnone, -, -⟩ | ⟨hd, -⟩
      · exact absurd (by rw [ht]; simp [abortCurrent, hnone]) hne
      · rw [hen] at hd
        exact absurd hd (by decide)
  | settle job upload => exact absurd (hsettle job upload rfl) hne
  | timeout job =>
    have ht := htimeout job rfl
    by_cases hto : job ∈ s.timeouts
    · rcases h with ⟨-, -, -, htimeouts⟩ | ⟨-, j, c, hup, hctl, hcases⟩
      · rw [htimeouts] at hto
        exact absurd hto (by simp)
      · rcases hcases with ⟨h1, -⟩ | ⟨h1, -⟩
        · rw [h1] at hto
          simp only [List.mem_singleton] at hto
          subst hto
          exact ⟨job, c, rfl, hup, ht ▸ (timeout_of_job_in_flight s job c hctl
            (by rw [h1]; simp)).1.1⟩
        · rw [h1] at hto
          exact absurd hto (by simp)
    · have hs : PdfToPng.convert.timeout job s = s := by
        simp [PdfToPng.convert.timeout, hto]
      exact absurd (by rw [ht, hs]) hne

theorem click_aborted (csrftoken : Option String) (s : ConvertState) :
    ((PdfToPng.convert.click csrftoken s).aborted = s.aborted ∨
      (PdfToPng.convert.click csrftoken s).aborted = (abortCurrent s).aborted) ∧
    ((PngToPdf.convert.click csrftoken s).aborted = s.aborted ∨
      (PngToPdf.convert.click csrftoken s).aborted = (abortCurrent s).aborted) := by
  constructor
  · unfold PdfToPng.convert.click
    split
    · exact Or.inl rfl
    · exact Or.inr rfl
  · unfold PngToPdf.convert.click
    split
    · exact Or.inl rfl
    · exact Or.inr rfl

/-- C30. In `pdf-to-png.js` and `png-to-pdf.js`, after every sequence of
clicks on the convert button (delivered while the button is not disabled),
upload settlements and timeouts from page load: an upload in flight is the
only one in flight and `abortController` holds the controller of its signal,
so when the timeout of that job fires it aborts that controller and nothing
else (in `png-to-pdf.js` the callback does not find `null`). No handler run
starts a job while another is in flight, so no `finally` block of an earlier
job clears the controller of a newer one. -/
theorem job_in_flight_owns_controller (typeError : String) (files : List File)
    (events : List ConvertEvent) (job c : Nat) :
    (∀ s, s = PdfToPng.delivered (ConvertState.initial files) events →
      (job, c) ∈ s.uploads →
      s.uploads = [(job, c)] ∧ s.abortController = some c ∧
        (job ∈ s.timeouts →
          (PdfToPng.convert.timeout job s).aborted = s.aborted ++ [c] ∧
            (PdfToPng.convert.timeout job s).log = s.log ++ [.abort c])) ∧
    (∀ s, s = PngToPdf.delivered typeError (ConvertState.initial files) events →
      (job, c) ∈ s.uploads →
      s.uploads = [(job, c)] ∧ s.abortController = some c ∧
        (job ∈ s.timeouts →
          (PngToPdf.convert.timeout job s).aborted = s.aborted ++ [c] ∧
            (PngToPdf.convert.timeout job s).log = s.log ++ [.abort c])) := by
  constructor
  · intro s hs hmem
    have hinv := pdfToPng_delivered_invariant events _
      ⟨initial_fresh files, initial_singleJob files⟩
    rw [← hs] at hinv
    obtain ⟨hup, hctl, -⟩ := singleJob_in_flight s job c hinv.2 hmem
    exact ⟨hup, hctl, fun hto => (timeout_of_job_in_flight s job c hctl hto).1⟩
  · intro s hs hmem
    have hinv := pngToPdf_delivered_invariant typeError events _
      ⟨initial_fresh files, initial_singleJob files⟩
    rw [← hs] at hinv
    obtain ⟨hup, hctl, -⟩ := singleJob_in_flight s job c hinv.2 hmem
    exact ⟨hup, hctl, fun hto => (timeout_of_job_in_flight s job c hctl hto).2⟩

theorem job_in_flight_owns_controller_witness :
    (PngToPdf.convert.timeout 1
        (PngToPdf.delivered "" (ConvertState.initial [⟨"a.png", "image/png", 10⟩])
          [.click none, .click none, .settle 0 (.rejected "TypeError" "Failed to fetch"),
            .click none])).aborted = [1] :=
  ((job_in_flight_owns_controller "" [⟨"a.png", "image/png", 10⟩]
    [.click none, .click none, .settle 0 (.rejected "TypeError" "Failed to fetch"),
      .click none] 1 1).2 _ rfl (by decide)).2.2 (by decide) |>.1.trans (by decide)

/-- C21. In `pdf-to-png.js` and `png-to-pdf.js`, after every sequence of
clicks on the convert button (delivered while the button is not disabled),
upload settlements and timeouts from page load, no upload is superseded:
whenever the button is enabled no upload is in flight and a run of the convert
handler aborts nothing; the only event that aborts a controller is the timeout
of the one job in flight, which aborts the controller of that job; an upload
in flight whose controller has been aborted has had its timeout fired, and it
is this upload that settles with the banner `Conversion timed out`. So that
banner is never shown for an upload aborted by a newer submission. -/
theorem no_upload_superseded (typeError : String) (files : List File)
    (events : List ConvertEvent) :
    (∀ s, s = PdfToPng.delivered (ConvertState.initial files) events →
      (s.convertDisabled = false →
        s.uploads = [] ∧
          ∀ csrftoken, (PdfToPng.convert.click csrftoken s).aborted = s.aborted) ∧
      (∀ e, (PdfToPng.deliver s e).aborted ≠ s.aborted →
        ∃ job c, e = .timeout job ∧ s.uploads = [(job, c)] ∧
          (PdfToPng.deliver s e).aborted = s.aborted ++ [c]) ∧
      (∀ job c upload, (job, c) ∈ s.uploads → c ∈ s.aborted →
        job ∉ s.timeouts ∧
          (PdfToPng.convert.settle job upload s).page.status =
            some ⟨"error", "Conversion timed out",
              "The operation took too long. Please try again with a smaller file."⟩)) ∧
    (∀ s, s = PngToPdf.delivered typeError (ConvertState.initial files) events →
      (s.convertDisabled = false →
        s.uploads = [] ∧
          ∀ csrftoken, (PngToPdf.convert.click csrftoken s).aborted = s.aborted) ∧
      (∀ e, (PngToPdf.deliver typeError s e).aborted ≠ s.aborted →
        ∃ job c, e = .timeout job ∧ s.uploads = [(job, c)] ∧
          (PngToPdf.deliver typeError s e).aborted = s.aborted ++ [c]) ∧
      (∀ job c upload, (job, c) ∈ s.uploads → c ∈ s.aborted →
        job ∉ s.timeouts ∧
          (PngToPdf.convert.settle typeError job upload s).page.status =
            some ⟨"error", "Conversion timed out", ""⟩)) := by
  have henabled : ∀ s : ConvertState, SingleJob s → s.convertDisabled = false →
      s.uploads = [] ∧ abortCurrent s = s := by
    intro s h hen
    rcases h with ⟨-, hnone, hup, -⟩ | ⟨hd, -⟩
    · exact ⟨hup, by simp [abortCurrent, hnone]⟩
    · rw [hen] at hd
      exact absurd hd (by decide)
  have hfired : ∀ (s : ConvertState) (job c : Nat), SingleJob s → (job, c) ∈ s.uploads →
      c ∈ s.aborted → s.uploads = [(job, c)] ∧ job ∉ s.timeouts := by
    intro s job c h hmem hdead
    obtain ⟨hup, -, ⟨-, hlive⟩ | ⟨hto, -⟩⟩ := singleJob_in_flight s job c h hmem
    · exact absurd hdead hlive
    · exact ⟨hup, by rw [hto]; simp⟩
  constructor
  · intro s hs
    have hinv := pdfToPng_delivered_invariant events _
      ⟨initial_fresh files, initial_singleJob files⟩
    rw [← hs] at hinv
    refine ⟨fun hen => ⟨(henabled s hinv.2 hen).1, fun csrftoken => ?_⟩, fun e hne => ?_,
      fun job c upload hmem hdead => ?_⟩
    · rcases (click_aborted csrftoken s).1 with h | h
      · exact h
      · rw [h, (henabled s hinv.2 hen).2]
    · refine deliver_aborts_by_timeout s hinv.2 e _ ?_ ?_ ?_ hne
      · rintro csrftoken rfl
        cases hd : s.convertDisabled with
        | true => exact Or.inl (by simp [PdfToPng.deliver, hd])
        | false =>
          rcases (click_aborted csrftoken s).1 with h | h
          · exact Or.inl (by simpa [PdfToPng.deliver, hd] using h)
          · exact Or.inr ⟨rfl, by simpa [PdfToPng.deliver, hd] using h⟩
      · rintro job upload rfl
        exact (pdfToPng_settle_controllers job upload s).1
      · rintro job rfl
        rfl
    · obtain ⟨hup, hto⟩ := hfired s job c hinv.2 hmem hdead
      exact ⟨hto, (aborted_upload_settles_timed_out typeError s job c upload hup hdead).1⟩
  · intro s hs
    have hinv := pngToPdf_delivered_invariant typeError events _
      ⟨initial_fresh files, initial_singleJob files⟩
    rw [← hs] at hinv
    refine ⟨fun hen => ⟨(henabled s hinv.2 hen).1, fun csrftoken => ?_⟩, fun e hne => ?_,
      fun job c upload hmem hdead => ?_⟩
    · rcases (click_aborted csrftoken s).2 with h | h
      · exact h
      · rw [h, (henabled s hinv.2 hen).2]
    · refine deliver_aborts_by_timeout s hinv.2 e _ ?_ ?_ ?_ hne
      · rintro csrftoken rfl
        cases hd : s.convertDisabled with
        | true => exact Or.inl (by simp [PngToPdf.deliver, hd])
        | false =>
          rcases (click_aborted csrftoken s).2 with h | h
          · exact Or.inl (by simpa [PngToPdf.deliver, hd] using h)
          · exact Or.inr ⟨rfl, by simpa [PngToPdf.deliver, hd] using h⟩
      · rintro job upload rfl
        exact (pngToPdf_settle_controllers typeError job upload s).1
      · rintro job rfl
        exact (singleJob_timeout s job hinv.2).2 typeError
    · obtain ⟨hup, hto⟩ := hfired s job c hinv.2 hmem hdead
      exact ⟨hto, (aborted_upload_settles_timed_out typeError s job c upload hup hdead).2⟩

theorem no_upload_superseded_witness :
    (PdfToPng.convert.settle 0 (.resolved 200 (.error "Unexpected end of JSON input"))
        (PdfToPng.delivered (ConvertState.initial [⟨"a.pdf", "application/pdf", 10⟩])
          [.click none, .click none, .timeout 0])).page.status =
      some ⟨"error", "Conversion timed out",
        "The operation took too long. Please try again with a smaller file."⟩ :=
  (((no_upload_superseded "" [⟨"a.pdf", "application/pdf", 10⟩]
    [.click none, .click none, .timeout 0]).1 _ rfl).2.2 0 0
      (.resolved 200 (.error "Unexpected end of JSON input")) (by decide) (by decide)).2

end Toolifiq
